import Mathlib

/-!
# USB device-controller driver core of `mcu_stm32l4xx`

Shallow embedding of `src/mcu/usb` (packet memory, generic endpoint, control
endpoint, device controller) and of `src/mcu/utility/bit_manipulation.h`.

Conventions
* `unsigned int` / `uint32_t` values are naturals below `2^32`; every operation
  that can leave that range is reduced modulo `4294967296`.
* A caller buffer (`uint8_t data[]`) is a function from the index to the byte
  found there. It is total because the code may read one element past the
  logical end of a buffer; element values are taken modulo 256 when read.
* Object fields keep their C++ names. `int` fields are integers, `uintN_t`
  fields are naturals.
* Calls that leave the driver (descriptor provider, descriptor hooks,
  callbacks), stores to the endpoint registers and to DADDR, and the hook
  invocations made by `USB::irq()` are appended to `State.trace`.
-/

namespace mcu

/-! ## `utility/bit_manipulation.h` -/

/-- Complement of a 32-bit unsigned value, the C operator `~`. -/
def not32 (x : Nat) : Nat := 0xFFFFFFFF ^^^ (x % 4294967296)

/-- Value of a single bit: `(value >> bitNo) & 0x01`. -/
def bitValue (value bitNo : Nat) : Nat := (value >>> bitNo) &&& 0x01

/-- Set a single bit: `value | (1 << bitNo)`. -/
def bitSet (value bitNo : Nat) : Nat := (value ||| (1 <<< bitNo)) % 4294967296

/-- Reset a single bit: `value & ~(1 << bitNo)`. -/
def bitReset (value bitNo : Nat) : Nat := value &&& not32 (1 <<< bitNo)

/-- Mask of `noBits` ones starting at `bitOffset`: `((1 << noBits) - 1) << bitOffset`. -/
def bitMask (noBits bitOffset : Nat) : Nat :=
  (((1 <<< noBits) - 1) <<< bitOffset) % 4294967296

/-- Right aligned field: `(value >> offset) & bitMask(noBits, 0)`. -/
def bitsValue (value noBits offset : Nat) : Nat :=
  (value >>> offset) &&& bitMask noBits 0

/-- Replace a field: `(value & ~mask) | ((replacement << offset) & mask)`. -/
def bitsReplace (value replacement noBits offset : Nat) : Nat :=
  let mask := bitMask noBits offset
  (value &&& not32 mask) ||| (((replacement <<< offset) % 4294967296) &&& mask)

/-- Conversion of an `int` to `unsigned int` / `size_t` (32 bits). -/
def toU32 (x : Int) : Nat := (x % 4294967296).toNat

/-- Conversion of an `int` to `uint16_t`. -/
def toU16 (x : Int) : Nat := (x % 65536).toNat

/-! ## `usb/USB_Registers.h` -/

namespace USB_Registers

namespace EPnR

def EA_0 : Nat := 0
def STAT_TX_0 : Nat := 4
def STAT_TX_1 : Nat := 5
def DTOG_TX : Nat := 6
def CTR_TX : Nat := 7
def EP_KIND : Nat := 8
def EP_TYPE_0 : Nat := 9
def EP_TYPE_1 : Nat := 10
def SETUP : Nat := 11
def STAT_RX_0 : Nat := 12
def STAT_RX_1 : Nat := 13
def DTOG_RX : Nat := 14
def CTR_RX : Nat := 15

/-- Mask for STAT_TX bits. -/
def STAT_TX_MASK : Nat := (1 <<< STAT_TX_0) ||| (1 <<< STAT_TX_1)

/-- Mask for STAT_RX bits. -/
def STAT_RX_MASK : Nat := (1 <<< STAT_RX_0) ||| (1 <<< STAT_RX_1)

/-- Bit mask for all write 0 bits. -/
def RC_W0_MASK : Nat := (1 <<< CTR_TX) ||| (1 <<< CTR_RX)

/-- Bit mask for all toggle bits. -/
def TOGGLE_MASK : Nat :=
  STAT_TX_MASK ||| (1 <<< DTOG_TX) ||| STAT_RX_MASK ||| (1 <<< DTOG_RX)

/-- Modelled from the spec: the hardware side of a store to an endpoint
register, which is not part of the driver sources. A written 1 in a toggle bit
(STAT_TX, DTOG_TX, STAT_RX, DTOG_RX) inverts the bit, a written 0 in CTR_TX or
CTR_RX clears it (a written 1 leaves it), every other bit takes the written
value. `cur` is the register content before the store, `w` the stored word. -/
def hwWrite (cur w : Nat) : Nat :=
  ((cur ^^^ w) &&& TOGGLE_MASK)
    ||| ((cur &&& w) &&& RC_W0_MASK)
    ||| (w &&& not32 (TOGGLE_MASK ||| RC_W0_MASK))

end EPnR

namespace CNTR

def FRES : Nat := 0
def PDWN : Nat := 1
def FSUSP : Nat := 3
def RESETM : Nat := 10
def SUSPM : Nat := 11
def WKUPM : Nat := 12
def CTRM : Nat := 15

end CNTR

namespace ISTR

def EP_ID_0 : Nat := 0
def DIR : Nat := 4
def RESET : Nat := 10
def SUSP : Nat := 11
def WKUP : Nat := 12
def CTR : Nat := 15

end ISTR

namespace DADDR

def ADD_0 : Nat := 0
def EF : Nat := 7

end DADDR

namespace BCDR

def DPPU : Nat := 15

end BCDR

end USB_Registers

/-! ## `usb/USB_SRAM.cpp`

The packet memory is an array of 16-bit cells (`(uint16_t*)BASE_ADDRESS`); the
byte view (`(uint8_t*)BASE_ADDRESS`) is little endian: byte `a` is the low half
of cell `a / 2` when `a` is even and the high half when `a` is odd. Addresses
are `uint32_t`; sums of an address and an index stay far below `2^32` for
every address inside the memory, so no wrap-around is modelled. -/

/-- Caller memory seen through a `uint8_t*`. -/
abbrev Buf := Nat → Nat

/-- Packet memory: cell index to 16-bit cell content. -/
abbrev Mem := Nat → Nat

namespace USB_SRAM

def SIZE : Nat := 1024

namespace Registers.COUNTn_RX

def NUM_BLOCK_0 : Nat := 10
def BL_SIZE : Nat := 15

end Registers.COUNTn_RX

/-- Store to `memory[index]` with `memory` a `uint16_t*`. -/
def storeCell (memory : Mem) (index value : Nat) : Mem :=
  fun j => if j = index then value % 65536 else memory j

/-- Load of `memory[address]` with `memory` a `uint8_t*`. -/
def readByte (memory : Mem) (address : Nat) : Nat :=
  (memory (address / 2) >>> (8 * (address % 2))) % 256

/-- Byte-wise copy out of the memory: `buffer[i] = memory[address + i]` for `i < size`. -/
def read (memory : Mem) (address : Nat) (buffer : Buf) (size : Nat) : Buf :=
  fun i => if i < size then readByte memory (address + i) else buffer i

/-- Load of the cell at `address >> 1`. -/
def readHalfword (memory : Mem) (address : Nat) : Nat :=
  memory (address >>> 1) % 65536

/-- One pass of the loop body of `write` for `i = 2 * k`. -/
def writeStep (address : Nat) (buffer : Buf) (memory : Mem) (k : Nat) : Mem :=
  let i := 2 * k
  let index := (address + i) >>> 1
  storeCell memory index ((buffer i % 256) ||| ((buffer (i + 1) % 256) <<< 8))

/-- Copy into the memory: the loop `for (i = 0; i < size; i += 2)` runs for
`i = 2 * k` with `k < (size + 1) / 2`. -/
def write (memory : Mem) (address : Nat) (buffer : Buf) (size : Nat) : Mem :=
  (List.range ((size + 1) / 2)).foldl (writeStep address buffer) memory

/-- Byte store implemented as a cell store: `memory[address >> 1] = value | (readByte(address + 1) << 8)`. -/
def writeByte (memory : Mem) (address value : Nat) : Mem :=
  storeCell memory (address >>> 1) ((value % 256) ||| (readByte memory (address + 1) <<< 8))

/-- Store to the cell at `address >> 1`. -/
def writeHalfword (memory : Mem) (address value : Nat) : Mem :=
  storeCell memory (address >>> 1) value

/-- Zero the `SIZE` bytes of the memory (`memset`). -/
def clear (memory : Mem) : Mem :=
  fun j => if j < SIZE / 2 then 0 else memory j

end USB_SRAM

/-! ## `usb/USB_Descriptor.h`, `usb/USB.h`: data model -/

/-- Descriptor object handed out by the descriptor provider. Its hooks
`onGetLength()` (a `uint16_t`) and `onGetData(index)` (a `uint8_t`) are taken
as pure: the same answer on every call. Calls of the hooks are recorded in the
trace. -/
structure USB_Descriptor where
  onGetLength : Nat
  onGetData : Int → Nat

/-- Calls leaving the driver, stores to the endpoint registers and to DADDR, and
invocations of the endpoint hooks by `USB::irq()`, in program order. -/
inductive Event where
  | writeEPnR (number value : Nat)
  | writeDADDR (value : Nat)
  | descriptorCallback (type index : Nat)
  | descriptorOnInit
  | descriptorOnDeinit
  | descriptorOnGetLength
  | descriptorOnGetData (index : Int)
  | resetCallback
  | suspendCallback
  | resumeCallback
  | onSetupReceptionComplete (number : Nat)
  | onReceptionComplete (number : Nat)
  | onTransmissionComplete (number : Nat)

namespace Event

def isWriteDADDR : Event → Bool
  | writeDADDR _ => true
  | _ => false

def isDescriptorOnInit : Event → Bool
  | descriptorOnInit => true
  | _ => false

/-- Calls that leave the driver: every event that is neither a register store
nor the invocation of an endpoint hook. -/
def isCall : Event → Bool
  | writeEPnR _ _ => false
  | writeDADDR _ => false
  | onSetupReceptionComplete _ => false
  | onReceptionComplete _ => false
  | onTransmissionComplete _ => false
  | _ => true

/-- Invocations of the transfer hooks of an endpoint (`onSetupReceptionComplete`,
`onReceptionComplete`, `onTransmissionComplete`), recorded with the number of the
endpoint object. -/
def isTransferHook : Event → Bool
  | onSetupReceptionComplete _ => true
  | onReceptionComplete _ => true
  | onTransmissionComplete _ => true
  | _ => false

def isSuspendCallback : Event → Bool
  | suspendCallback => true
  | _ => false

def isResumeCallback : Event → Bool
  | resumeCallback => true
  | _ => false

def isResetCallback : Event → Bool
  | resetCallback => true
  | _ => false

def isWriteEPnR : Event → Bool
  | writeEPnR _ _ => true
  | _ => false

end Event

namespace USB

/-- Device status. -/
inductive Status where
  | DISABLED | POWERED | DEFAULT | ADDRESSED | CONFIGURED | SUSPENDED | ATTACHED
  deriving DecidableEq, Repr

end USB

/-- Fields of `USB_Endpoint` with their default member initialisers. -/
structure USB_Endpoint where
  number : Nat
  bufferDescriptorAddress : Nat := (number * 8) % 256
  txBufferAddress : Nat := 64 + number * 128
  txBufferSize : Nat := 64
  rxBufferAddress : Nat := 128 + number * 128
  rxBufferSize : Nat := 64

namespace USB_Endpoint

/-- Endpoint type (`enum class Type`; `Type` is reserved in Lean). -/
inductive EpType where
  | BULK | CONTROL | ISOCHRONOUS | INTERRUPT
  deriving DecidableEq, Repr

/-- Numeric value of the enumerator. -/
def EpType.toNat : EpType → Nat
  | .BULK => 0b00
  | .CONTROL => 0b01
  | .ISOCHRONOUS => 0b10
  | .INTERRUPT => 0b11

/-- Endpoint status. -/
inductive Status where
  | DISABLED | STALL | NAK | VALID
  deriving DecidableEq, Repr

/-- Numeric value of the enumerator. -/
def Status.toNat : Status → Nat
  | .DISABLED => 0b00
  | .STALL => 0b01
  | .NAK => 0b10
  | .VALID => 0b11

end USB_Endpoint

namespace USB_ControlEndpoint

/-- Data stage. -/
inductive DataStage where
  | NONE | IN | OUT
  deriving DecidableEq, Repr

end USB_ControlEndpoint

/-- Fields of `USB_ControlEndpoint`: endpoint 0 plus the control-transfer state.
`addressTemp` only ever holds `wValue & 0x7F` or 0 and is kept as a natural.
The provider takes the descriptor type and index; its context pointer is part
of the function. -/
structure USB_ControlEndpoint extends USB_Endpoint where
  number := 0
  dataStage : USB_ControlEndpoint.DataStage := .NONE
  dataStageLength : Int := 0
  addressTemp : Nat := 0
  descriptorCallbackFunc : Option (Nat → Nat → Option USB_Descriptor) := none
  pendingDescriptor : Option USB_Descriptor := none
  pendingDescriptorDataIndex : Int := 0

/-- What a slot of `USB::endpoints` points to: the controller's own
`controlEndpoint`, or an endpoint object owned by the code that composes the
device. Such an object is a plain `USB_Endpoint` here: its hooks are the empty
base-class hooks, and its fields are kept in the slot. -/
inductive EndpointRef where
  | control
  | generic (endpoint : USB_Endpoint)

/-- Hardware registers and packet memory of the peripheral, the `USB` singleton
with its control endpoint, and the trace. `EPnR n` is the endpoint register of
endpoint `n` (`&EP0R + n`, for `n` in 0..7). `endpoints k` is the slot `k` of the
array `endpoints[NUM_ENDPOINTS]` for `k` in 0..7, `none` for `nullptr`. A callback
field says whether the function pointer is set. -/
structure State where
  sram : Mem := fun _ => 0
  EPnR : Nat → Nat := fun _ => 0
  CNTR : Nat := 0
  ISTR : Nat := 0
  DADDR : Nat := 0
  BTABLE : Nat := 0
  status : USB.Status := .DISABLED
  preSuspendStatus : USB.Status := .DISABLED
  controlEndpoint : USB_ControlEndpoint := {}
  trace : List Event := []
  endpoints : Nat → Option EndpointRef := fun k => if k = 0 then some .control else none
  resetCallback : Bool := false
  suspendCallback : Bool := false
  resumeCallback : Bool := false
  BCDR : Nat := 0

namespace State

/-- Append one event to the trace. -/
def log (st : State) (e : Event) : State :=
  { st with trace := st.trace ++ [e] }

/-- Append several events to the trace. -/
def logAll (st : State) (es : List Event) : State :=
  { st with trace := st.trace ++ es }

/-- Replace the packet memory content. -/
def setSram (st : State) (memory : Mem) : State :=
  { st with sram := memory }

/-- Assignment `usb.status = status`. -/
def setStatus (st : State) (status : USB.Status) : State :=
  { st with status := status }

/-- Assignments `dataStage = stage; dataStageLength = length;` of the control endpoint. -/
def setDataStage (st : State) (stage : USB_ControlEndpoint.DataStage) (length : Int) : State :=
  { st with controlEndpoint.dataStage := stage, controlEndpoint.dataStageLength := length }

/-- Assignment `addressTemp = value` of the control endpoint. -/
def setAddressTemp (st : State) (value : Nat) : State :=
  { st with controlEndpoint.addressTemp := value }

/-- Assignment `pendingDescriptor = descriptor` of the control endpoint. -/
def setPendingDescriptor (st : State) (descriptor : Option USB_Descriptor) : State :=
  { st with controlEndpoint.pendingDescriptor := descriptor }

/-- Assignment `pendingDescriptorDataIndex = index` of the control endpoint. -/
def setPendingDescriptorDataIndex (st : State) (index : Int) : State :=
  { st with controlEndpoint.pendingDescriptorDataIndex := index }

/-- Load of `*EPnR` of endpoint `number`. -/
def readEPnR (st : State) (number : Nat) : Nat :=
  st.EPnR number % 4294967296

/-- Store `*EPnR = value` for endpoint `number`; the register reacts as `hwWrite` says. -/
def writeEPnR (st : State) (number value : Nat) : State :=
  { st with
    EPnR := fun n =>
      if n = number then USB_Registers.EPnR.hwWrite (st.EPnR n) value else st.EPnR n
    trace := st.trace ++ [Event.writeEPnR number value] }

/-- Store `registers->DADDR = value`. -/
def writeDADDR (st : State) (value : Nat) : State :=
  { st with DADDR := value % 4294967296, trace := st.trace ++ [Event.writeDADDR value] }

/-- Store `registers->CNTR = value`. -/
def writeCNTR (st : State) (value : Nat) : State :=
  { st with CNTR := value % 4294967296 }

/-- Store `registers->ISTR = value`. -/
def writeISTR (st : State) (value : Nat) : State :=
  { st with ISTR := value % 4294967296 }

/-- Store `registers->BTABLE = value`. -/
def writeBTABLE (st : State) (value : Nat) : State :=
  { st with BTABLE := value % 4294967296 }

/-- Assignment `preSuspendStatus = status`. -/
def setPreSuspendStatus (st : State) (status : USB.Status) : State :=
  { st with preSuspendStatus := status }

/-- The hardware latches the interrupt status word `istr` in ISTR. -/
def interrupt (st : State) (istr : Nat) : State :=
  { st with ISTR := istr }

/-- Store `registers->BCDR = value`. -/
def writeBCDR (st : State) (value : Nat) : State :=
  { st with BCDR := value % 4294967296 }

/-- Assignment `descriptorCallbackFunc = func` of the control endpoint. -/
def setDescriptorCallbackFunc (st : State)
    (func : Option (Nat → Nat → Option USB_Descriptor)) : State :=
  { st with controlEndpoint.descriptorCallbackFunc := func }

/-- Modelled from the spec: what the peripheral does between two interrupts is
not part of the driver sources. It latches a status word in ISTR, changes endpoint
registers (flags, status and toggle bits) and stores packets and byte counts in
the packet memory: `registers` and `memory` give the new contents from the old
ones. -/
def peripheral (st : State) (istr : Nat) (registers : (Nat → Nat) → (Nat → Nat))
    (memory : Mem → Mem) : State :=
  { st with ISTR := istr, EPnR := registers st.EPnR, sram := memory st.sram }

/-- Events appended to the trace since the state `before`. -/
def newEvents (before st : State) : List Event :=
  st.trace.drop before.trace.length

/-- A property of the state that the plain assignments and stores made by the
endpoint handlers keep: appending to the trace, storing to the packet memory and
to an endpoint register, and assigning the device status, the stage fields and
the pending-descriptor fields. Stores to DADDR and assignments of the deferred
address are not included. -/
def Stable (P : State → Prop) : Prop :=
  (∀ x e, P x → P (x.log e))
    ∧ (∀ x es, P x → P (x.logAll es))
    ∧ (∀ x m, P x → P (x.setSram m))
    ∧ (∀ x v, P x → P (x.setStatus v))
    ∧ (∀ x d n, P x → P (x.setDataStage d n))
    ∧ (∀ x d, P x → P (x.setPendingDescriptor d))
    ∧ (∀ x n, P x → P (x.setPendingDescriptorDataIndex n))
    ∧ (∀ x n v, P x → P (x.writeEPnR n v))

/-- No device address is in force and none is deferred: the address field of
DADDR is 0, its enable bit is set and `addressTemp` is 0. -/
def Unaddressed (st : State) : Prop :=
  bitsValue st.DADDR 7 USB_Registers.DADDR.ADD_0 = 0
    ∧ bitValue st.DADDR USB_Registers.DADDR.EF = 1
    ∧ st.controlEndpoint.addressTemp = 0

/-- Relation between a state `s` and a later state `s2` of the same interrupt:
the `USB_Endpoint` fields of the control endpoint are those of `s`, and the trace
of `s2` is the trace of `s` followed by events of which the transfer-hook
invocations are, in order, `hooks`. -/
def HandlerStep (s s2 : State) (hooks : List Event) : Prop :=
  s2.controlEndpoint.toUSB_Endpoint = s.controlEndpoint.toUSB_Endpoint
    ∧ ∃ l, s2.trace = s.trace ++ l ∧ l.filter Event.isTransferHook = hooks

end State

/-! ## `usb/USB_Endpoint.cpp` -/

namespace USB_Endpoint

open USB_Registers

/-- Word stored by `setAddress`, from the word read. -/
def setAddressWord (value : Nat) (address : Int) : Nat :=
  let value := bitsReplace value (toU32 address) 4 EPnR.EA_0
  let value := value &&& not32 EPnR.TOGGLE_MASK
  let value := (value ||| EPnR.RC_W0_MASK) % 4294967296
  value

/-- Word stored by `setType`, from the word read. -/
def setTypeWord (value : Nat) (type : EpType) : Nat :=
  let value := bitsReplace value type.toNat 2 EPnR.EP_TYPE_0
  let value := value &&& not32 EPnR.TOGGLE_MASK
  let value := (value ||| EPnR.RC_W0_MASK) % 4294967296
  value

/-- Word stored by `setTransmissionStatus`, from the word read. -/
def setTransmissionStatusWord (value : Nat) (status : Status) : Nat :=
  let statTx := bitsValue value 2 EPnR.STAT_TX_0
  let statTx := statTx ^^^ status.toNat
  let value := value &&& not32 EPnR.TOGGLE_MASK
  let value := (value ||| EPnR.RC_W0_MASK) % 4294967296
  let value := bitsReplace value statTx 2 EPnR.STAT_TX_0
  value

/-- Word stored by `setReceptionStatus`, from the word read. -/
def setReceptionStatusWord (value : Nat) (status : Status) : Nat :=
  let statRx := bitsValue value 2 EPnR.STAT_RX_0
  let statRx := statRx ^^^ status.toNat
  let value := value &&& not32 EPnR.TOGGLE_MASK
  let value := (value ||| EPnR.RC_W0_MASK) % 4294967296
  let value := bitsReplace value statRx 2 EPnR.STAT_RX_0
  value

def setAddress (ep : USB_Endpoint) (st : State) (address : Int) : State :=
  st.writeEPnR ep.number (setAddressWord (st.readEPnR ep.number) address)

def setType (ep : USB_Endpoint) (st : State) (type : EpType) : State :=
  st.writeEPnR ep.number (setTypeWord (st.readEPnR ep.number) type)

def setTransmissionStatus (ep : USB_Endpoint) (st : State) (status : Status) : State :=
  st.writeEPnR ep.number (setTransmissionStatusWord (st.readEPnR ep.number) status)

def setReceptionStatus (ep : USB_Endpoint) (st : State) (status : Status) : State :=
  st.writeEPnR ep.number (setReceptionStatusWord (st.readEPnR ep.number) status)

/-- Received length: `readHalfword(bufferDescriptorAddress + 6) & 0x3FF`. -/
def getReceivedLength (ep : USB_Endpoint) (st : State) : Int :=
  ((USB_SRAM.readHalfword st.sram (ep.bufferDescriptorAddress + 6) &&& 0x3FF : Nat) : Int)

/-- Body of `transmit(data, size)`. -/
def transmit (ep : USB_Endpoint) (st : State) (data : Buf) (size : Int) : State :=
  let writeSize := min size (ep.txBufferSize : Int)
  let st := st.setSram (USB_SRAM.write st.sram ep.txBufferAddress data (toU32 writeSize))
  let st := st.setSram
    (USB_SRAM.writeHalfword st.sram (ep.bufferDescriptorAddress + 2) (toU16 writeSize))
  ep.setTransmissionStatus st Status.VALID

/-- Body of `receive(data, size)`: the state after the call, the buffer after the
call and the returned length. -/
def receive (ep : USB_Endpoint) (st : State) (data : Buf) (size : Int) : State × Buf × Int :=
  let readLength := min size (ep.getReceivedLength st)
  let data := USB_SRAM.read st.sram ep.rxBufferAddress data (toU32 readLength)
  let st := ep.setReceptionStatus st Status.VALID
  (st, data, readLength)

/-- Word stored by `clearTxRxFlags`, from the word read. -/
def clearTxRxFlagsWord (value : Nat) : Nat :=
  let value := value &&& not32 EPnR.TOGGLE_MASK
  let value := (value ||| EPnR.RC_W0_MASK) % 4294967296
  let value := value &&& not32 ((1 <<< EPnR.CTR_TX) ||| (1 <<< EPnR.CTR_RX))
  value

def clearTxRxFlags (ep : USB_Endpoint) (st : State) : State :=
  st.writeEPnR ep.number (clearTxRxFlagsWord (st.readEPnR ep.number))

/-- Value of `bufferDescriptor.COUNTn_RX` at the `write` call of
`initBufferDescriptor()`. The local struct is not initialised and neither branch
assigns the field for a size of 0, 1 or 63: `uninitialised` is what the stack
slot holds then. -/
def countRxWord (rxBufferSize uninitialised : Nat) : Nat :=
  if rxBufferSize ≥ 2 ∧ rxBufferSize ≤ 62 then
    bitsReplace 0 (rxBufferSize / 2) 5 USB_SRAM.Registers.COUNTn_RX.NUM_BLOCK_0 % 65536
  else if rxBufferSize ≥ 64 then
    (bitsReplace 0 (rxBufferSize / 32 - 1) 5 USB_SRAM.Registers.COUNTn_RX.NUM_BLOCK_0
      ||| (1 <<< USB_SRAM.Registers.COUNTn_RX.BL_SIZE)) % 65536
  else
    uninitialised % 65536

/-- The four `Register16` members of the local `bufferDescriptor`, in the order
of the packed struct `Block`. -/
def bufferDescriptorWords (ep : USB_Endpoint) (uninitialised : Nat) : List Nat :=
  [ep.txBufferAddress % 65536, 0, ep.rxBufferAddress % 65536,
    countRxWord ep.rxBufferSize uninitialised]

/-- The local `bufferDescriptor` seen through `(uint8_t*)&bufferDescriptor`: byte
`i` of the 8 bytes of the struct (little endian), and `adjacent i` behind it. -/
def bufferDescriptorBytes (ep : USB_Endpoint) (uninitialised : Nat) (adjacent : Buf) : Buf :=
  fun i =>
    if i < 8 then
      ((ep.bufferDescriptorWords uninitialised).getD (i / 2) 0 >>> (8 * (i % 2))) % 256
    else adjacent i

/-- Body of `initBufferDescriptor()`; `sizeof(bufferDescriptor)` is 8. -/
def initBufferDescriptor (ep : USB_Endpoint) (st : State) (uninitialised : Nat)
    (adjacent : Buf) : State :=
  st.setSram (USB_SRAM.write st.sram ep.bufferDescriptorAddress
    (ep.bufferDescriptorBytes uninitialised adjacent) 8)

/-- Modelled from the spec: the buffer capacity the hardware takes from a
COUNTn_RX word, `2 * NUM_BLOCK` bytes when BL_SIZE is 0 and `32 * (NUM_BLOCK + 1)`
bytes when BL_SIZE is 1. The hardware is not part of the driver sources. -/
def rxCapacity (countRx : Nat) : Nat :=
  if bitValue countRx USB_SRAM.Registers.COUNTn_RX.BL_SIZE = 0 then
    2 * bitsValue countRx 5 USB_SRAM.Registers.COUNTn_RX.NUM_BLOCK_0
  else
    32 * (bitsValue countRx 5 USB_SRAM.Registers.COUNTn_RX.NUM_BLOCK_0 + 1)

/-- Placement of the TX buffer that the hardware and `transmit` rely on: the size
fits the `uint16_t` field, the address is half-word aligned, and the buffer
(with the padding byte of an odd length) lies outside the endpoint's 8-byte BDT
entry. -/
def TxBufferPlaced (ep : USB_Endpoint) : Prop :=
  ep.txBufferSize < 65536 ∧ ep.txBufferAddress % 2 = 0
    ∧ (ep.bufferDescriptorAddress + 8 ≤ ep.txBufferAddress
      ∨ ep.txBufferAddress + ep.txBufferSize + 1 ≤ ep.bufferDescriptorAddress)

instance (ep : USB_Endpoint) : Decidable ep.TxBufferPlaced := by
  unfold TxBufferPlaced
  exact inferInstance

/-- Transmit status field of the endpoint register. -/
def transmissionStatus (ep : USB_Endpoint) (st : State) : Nat :=
  bitsValue (st.readEPnR ep.number) 2 EPnR.STAT_TX_0

/-- Receive status field of the endpoint register. -/
def receptionStatus (ep : USB_Endpoint) (st : State) : Nat :=
  bitsValue (st.readEPnR ep.number) 2 EPnR.STAT_RX_0

/-- Address field (EA) of the endpoint register. -/
def addressField (ep : USB_Endpoint) (st : State) : Nat :=
  bitsValue (st.readEPnR ep.number) 4 EPnR.EA_0

/-- Endpoint type field of the endpoint register. -/
def typeField (ep : USB_Endpoint) (st : State) : Nat :=
  bitsValue (st.readEPnR ep.number) 2 EPnR.EP_TYPE_0

/-- BDT transmit byte count of the endpoint: the half-word at `bufferDescriptorAddress + 2`. -/
def txCount (ep : USB_Endpoint) (st : State) : Nat :=
  USB_SRAM.readHalfword st.sram (ep.bufferDescriptorAddress + 2)

/-- Packet armed for the next IN token: the first `txCount` bytes of the TX buffer. -/
def txPacket (ep : USB_Endpoint) (st : State) : List Nat :=
  (List.range (ep.txCount st)).map (fun i => USB_SRAM.readByte st.sram (ep.txBufferAddress + i))

end USB_Endpoint

/-! ## `usb/USB_ControlEndpoint.cpp` -/

namespace USB_ControlEndpoint

open USB_Endpoint (Status EpType)

/-- The packed struct `Request` laid over the 8-byte request buffer (little endian). -/
structure Request where
  bmRequestType : Nat
  bRequest : Nat
  wValue : Nat
  wIndex : Nat
  wLength : Nat
  deriving DecidableEq, Repr

/-- Read of the request fields through `(Request*)requestBuffer`. -/
def Request.overlay (requestBuffer : Buf) : Request :=
  { bmRequestType := requestBuffer 0 % 256
    bRequest := requestBuffer 1 % 256
    wValue := requestBuffer 2 % 256 + 256 * (requestBuffer 3 % 256)
    wIndex := requestBuffer 4 % 256 + 256 * (requestBuffer 5 % 256)
    wLength := requestBuffer 6 % 256 + 256 * (requestBuffer 7 % 256) }

/-- The `(bRequest, bmRequestType)` pairs that `onSetupStage()` has a branch for. -/
def handledRequests : List (Nat × Nat) :=
  [(0x00, 0x80), (0x01, 0x00), (0x03, 0x00), (0x05, 0x00), (0x06, 0x80), (0x07, 0x00),
    (0x08, 0x80), (0x09, 0x00)]

/-- Body of `onReset()`. -/
def onReset (st : State) : State :=
  let st := st.controlEndpoint.setType st EpType.CONTROL
  let st := st.controlEndpoint.setTransmissionStatus st Status.NAK
  st.controlEndpoint.setReceptionStatus st Status.VALID

/-- The request as `onSetupStage` decodes it: `requestBuffer` is the content of
the local array before `receive` fills it. -/
def receivedRequest (st : State) (requestBuffer : Buf) : Request :=
  Request.overlay (st.controlEndpoint.receive st requestBuffer 8).2.1

/-- Calls `descriptor->onGetData(offset + i)` for `i = 0 .. count - 1`, as traced. -/
def getDataEvents (offset : Int) (count : Nat) : List Event :=
  (List.range count).map (fun i => Event.descriptorOnGetData (offset + (i : Int)))

/-- The array `descriptorBuffer[transmitSize]` after the fill loop, starting at
descriptor index `offset`; `adjacent` is what lies in memory from the end of the
array on. -/
def descriptorBuffer (descriptor : USB_Descriptor) (offset transmitSize : Int)
    (adjacent : Buf) : Buf :=
  fun i => if (i : Int) < transmitSize then descriptor.onGetData (offset + (i : Int)) % 256
    else adjacent i

/-- GET_DESCRIPTOR branch of `onSetupStage()` once the provider has returned
`descriptor`: from `descriptor->onInit()` to the end of the branch. All sizes are
`int` values computed from `uint16_t` operands, hence never negative. -/
def onSetupStage.sendDescriptor (st : State) (request : Request) (descriptor : USB_Descriptor)
    (adjacent : Buf) : State :=
  let st := st.log Event.descriptorOnInit
  let st := st.log Event.descriptorOnGetLength
  let descriptorLength := descriptor.onGetLength
  let transmitSize := min request.wLength descriptorLength
  let transmitSize := min transmitSize st.controlEndpoint.txBufferSize
  let st := st.logAll (getDataEvents 0 transmitSize)
  let st := st.controlEndpoint.transmit st
    (descriptorBuffer descriptor 0 transmitSize adjacent) transmitSize
  if request.wLength > transmitSize ∧ descriptorLength > transmitSize then
    let st := st.setPendingDescriptor (some descriptor)
    st.setPendingDescriptorDataIndex transmitSize
  else
    st.log Event.descriptorOnDeinit

/-- Body of `onSetupStage()` from the first use of `request` on (after the
`receive` call that fills the request buffer). `adjacent` is what follows the
local transmit arrays in memory. -/
def onSetupStage.handleRequest (st : State) (request : Request) (adjacent : Buf) : State :=
  let st :=
    if request.wLength > 0 then
      st.setDataStage
        (if request.bmRequestType &&& 0x80 ≠ 0 then DataStage.IN else DataStage.OUT)
        request.wLength
    else
      st.setDataStage DataStage.NONE 0
  if request.bRequest = 0x00 ∧ request.bmRequestType = 0x80 then
    -- GET_STATUS
    st.controlEndpoint.transmit st (fun i => if i < 2 then 0 else adjacent i) 2
  else if request.bRequest = 0x01 ∧ request.bmRequestType = 0x00 then
    -- CLEAR_FEATURE
    st.controlEndpoint.transmit st adjacent 0
  else if request.bRequest = 0x03 ∧ request.bmRequestType = 0x00 then
    -- SET_FEATURE
    st.controlEndpoint.transmit st adjacent 0
  else if request.bRequest = 0x05 ∧ request.bmRequestType = 0x00 then
    -- SET_ADDRESS
    let st := st.setAddressTemp (request.wValue &&& 0x7F)
    st.controlEndpoint.transmit st adjacent 0
  else if request.bRequest = 0x06 ∧ request.bmRequestType = 0x80 then
    -- GET_DESCRIPTOR
    let type := request.wValue >>> 8
    let index := request.wValue &&& 0xFF
    match st.controlEndpoint.descriptorCallbackFunc with
    | none => st
    | some descriptorCallbackFunc =>
      let st := st.log (Event.descriptorCallback type index)
      match descriptorCallbackFunc type index with
      | none => st
      | some descriptor => onSetupStage.sendDescriptor st request descriptor adjacent
  else if request.bRequest = 0x07 ∧ request.bmRequestType = 0x00 then
    -- SET_DESCRIPTOR
    st.controlEndpoint.transmit st adjacent 0
  else if request.bRequest = 0x08 ∧ request.bmRequestType = 0x80 then
    -- GET_CONFIGURATION
    st.controlEndpoint.transmit st (fun i => if i < 1 then 0 else adjacent i) 1
  else if request.bRequest = 0x09 ∧ request.bmRequestType = 0x00 then
    -- SET_CONFIGURATION
    let st := st.setStatus USB.Status.CONFIGURED
    st.controlEndpoint.transmit st adjacent 0
  else
    st

/-- Body of `onSetupStage()`. `requestBuffer` is the content of the local request
array before `receive(requestBuffer, sizeof(requestBuffer))` fills it. -/
def onSetupStage (st : State) (requestBuffer adjacent : Buf) : State :=
  let r := st.controlEndpoint.receive st requestBuffer 8
  onSetupStage.handleRequest r.1 (Request.overlay r.2.1) adjacent

/-- The block `if (pendingDescriptor != nullptr) { ... }` of `onDataStageIN()`. -/
def onDataStageIN.sendPending (st : State) (pendingDescriptor : USB_Descriptor)
    (adjacent : Buf) : State :=
  let st := st.log Event.descriptorOnGetLength
  let descriptorLength := pendingDescriptor.onGetLength
  let remainingLength : Int :=
    (descriptorLength : Int) - st.controlEndpoint.pendingDescriptorDataIndex
  let transmitSize : Int := min (st.controlEndpoint.txBufferSize : Int) remainingLength
  let st := st.logAll
    (getDataEvents st.controlEndpoint.pendingDescriptorDataIndex transmitSize.toNat)
  let st := st.controlEndpoint.transmit st
    (descriptorBuffer pendingDescriptor st.controlEndpoint.pendingDescriptorDataIndex
      transmitSize adjacent) transmitSize
  let st := st.setPendingDescriptorDataIndex
    (st.controlEndpoint.pendingDescriptorDataIndex + transmitSize)
  if st.controlEndpoint.pendingDescriptorDataIndex ≥ (descriptorLength : Int) then
    -- Transfer complete
    let st := st.log Event.descriptorOnDeinit
    let st := st.setPendingDescriptor none
    st.setPendingDescriptorDataIndex 0
  else st

/-- Body of `onDataStageIN()`. -/
def onDataStageIN (st : State) (adjacent : Buf) : State :=
  let rxLength := st.controlEndpoint.getReceivedLength st
  let st :=
    if rxLength = 0 then st.setDataStage DataStage.NONE 0 else st
  match st.controlEndpoint.pendingDescriptor with
  | none => st
  | some pendingDescriptor => onDataStageIN.sendPending st pendingDescriptor adjacent

/-- Body of `onDataStageOUT()`: empty. -/
def onDataStageOUT (st : State) : State := st

/-- Body of `onStatusStage()`. -/
def onStatusStage (st : State) : State :=
  if st.controlEndpoint.addressTemp ≠ 0 then
    let st := st.writeDADDR
      (st.controlEndpoint.addressTemp ||| (1 <<< USB_Registers.DADDR.EF))
    let st := st.setStatus USB.Status.ADDRESSED
    st.setAddressTemp 0
  else st

/-- Body of `onSetupReceptionComplete()`. -/
def onSetupReceptionComplete (st : State) (requestBuffer adjacent : Buf) : State :=
  let st := st.setDataStage DataStage.NONE 0
  let st := onSetupStage st requestBuffer adjacent
  st.controlEndpoint.setReceptionStatus st Status.VALID

/-- Body of `onReceptionComplete()`. -/
def onReceptionComplete (st : State) (adjacent : Buf) : State :=
  let st :=
    if st.controlEndpoint.dataStage = DataStage.IN then onDataStageIN st adjacent
    else if st.controlEndpoint.dataStage = DataStage.OUT then onDataStageOUT st
    else st
  let st := if st.controlEndpoint.dataStage = DataStage.NONE then onStatusStage st else st
  st.controlEndpoint.setReceptionStatus st Status.VALID

/-- Body of `onTransmissionComplete()`. -/
def onTransmissionComplete (st : State) (adjacent : Buf) : State :=
  let st :=
    if st.controlEndpoint.dataStage = DataStage.IN then onDataStageIN st adjacent else st
  if st.controlEndpoint.dataStage = DataStage.NONE then onStatusStage st else st

/-- State after a setup packet and `k` following transmission-complete events.
`adjacent k` is the memory that follows the local arrays of the handler that
serves event `k` (event 0 is the setup packet). -/
def setupThenTransmissions (st : State) (requestBuffer : Buf) (adjacent : Nat → Buf) :
    Nat → State
  | 0 => onSetupReceptionComplete st requestBuffer (adjacent 0)
  | k + 1 =>
    onTransmissionComplete (setupThenTransmissions st requestBuffer adjacent k) (adjacent (k + 1))

/-- Example descriptor: 18 bytes (the size of a device descriptor), byte `i` is `i + 1`. -/
def exampleDescriptor : USB_Descriptor :=
  { onGetLength := 18, onGetData := fun i => (i + 1).toNat }

/-- Example state for a minimal enumeration: endpoint 0 with an 8-byte TX buffer
at its default address, a provider that always returns `exampleDescriptor`, and
a packet memory in which the hardware has stored the setup packet
`{0x80, GET_DESCRIPTOR, wValue 0x0100, wIndex 0, wLength 18}` in the RX buffer
(cells 64..67) and the receive count 8 in the BDT (cell 3). -/
def exampleEnumerationState : State :=
  { sram := fun j =>
      if j = 3 then 0x8408 else if j = 64 then 0x0680 else if j = 65 then 0x0100
      else if j = 67 then 18 else 0
    controlEndpoint :=
      { number := 0, txBufferSize := 8
        descriptorCallbackFunc := some (fun _ _ => some exampleDescriptor) } }

/-- Example state in which the hardware has stored the setup packet
`{0x00, SET_ADDRESS, wValue 5, wIndex 0, wLength 0}` in the RX buffer of
endpoint 0 (cells 64..67) and the receive count 8 in the BDT (cell 3). -/
def exampleSetAddressState : State :=
  { sram := fun j => if j = 3 then 0x8408 else if j = 64 then 0x0500 else if j = 65 then 5 else 0 }

end USB_ControlEndpoint

/-! ## Virtual calls through a slot of `USB::endpoints` -/

namespace EndpointRef

/-- The `USB_Endpoint` sub-object of the object the slot points to. -/
def base (e : EndpointRef) (st : State) : USB_Endpoint :=
  match e with
  | control => st.controlEndpoint.toUSB_Endpoint
  | generic endpoint => endpoint

/-- Virtual call `onInit()`: no class of the driver overrides the empty hook. -/
def onInit (_e : EndpointRef) (st : State) : State := st

/-- Virtual call `onReset()`. -/
def onReset (e : EndpointRef) (st : State) : State :=
  match e with
  | control => USB_ControlEndpoint.onReset st
  | generic _ => st

/-- Virtual call `onSetupReceptionComplete()`, recorded in the trace. -/
def onSetupReceptionComplete (e : EndpointRef) (st : State) (requestBuffer adjacent : Buf) :
    State :=
  let st := st.log (Event.onSetupReceptionComplete (e.base st).number)
  match e with
  | control => USB_ControlEndpoint.onSetupReceptionComplete st requestBuffer adjacent
  | generic _ => st

/-- Virtual call `onReceptionComplete()`, recorded in the trace. -/
def onReceptionComplete (e : EndpointRef) (st : State) (adjacent : Buf) : State :=
  let st := st.log (Event.onReceptionComplete (e.base st).number)
  match e with
  | control => USB_ControlEndpoint.onReceptionComplete st adjacent
  | generic _ => st

/-- Virtual call `onTransmissionComplete()`, recorded in the trace. -/
def onTransmissionComplete (e : EndpointRef) (st : State) (adjacent : Buf) : State :=
  let st := st.log (Event.onTransmissionComplete (e.base st).number)
  match e with
  | control => USB_ControlEndpoint.onTransmissionComplete st adjacent
  | generic _ => st

/-- Body of `USB_Endpoint::init()`. -/
def init (e : EndpointRef) (st : State) (uninitialised : Nat) (adjacent : Buf) : State :=
  let st := e.onInit st
  (e.base st).initBufferDescriptor st uninitialised adjacent

/-- Body of `USB_Endpoint::reset()`. -/
def reset (e : EndpointRef) (st : State) : State :=
  let st := (e.base st).setAddress st (e.base st).number
  e.onReset st

end EndpointRef

/-! ## `usb/USB.cpp`

The callbacks (`resetCallback`, `suspendCallback`, `resumeCallback`) are code of
the application; a call is recorded in the trace and is taken to leave the
driver state alone. -/

namespace USB

open USB_Registers

def NUM_ENDPOINTS : Nat := 8

/-- Body of `setEndpoint(number, endpoint)`: the index is not checked. -/
def setEndpoint (st : State) (number : Nat) (endpoint : Option EndpointRef) : State :=
  { st with endpoints := fun k => if k = number then endpoint else st.endpoints k }

/-- Body of `isReady()`. -/
def isReady (st : State) : Bool :=
  decide (st.status = Status.CONFIGURED)

/-- Loop `for (auto& endpoint : endpoints) if (endpoint != nullptr) endpoint->reset();`
over the slots `slots`. -/
def onReset.resetEndpoints (st : State) (slots : List Nat) : State :=
  slots.foldl
    (fun st k =>
      match st.endpoints k with
      | none => st
      | some endpoint => endpoint.reset st)
    st

/-- Body of `onReset()`. -/
def onReset (st : State) : State :=
  let st := st.writeDADDR (bitsReplace (st.DADDR % 4294967296) 0 7 DADDR.ADD_0)
  let st := st.writeDADDR (bitSet (st.DADDR % 4294967296) DADDR.EF)
  let st := if st.resetCallback then st.log Event.resetCallback else st
  let st := onReset.resetEndpoints st (List.range NUM_ENDPOINTS)
  st.setStatus Status.DEFAULT

/-- The block of `irq()` for a correct transfer on the bound endpoint `endpoint`.
`requestBuffer` is the content of the request array of the setup handler before
it is filled, `adjacentRx` and `adjacentTx` are what follows the local arrays of
the handler run for the reception and for the transmission. -/
def irq.correctTransfer (st : State) (istr : Nat) (endpoint : EndpointRef)
    (requestBuffer adjacentRx adjacentTx : Buf) : State :=
  let endpointRegisterValue := st.readEPnR (endpoint.base st).number
  let st := (endpoint.base st).clearTxRxFlags st
  let direction := bitValue istr ISTR.DIR ≠ 0
  let st :=
    if direction ∧ bitValue endpointRegisterValue EPnR.CTR_RX ≠ 0 then
      -- OUT or SETUP transfer
      let setup := bitValue endpointRegisterValue EPnR.SETUP ≠ 0
      if setup then endpoint.onSetupReceptionComplete st requestBuffer adjacentRx
      else endpoint.onReceptionComplete st adjacentRx
    else st
  if bitValue endpointRegisterValue EPnR.CTR_TX ≠ 0 then
    -- IN transfer
    endpoint.onTransmissionComplete st adjacentTx
  else st

/-- The block `if (istr & (1 << CTR)) { ... }` of `irq()`. The endpoint number is
a 4-bit field while the array has `NUM_ENDPOINTS` slots: `endpoints k` for
`k ≥ 8` stands for what lies behind the array. -/
def irq.transfer (st : State) (istr : Nat) (requestBuffer adjacentRx adjacentTx : Buf) :
    State :=
  if istr &&& (1 <<< ISTR.CTR) ≠ 0 then
    let endpointNo := bitsValue istr 4 ISTR.EP_ID_0
    match st.endpoints endpointNo with
    | none => st
    | some endpoint =>
      irq.correctTransfer st istr endpoint requestBuffer adjacentRx adjacentTx
  else st

/-- The block `if (istr & (1 << SUSP)) { ... }` of `irq()`. -/
def irq.suspend (st : State) (istr : Nat) : State :=
  if istr &&& (1 <<< ISTR.SUSP) ≠ 0 then
    let st := st.writeCNTR (bitSet (st.CNTR % 4294967296) CNTR.FSUSP)
    let st := st.setPreSuspendStatus st.status
    let st := st.setStatus Status.SUSPENDED
    if st.suspendCallback then st.log Event.suspendCallback else st
  else st

/-- The block `if (istr & (1 << WKUP)) { ... }` of `irq()`. -/
def irq.wakeup (st : State) (istr : Nat) : State :=
  if istr &&& (1 <<< ISTR.WKUP) ≠ 0 then
    let st := st.writeCNTR (bitReset (st.CNTR % 4294967296) CNTR.FSUSP)
    if st.status = Status.SUSPENDED then
      let st := st.setStatus st.preSuspendStatus
      if st.resumeCallback then st.log Event.resumeCallback else st
    else st
  else st

/-- Body of `irq()`. The interrupt status word is what ISTR holds on entry. -/
def irq (st : State) (requestBuffer adjacentRx adjacentTx : Buf) : State :=
  let istr := st.ISTR % 4294967296
  -- Clear all bits at once as recommended in reference manual
  let st := st.writeISTR 0
  if istr &&& (1 <<< ISTR.RESET) ≠ 0 then
    onReset st
  else
    let st := irq.transfer st istr requestBuffer adjacentRx adjacentTx
    let st := irq.suspend st istr
    irq.wakeup st istr

/-- The wait loop of `enableClock()`, `while (!(CRRCR & HSI48RDY)) {}`:
`HSI48RDY k` is what the read number `k` of the ready flag gives. The result is
the number of reads made, and `none` when the flag is not seen set within `fuel`
reads. -/
def enableClock.wait (HSI48RDY : Nat → Bool) : Nat → Nat → Option Nat
  | 0, _ => none
  | fuel + 1, k => if HSI48RDY k then some (k + 1) else enableClock.wait HSI48RDY fuel (k + 1)

/-- Loop `for (auto& endpoint : endpoints) if (endpoint != nullptr) endpoint->init();`
over the slots `slots`; `uninitialised k` and `adjacent k` are the stack content
met by the call for slot `k`. -/
def init.initEndpoints (st : State) (uninitialised : Nat → Nat) (adjacent : Nat → Buf)
    (slots : List Nat) : State :=
  slots.foldl
    (fun st k =>
      match st.endpoints k with
      | none => st
      | some endpoint => endpoint.init st (uninitialised k) (adjacent k))
    st

/-- Body of `init()`. `enablePower()` and `enableClock()` work on the PWR and RCC
registers, which are outside the model; of `enableClock()` only the wait for the
clock is kept. -/
def init (st : State) (HSI48RDY : Nat → Bool) (fuel : Nat) (uninitialised : Nat → Nat)
    (adjacent : Nat → Buf) : Option State :=
  match enableClock.wait HSI48RDY fuel 0 with
  | none => none
  | some _ =>
    let st := st.setStatus Status.POWERED
    let st := st.setSram (USB_SRAM.clear st.sram)
    let st := st.writeCNTR (1 <<< CNTR.FRES)
    let st := st.writeCNTR 0
    let st := st.writeISTR 0
    let st := st.writeBTABLE 0
    some (init.initEndpoints st uninitialised adjacent (List.range NUM_ENDPOINTS))

/-- Example state in which the hardware has stored the setup packet
`{0x00, SET_CONFIGURATION, wValue 1, wIndex 0, wLength 0}` in the RX buffer of
endpoint 0 and the receive count 8 in the BDT. -/
def exampleSetConfigurationState : State :=
  { sram := fun j => if j = 3 then 0x8408 else if j = 64 then 0x0900 else if j = 65 then 1 else 0
    status := Status.ADDRESSED }

/-- Example state with the setup packet `{0x81, GET_INTERFACE (0x0A), wValue 0,
wIndex 0, wLength 1}`, a request `onSetupStage()` has no branch for. -/
def exampleUnhandledRequestState : State :=
  { sram := fun j => if j = 3 then 0x8408 else if j = 64 then 0x0A81 else if j = 67 then 1 else 0
    status := Status.ADDRESSED }

/-- Example state with a GET_DESCRIPTOR setup packet (device descriptor, `wLength`
18) and no descriptor provider installed. -/
def exampleNoProviderState : State :=
  { sram := fun j =>
      if j = 3 then 0x8408 else if j = 64 then 0x0680 else if j = 65 then 0x0100
      else if j = 67 then 18 else 0
    status := Status.DEFAULT }

/-- Example state in the middle of a fragmented descriptor transfer:
`exampleDescriptor` is pending with the cursor at 8 and the stage is In. -/
def examplePendingTransferState : State :=
  { controlEndpoint :=
      { number := 0, txBufferSize := 8, dataStage := USB_ControlEndpoint.DataStage.IN
        dataStageLength := 18
        pendingDescriptor := some USB_ControlEndpoint.exampleDescriptor
        pendingDescriptorDataIndex := 8 }
    status := Status.DEFAULT }

/-- Example state for a correct transfer on endpoint 0: the endpoint register
holds CTR_RX, SETUP and CTR_TX (`0x8880`), the packet memory the SET_ADDRESS
setup packet of `exampleSetAddressState`. -/
def exampleSetupTransferState : State :=
  { sram := USB_ControlEndpoint.exampleSetAddressState.sram
    EPnR := fun n => if n = 0 then 0x8880 else 0 }

/-- Example state in which the endpoint-0 register holds the SETUP flag but not
CTR_RX (`0x0800`). -/
def exampleSetupFlagOnlyState : State :=
  { EPnR := fun n => if n = 0 then 0x0800 else 0 }

/-- Example state with a second endpoint: slot 1 is bound to a generic endpoint
number 1 with an 8-byte receive buffer. -/
def exampleTwoEndpointState : State :=
  setEndpoint {} 1 (some (EndpointRef.generic { number := 1, rxBufferSize := 8 }))

/-- State left by the constructor `USB::USB()` and the default member
initialisers: every slot `nullptr` except slot 0, which points to
`controlEndpoint`. The registers and the packet memory are the peripheral's and
are whatever they are; they are taken as 0 here. (`USB.USB` would shadow the
namespace, hence the name.) -/
def construct : State := {}

/-- Body of `setResetCallback(func)`; `func` says whether the pointer is set. -/
def setResetCallback (st : State) (func : Bool) : State :=
  { st with resetCallback := func }

/-- Body of `setSuspendCallback(func)`. -/
def setSuspendCallback (st : State) (func : Bool) : State :=
  { st with suspendCallback := func }

/-- Body of `setResumeCallback(func)`. -/
def setResumeCallback (st : State) (func : Bool) : State :=
  { st with resumeCallback := func }

/-- Body of `setDescriptorCallback(func, context)`; the context is part of `func`. -/
def setDescriptorCallback (st : State) (func : Option (Nat → Nat → Option USB_Descriptor)) :
    State :=
  st.setDescriptorCallbackFunc func

/-- Body of `init(config)`. -/
def initConfig (st : State) (HSI48RDY : Nat → Bool) (fuel : Nat) (uninitialised : Nat → Nat)
    (adjacent : Nat → Buf) (resetCallback suspendCallback resumeCallback : Bool)
    (descriptorCallback : Option (Nat → Nat → Option USB_Descriptor)) : Option State :=
  match init st HSI48RDY fuel uninitialised adjacent with
  | none => none
  | some st =>
    let st := setResetCallback st resetCallback
    let st := setSuspendCallback st suspendCallback
    let st := setResumeCallback st resumeCallback
    some (setDescriptorCallback st descriptorCallback)

/-- Body of `enableTransceiver()`; the delay that follows the store is outside
the model. -/
def enableTransceiver (st : State) : State :=
  st.writeCNTR ((st.CNTR % 4294967296) &&& not32 (1 <<< CNTR.PDWN))

/-- Body of `disableTransceiver()`. -/
def disableTransceiver (st : State) : State :=
  st.writeCNTR ((st.CNTR % 4294967296) ||| (1 <<< CNTR.PDWN))

/-- Body of `enableInterrupt()`; the interrupt controller is outside the model. -/
def enableInterrupt (st : State) : State :=
  let st := st.writeCNTR ((st.CNTR % 4294967296) ||| (1 <<< CNTR.RESETM))
  let st := st.writeCNTR ((st.CNTR % 4294967296) ||| (1 <<< CNTR.CTRM))
  let st := st.writeCNTR ((st.CNTR % 4294967296) ||| (1 <<< CNTR.SUSPM))
  st.writeCNTR ((st.CNTR % 4294967296) ||| (1 <<< CNTR.WKUPM))

/-- Body of `disableInterrupt()`; the interrupt controller is outside the model. -/
def disableInterrupt (st : State) : State :=
  st.writeISTR 0

/-- Body of `setPullup(state)`. -/
def setPullup (st : State) (state : Bool) : State :=
  if state then st.writeBCDR ((st.BCDR % 4294967296) ||| (1 <<< BCDR.DPPU))
  else st.writeBCDR ((st.BCDR % 4294967296) &&& not32 (1 <<< BCDR.DPPU))

/-- Body of `connect()`; `initPins()` works on the GPIO registers, which are
outside the model. -/
def connect (st : State) : State :=
  let st := enableTransceiver st
  let st := enableInterrupt st
  setPullup st true

/-- Body of `disconnect()`; `deinitPins()` works on the GPIO registers, which are
outside the model. -/
def disconnect (st : State) : State :=
  let st := setPullup st false
  let st := disableInterrupt st
  disableTransceiver st

/-- Body of `deinit()`; `disableClock()` and `disablePower()` work on the RCC and
PWR registers, which are outside the model. -/
def deinit (st : State) : State :=
  let st := disconnect st
  st.setStatus Status.DISABLED

/-- One interrupt: the status word the peripheral latches, its changes to the
endpoint registers and to the packet memory since the last interrupt, and the
stack content met by the handlers. -/
structure Interrupt where
  istr : Nat
  registers : (Nat → Nat) → (Nat → Nat) := id
  memory : Mem → Mem := id
  requestBuffer : Buf := fun _ => 0
  adjacentRx : Buf := fun _ => 0
  adjacentTx : Buf := fun _ => 0

/-- The controller handles the interrupts of the list, one `irq()` call each. -/
def run (st : State) : List Interrupt → State
  | [] => st
  | i :: rest =>
    run (irq (st.peripheral i.istr i.registers i.memory) i.requestBuffer i.adjacentRx
      i.adjacentTx) rest

/-- Example state as `exampleEnumerationState`, with the host asking for 10
bytes only: setup packet `{0x80, GET_DESCRIPTOR, wValue 0x0100, wIndex 0,
wLength 10}`, an 8-byte TX buffer and the 18-byte `exampleDescriptor`. -/
def exampleShortRequestState : State :=
  { sram := fun j =>
      if j = 3 then 0x8408 else if j = 64 then 0x0680 else if j = 65 then 0x0100
      else if j = 67 then 10 else 0
    controlEndpoint :=
      { number := 0, txBufferSize := 8
        descriptorCallbackFunc :=
          some (fun _ _ => some USB_ControlEndpoint.exampleDescriptor) } }

/-- The peripheral stores the setup packet `{0x80, GET_STATUS, wValue 0, wIndex 0,
wLength 2}` in the RX buffer of endpoint 0 (cells 64..67) and the receive count 8
in the BDT (cell 3). -/
def getStatusPacketArrives (memory : Mem) : Mem :=
  fun j =>
    if j = 3 then 0x8408 else if j = 64 then 0x0080 else if j = 65 then 0
    else if j = 66 then 0 else if j = 67 then 2 else memory j

/-- The peripheral stores the setup packet `{0x00, SET_ADDRESS, wValue 5, wIndex 0,
wLength 0}` in the RX buffer of endpoint 0 and the receive count 8 in the BDT. -/
def setAddressPacketArrives (memory : Mem) : Mem :=
  fun j =>
    if j = 3 then 0x8408 else if j = 64 then 0x0500 else if j = 65 then 5
    else if j = 66 then 0 else if j = 67 then 0 else memory j

/-- The peripheral stores the setup packet `{0x00, CLEAR_FEATURE, wValue 0,
wIndex 0, wLength 0}` in the RX buffer of endpoint 0 and the receive count 8 in
the BDT. -/
def clearFeaturePacketArrives (memory : Mem) : Mem :=
  fun j =>
    if j = 3 then 0x8408 else if j = 64 then 0x0100 else if j = 65 then 0
    else if j = 66 then 0 else if j = 67 then 0 else memory j

/-- The peripheral sets CTR_RX and SETUP in the register of endpoint 0. -/
def setupFlagsRaised (registers : Nat → Nat) : Nat → Nat :=
  fun n => if n = 0 then registers 0 ||| 0x8800 else registers n

/-- The peripheral sets CTR_TX in the register of endpoint 0. -/
def transmitFlagRaised (registers : Nat → Nat) : Nat → Nat :=
  fun n => if n = 0 then registers 0 ||| 0x0080 else registers n

/-- The conditions of `irq()` under which `onSetupReceptionComplete()` of the
control endpoint is called, on the state `irq()` is entered with: RESET clear and
CTR set in ISTR, the slot named by the endpoint field bound to the control
endpoint, DIR set, and CTR_RX and SETUP set in the endpoint register. -/
def irq.setupReceived (st : State) : Prop :=
  (st.ISTR % 4294967296) &&& (1 <<< ISTR.RESET) = 0
    ∧ (st.ISTR % 4294967296) &&& (1 <<< ISTR.CTR) ≠ 0
    ∧ st.endpoints (bitsValue (st.ISTR % 4294967296) 4 ISTR.EP_ID_0) = some EndpointRef.control
    ∧ bitValue (st.ISTR % 4294967296) ISTR.DIR ≠ 0
    ∧ bitValue (st.readEPnR st.controlEndpoint.number) EPnR.CTR_RX ≠ 0
    ∧ bitValue (st.readEPnR st.controlEndpoint.number) EPnR.SETUP ≠ 0

/-- The interrupts of the list, handled from `st` on as `run` does, bring no
SET_ADDRESS request (`bRequest` 5, `bmRequestType` 0) for a non-zero address to
the setup hook of the control endpoint. -/
def noAddressRequest (st : State) : List Interrupt → Prop
  | [] => True
  | i :: rest =>
    (irq.setupReceived (st.peripheral i.istr i.registers i.memory) →
      ¬ ((USB_ControlEndpoint.receivedRequest (st.peripheral i.istr i.registers i.memory)
            i.requestBuffer).bRequest = 0x05
        ∧ (USB_ControlEndpoint.receivedRequest (st.peripheral i.istr i.registers i.memory)
            i.requestBuffer).bmRequestType = 0x00
        ∧ (USB_ControlEndpoint.receivedRequest (st.peripheral i.istr i.registers i.memory)
            i.requestBuffer).wValue &&& 0x7F ≠ 0))
    ∧ noAddressRequest
        (irq (st.peripheral i.istr i.registers i.memory) i.requestBuffer i.adjacentRx
          i.adjacentTx) rest

/-- Example state: the controller after construction and `init()`, the clock
being ready at the first read. -/
def exampleInitialisedState : State :=
  (init construct (fun _ => true) 1 (fun _ => 0) (fun _ _ => 0)).getD construct

/-- Interrupt with the RESET flag. -/
def resetInterrupt : Interrupt := { istr := 0x0400 }

/-- Interrupt with the SUSP flag. -/
def suspendInterrupt : Interrupt := { istr := 0x0800 }

/-- Interrupt with the WKUP flag. -/
def wakeupInterrupt : Interrupt := { istr := 0x1000 }

/-- Interrupt for the SET_ADDRESS setup packet of `setAddressPacketArrives` on
endpoint 0 (CTR and DIR set). -/
def setAddressInterrupt : Interrupt :=
  { istr := 0x8010, registers := setupFlagsRaised, memory := setAddressPacketArrives }

/-- Interrupt for the CLEAR_FEATURE setup packet of `clearFeaturePacketArrives`
on endpoint 0 (CTR and DIR set). -/
def clearFeatureInterrupt : Interrupt :=
  { istr := 0x8010, registers := setupFlagsRaised, memory := clearFeaturePacketArrives }

/-- Interrupt for a completed transmission on endpoint 0 (CTR set, DIR clear). -/
def transmissionInterrupt : Interrupt :=
  { istr := 0x8000, registers := transmitFlagRaised }

end USB

/-! # Field access after an assignment -/

section FrameLemmas

namespace State

@[simp] theorem sram_setSram (st : State) (memory : Mem) :
    (st.setSram memory).sram = (memory) := rfl

@[simp] theorem EPnR_setSram (st : State) (memory : Mem) :
    (st.setSram memory).EPnR = (st.EPnR) := rfl

@[simp] theorem DADDR_setSram (st : State) (memory : Mem) :
    (st.setSram memory).DADDR = (st.DADDR) := rfl

@[simp] theorem status_setSram (st : State) (memory : Mem) :
    (st.setSram memory).status = (st.status) := rfl

@[simp] theorem trace_setSram (st : State) (memory : Mem) :
    (st.setSram memory).trace = (st.trace) := rfl

@[simp] theorem controlEndpoint_setSram (st : State) (memory : Mem) :
    (st.setSram memory).controlEndpoint = (st.controlEndpoint) := rfl

@[simp] theorem sram_setStatus (st : State) (status : USB.Status) :
    (st.setStatus status).sram = (st.sram) := rfl

@[simp] theorem EPnR_setStatus (st : State) (status : USB.Status) :
    (st.setStatus status).EPnR = (st.EPnR) := rfl

@[simp] theorem DADDR_setStatus (st : State) (status : USB.Status) :
    (st.setStatus status).DADDR = (st.DADDR) := rfl

@[simp] theorem status_setStatus (st : State) (status : USB.Status) :
    (st.setStatus status).status = (status) := rfl

@[simp] theorem trace_setStatus (st : State) (status : USB.Status) :
    (st.setStatus status).trace = (st.trace) := rfl

@[simp] theorem controlEndpoint_setStatus (st : State) (status : USB.Status) :
    (st.setStatus status).controlEndpoint = (st.controlEndpoint) := rfl

@[simp] theorem sram_log (st : State) (e : Event) :
    (st.log e).sram = (st.sram) := rfl

@[simp] theorem EPnR_log (st : State) (e : Event) :
    (st.log e).EPnR = (st.EPnR) := rfl

@[simp] theorem DADDR_log (st : State) (e : Event) :
    (st.log e).DADDR = (st.DADDR) := rfl

@[simp] theorem status_log (st : State) (e : Event) :
    (st.log e).status = (st.status) := rfl

@[simp] theorem trace_log (st : State) (e : Event) :
    (st.log e).trace = (st.trace ++ [e]) := rfl

@[simp] theorem controlEndpoint_log (st : State) (e : Event) :
    (st.log e).controlEndpoint = (st.controlEndpoint) := rfl

@[simp] theorem sram_logAll (st : State) (es : List Event) :
    (st.logAll es).sram = (st.sram) := rfl

@[simp] theorem EPnR_logAll (st : State) (es : List Event) :
    (st.logAll es).EPnR = (st.EPnR) := rfl

@[simp] theorem DADDR_logAll (st : State) (es : List Event) :
    (st.logAll es).DADDR = (st.DADDR) := rfl

@[simp] theorem status_logAll (st : State) (es : List Event) :
    (st.logAll es).status = (st.status) := rfl

@[simp] theorem trace_logAll (st : State) (es : List Event) :
    (st.logAll es).trace = (st.trace ++ es) := rfl

@[simp] theorem controlEndpoint_logAll (st : State) (es : List Event) :
    (st.logAll es).controlEndpoint = (st.controlEndpoint) := rfl

@[simp] theorem sram_writeEPnR (st : State) (number value : Nat) :
    (st.writeEPnR number value).sram = (st.sram) := rfl

@[simp] theorem EPnR_writeEPnR (st : State) (number value : Nat) :
    (st.writeEPnR number value).EPnR = (fun n => if n = number then USB_Registers.EPnR.hwWrite (st.EPnR n) value else st.EPnR n) := rfl

@[simp] theorem DADDR_writeEPnR (st : State) (number value : Nat) :
    (st.writeEPnR number value).DADDR = (st.DADDR) := rfl

@[simp] theorem status_writeEPnR (st : State) (number value : Nat) :
    (st.writeEPnR number value).status = (st.status) := rfl

@[simp] theorem trace_writeEPnR (st : State) (number value : Nat) :
    (st.writeEPnR number value).trace = (st.trace ++ [Event.writeEPnR number value]) := rfl

@[simp] theorem controlEndpoint_writeEPnR (st : State) (number value : Nat) :
    (st.writeEPnR number value).controlEndpoint = (st.controlEndpoint) := rfl

@[simp] theorem sram_writeDADDR (st : State) (value : Nat) :
    (st.writeDADDR value).sram = (st.sram) := rfl

@[simp] theorem EPnR_writeDADDR (st : State) (value : Nat) :
    (st.writeDADDR value).EPnR = (st.EPnR) := rfl

@[simp] theorem DADDR_writeDADDR (st : State) (value : Nat) :
    (st.writeDADDR value).DADDR = (value % 4294967296) := rfl

@[simp] theorem status_writeDADDR (st : State) (value : Nat) :
    (st.writeDADDR value).status = (st.status) := rfl

@[simp] theorem trace_writeDADDR (st : State) (value : Nat) :
    (st.writeDADDR value).trace = (st.trace ++ [Event.writeDADDR value]) := rfl

@[simp] theorem controlEndpoint_writeDADDR (st : State) (value : Nat) :
    (st.writeDADDR value).controlEndpoint = (st.controlEndpoint) := rfl

@[simp] theorem sram_setDataStage (st : State) (stage : USB_ControlEndpoint.DataStage) (length : Int) :
    (st.setDataStage stage length).sram = (st.sram) := rfl

@[simp] theorem EPnR_setDataStage (st : State) (stage : USB_ControlEndpoint.DataStage) (length : Int) :
    (st.setDataStage stage length).EPnR = (st.EPnR) := rfl

@[simp] theorem DADDR_setDataStage (st : State) (stage : USB_ControlEndpoint.DataStage) (length : Int) :
    (st.setDataStage stage length).DADDR = (st.DADDR) := rfl

@[simp] theorem status_setDataStage (st : State) (stage : USB_ControlEndpoint.DataStage) (length : Int) :
    (st.setDataStage stage length).status = (st.status) := rfl

@[simp] theorem trace_setDataStage (st : State) (stage : USB_ControlEndpoint.DataStage) (length : Int) :
    (st.setDataStage stage length).trace = (st.trace) := rfl

@[simp] theorem ce_toUSB_Endpoint_setDataStage (st : State) (stage : USB_ControlEndpoint.DataStage) (length : Int) :
    (st.setDataStage stage length).controlEndpoint.toUSB_Endpoint = (st.controlEndpoint.toUSB_Endpoint) := rfl

@[simp] theorem ce_dataStage_setDataStage (st : State) (stage : USB_ControlEndpoint.DataStage) (length : Int) :
    (st.setDataStage stage length).controlEndpoint.dataStage = (stage) := rfl

@[simp] theorem ce_dataStageLength_setDataStage (st : State) (stage : USB_ControlEndpoint.DataStage) (length : Int) :
    (st.setDataStage stage length).controlEndpoint.dataStageLength = (length) := rfl

@[simp] theorem ce_addressTemp_setDataStage (st : State) (stage : USB_ControlEndpoint.DataStage) (length : Int) :
    (st.setDataStage stage length).controlEndpoint.addressTemp = (st.controlEndpoint.addressTemp) := rfl

@[simp] theorem ce_descriptorCallbackFunc_setDataStage (st : State) (stage : USB_ControlEndpoint.DataStage) (length : Int) :
    (st.setDataStage stage length).controlEndpoint.descriptorCallbackFunc = (st.controlEndpoint.descriptorCallbackFunc) := rfl

@[simp] theorem ce_pendingDescriptor_setDataStage (st : State) (stage : USB_ControlEndpoint.DataStage) (length : Int) :
    (st.setDataStage stage length).controlEndpoint.pendingDescriptor = (st.controlEndpoint.pendingDescriptor) := rfl

@[simp] theorem ce_pendingDescriptorDataIndex_setDataStage (st : State) (stage : USB_ControlEndpoint.DataStage) (length : Int) :
    (st.setDataStage stage length).controlEndpoint.pendingDescriptorDataIndex = (st.controlEndpoint.pendingDescriptorDataIndex) := rfl

@[simp] theorem sram_setAddressTemp (st : State) (value : Nat) :
    (st.setAddressTemp value).sram = (st.sram) := rfl

@[simp] theorem EPnR_setAddressTemp (st : State) (value : Nat) :
    (st.setAddressTemp value).EPnR = (st.EPnR) := rfl

@[simp] theorem DADDR_setAddressTemp (st : State) (value : Nat) :
    (st.setAddressTemp value).DADDR = (st.DADDR) := rfl

@[simp] theorem status_setAddressTemp (st : State) (value : Nat) :
    (st.setAddressTemp value).status = (st.status) := rfl

@[simp] theorem trace_setAddressTemp (st : State) (value : Nat) :
    (st.setAddressTemp value).trace = (st.trace) := rfl

@[simp] theorem ce_toUSB_Endpoint_setAddressTemp (st : State) (value : Nat) :
    (st.setAddressTemp value).controlEndpoint.toUSB_Endpoint = (st.controlEndpoint.toUSB_Endpoint) := rfl

@[simp] theorem ce_dataStage_setAddressTemp (st : State) (value : Nat) :
    (st.setAddressTemp value).controlEndpoint.dataStage = (st.controlEndpoint.dataStage) := rfl

@[simp] theorem ce_dataStageLength_setAddressTemp (st : State) (value : Nat) :
    (st.setAddressTemp value).controlEndpoint.dataStageLength = (st.controlEndpoint.dataStageLength) := rfl

@[simp] theorem ce_addressTemp_setAddressTemp (st : State) (value : Nat) :
    (st.setAddressTemp value).controlEndpoint.addressTemp = (value) := rfl

@[simp] theorem ce_descriptorCallbackFunc_setAddressTemp (st : State) (value : Nat) :
    (st.setAddressTemp value).controlEndpoint.descriptorCallbackFunc = (st.controlEndpoint.descriptorCallbackFunc) := rfl

@[simp] theorem ce_pendingDescriptor_setAddressTemp (st : State) (value : Nat) :
    (st.setAddressTemp value).controlEndpoint.pendingDescriptor = (st.controlEndpoint.pendingDescriptor) := rfl

@[simp] theorem ce_pendingDescriptorDataIndex_setAddressTemp (st : State) (value : Nat) :
    (st.setAddressTemp value).controlEndpoint.pendingDescriptorDataIndex = (st.controlEndpoint.pendingDescriptorDataIndex) := rfl

@[simp] theorem sram_setPendingDescriptor (st : State) (descriptor : Option USB_Descriptor) :
    (st.setPendingDescriptor descriptor).sram = (st.sram) := rfl

@[simp] theorem EPnR_setPendingDescriptor (st : State) (descriptor : Option USB_Descriptor) :
    (st.setPendingDescriptor descriptor).EPnR = (st.EPnR) := rfl

@[simp] theorem DADDR_setPendingDescriptor (st : State) (descriptor : Option USB_Descriptor) :
    (st.setPendingDescriptor descriptor).DADDR = (st.DADDR) := rfl

@[simp] theorem status_setPendingDescriptor (st : State) (descriptor : Option USB_Descriptor) :
    (st.setPendingDescriptor descriptor).status = (st.status) := rfl

@[simp] theorem trace_setPendingDescriptor (st : State) (descriptor : Option USB_Descriptor) :
    (st.setPendingDescriptor descriptor).trace = (st.trace) := rfl

@[simp] theorem ce_toUSB_Endpoint_setPendingDescriptor (st : State) (descriptor : Option USB_Descriptor) :
    (st.setPendingDescriptor descriptor).controlEndpoint.toUSB_Endpoint = (st.controlEndpoint.toUSB_Endpoint) := rfl

@[simp] theorem ce_dataStage_setPendingDescriptor (st : State) (descriptor : Option USB_Descriptor) :
    (st.setPendingDescriptor descriptor).controlEndpoint.dataStage = (st.controlEndpoint.dataStage) := rfl

@[simp] theorem ce_dataStageLength_setPendingDescriptor (st : State) (descriptor : Option USB_Descriptor) :
    (st.setPendingDescriptor descriptor).controlEndpoint.dataStageLength = (st.controlEndpoint.dataStageLength) := rfl

@[simp] theorem ce_addressTemp_setPendingDescriptor (st : State) (descriptor : Option USB_Descriptor) :
    (st.setPendingDescriptor descriptor).controlEndpoint.addressTemp = (st.controlEndpoint.addressTemp) := rfl

@[simp] theorem ce_descriptorCallbackFunc_setPendingDescriptor (st : State) (descriptor : Option USB_Descriptor) :
    (st.setPendingDescriptor descriptor).controlEndpoint.descriptorCallbackFunc = (st.controlEndpoint.descriptorCallbackFunc) := rfl

@[simp] theorem ce_pendingDescriptor_setPendingDescriptor (st : State) (descriptor : Option USB_Descriptor) :
    (st.setPendingDescriptor descriptor).controlEndpoint.pendingDescriptor = (descriptor) := rfl

@[simp] theorem ce_pendingDescriptorDataIndex_setPendingDescriptor (st : State) (descriptor : Option USB_Descriptor) :
    (st.setPendingDescriptor descriptor).controlEndpoint.pendingDescriptorDataIndex = (st.controlEndpoint.pendingDescriptorDataIndex) := rfl

@[simp] theorem sram_setPendingDescriptorDataIndex (st : State) (index : Int) :
    (st.setPendingDescriptorDataIndex index).sram = (st.sram) := rfl

@[simp] theorem EPnR_setPendingDescriptorDataIndex (st : State) (index : Int) :
    (st.setPendingDescriptorDataIndex index).EPnR = (st.EPnR) := rfl

@[simp] theorem DADDR_setPendingDescriptorDataIndex (st : State) (index : Int) :
    (st.setPendingDescriptorDataIndex index).DADDR = (st.DADDR) := rfl

@[simp] theorem status_setPendingDescriptorDataIndex (st : State) (index : Int) :
    (st.setPendingDescriptorDataIndex index).status = (st.status) := rfl

@[simp] theorem trace_setPendingDescriptorDataIndex (st : State) (index : Int) :
    (st.setPendingDescriptorDataIndex index).trace = (st.trace) := rfl

@[simp] theorem ce_toUSB_Endpoint_setPendingDescriptorDataIndex (st : State) (index : Int) :
    (st.setPendingDescriptorDataIndex index).controlEndpoint.toUSB_Endpoint = (st.controlEndpoint.toUSB_Endpoint) := rfl

@[simp] theorem ce_dataStage_setPendingDescriptorDataIndex (st : State) (index : Int) :
    (st.setPendingDescriptorDataIndex index).controlEndpoint.dataStage = (st.controlEndpoint.dataStage) := rfl

@[simp] theorem ce_dataStageLength_setPendingDescriptorDataIndex (st : State) (index : Int) :
    (st.setPendingDescriptorDataIndex index).controlEndpoint.dataStageLength = (st.controlEndpoint.dataStageLength) := rfl

@[simp] theorem ce_addressTemp_setPendingDescriptorDataIndex (st : State) (index : Int) :
    (st.setPendingDescriptorDataIndex index).controlEndpoint.addressTemp = (st.controlEndpoint.addressTemp) := rfl

@[simp] theorem ce_descriptorCallbackFunc_setPendingDescriptorDataIndex (st : State) (index : Int) :
    (st.setPendingDescriptorDataIndex index).controlEndpoint.descriptorCallbackFunc = (st.controlEndpoint.descriptorCallbackFunc) := rfl

@[simp] theorem ce_pendingDescriptor_setPendingDescriptorDataIndex (st : State) (index : Int) :
    (st.setPendingDescriptorDataIndex index).controlEndpoint.pendingDescriptor = (st.controlEndpoint.pendingDescriptor) := rfl

@[simp] theorem ce_pendingDescriptorDataIndex_setPendingDescriptorDataIndex (st : State) (index : Int) :
    (st.setPendingDescriptorDataIndex index).controlEndpoint.pendingDescriptorDataIndex = (index) := rfl

@[simp] theorem CNTR_setSram (st : State) (memory : Mem) :
    (st.setSram memory).CNTR = st.CNTR := rfl

@[simp] theorem ISTR_setSram (st : State) (memory : Mem) :
    (st.setSram memory).ISTR = st.ISTR := rfl

@[simp] theorem BTABLE_setSram (st : State) (memory : Mem) :
    (st.setSram memory).BTABLE = st.BTABLE := rfl

@[simp] theorem preSuspendStatus_setSram (st : State) (memory : Mem) :
    (st.setSram memory).preSuspendStatus = st.preSuspendStatus := rfl

@[simp] theorem endpoints_setSram (st : State) (memory : Mem) :
    (st.setSram memory).endpoints = st.endpoints := rfl

@[simp] theorem resetCallback_setSram (st : State) (memory : Mem) :
    (st.setSram memory).resetCallback = st.resetCallback := rfl

@[simp] theorem suspendCallback_setSram (st : State) (memory : Mem) :
    (st.setSram memory).suspendCallback = st.suspendCallback := rfl

@[simp] theorem resumeCallback_setSram (st : State) (memory : Mem) :
    (st.setSram memory).resumeCallback = st.resumeCallback := rfl

@[simp] theorem CNTR_setStatus (st : State) (status : USB.Status) :
    (st.setStatus status).CNTR = st.CNTR := rfl

@[simp] theorem ISTR_setStatus (st : State) (status : USB.Status) :
    (st.setStatus status).ISTR = st.ISTR := rfl

@[simp] theorem BTABLE_setStatus (st : State) (status : USB.Status) :
    (st.setStatus status).BTABLE = st.BTABLE := rfl

@[simp] theorem preSuspendStatus_setStatus (st : State) (status : USB.Status) :
    (st.setStatus status).preSuspendStatus = st.preSuspendStatus := rfl

@[simp] theorem endpoints_setStatus (st : State) (status : USB.Status) :
    (st.setStatus status).endpoints = st.endpoints := rfl

@[simp] theorem resetCallback_setStatus (st : State) (status : USB.Status) :
    (st.setStatus status).resetCallback = st.resetCallback := rfl

@[simp] theorem suspendCallback_setStatus (st : State) (status : USB.Status) :
    (st.setStatus status).suspendCallback = st.suspendCallback := rfl

@[simp] theorem resumeCallback_setStatus (st : State) (status : USB.Status) :
    (st.setStatus status).resumeCallback = st.resumeCallback := rfl

@[simp] theorem CNTR_log (st : State) (e : Event) :
    (st.log e).CNTR = st.CNTR := rfl

@[simp] theorem ISTR_log (st : State) (e : Event) :
    (st.log e).ISTR = st.ISTR := rfl

@[simp] theorem BTABLE_log (st : State) (e : Event) :
    (st.log e).BTABLE = st.BTABLE := rfl

@[simp] theorem preSuspendStatus_log (st : State) (e : Event) :
    (st.log e).preSuspendStatus = st.preSuspendStatus := rfl

@[simp] theorem endpoints_log (st : State) (e : Event) :
    (st.log e).endpoints = st.endpoints := rfl

@[simp] theorem resetCallback_log (st : State) (e : Event) :
    (st.log e).resetCallback = st.resetCallback := rfl

@[simp] theorem suspendCallback_log (st : State) (e : Event) :
    (st.log e).suspendCallback = st.suspendCallback := rfl

@[simp] theorem resumeCallback_log (st : State) (e : Event) :
    (st.log e).resumeCallback = st.resumeCallback := rfl

@[simp] theorem CNTR_logAll (st : State) (es : List Event) :
    (st.logAll es).CNTR = st.CNTR := rfl

@[simp] theorem ISTR_logAll (st : State) (es : List Event) :
    (st.logAll es).ISTR = st.ISTR := rfl

@[simp] theorem BTABLE_logAll (st : State) (es : List Event) :
    (st.logAll es).BTABLE = st.BTABLE := rfl

@[simp] theorem preSuspendStatus_logAll (st : State) (es : List Event) :
    (st.logAll es).preSuspendStatus = st.preSuspendStatus := rfl

@[simp] theorem endpoints_logAll (st : State) (es : List Event) :
    (st.logAll es).endpoints = st.endpoints := rfl

@[simp] theorem resetCallback_logAll (st : State) (es : List Event) :
    (st.logAll es).resetCallback = st.resetCallback := rfl

@[simp] theorem suspendCallback_logAll (st : State) (es : List Event) :
    (st.logAll es).suspendCallback = st.suspendCallback := rfl

@[simp] theorem resumeCallback_logAll (st : State) (es : List Event) :
    (st.logAll es).resumeCallback = st.resumeCallback := rfl

@[simp] theorem CNTR_writeEPnR (st : State) (number value : Nat) :
    (st.writeEPnR number value).CNTR = st.CNTR := rfl

@[simp] theorem ISTR_writeEPnR (st : State) (number value : Nat) :
    (st.writeEPnR number value).ISTR = st.ISTR := rfl

@[simp] theorem BTABLE_writeEPnR (st : State) (number value : Nat) :
    (st.writeEPnR number value).BTABLE = st.BTABLE := rfl

@[simp] theorem preSuspendStatus_writeEPnR (st : State) (number value : Nat) :
    (st.writeEPnR number value).preSuspendStatus = st.preSuspendStatus := rfl

@[simp] theorem endpoints_writeEPnR (st : State) (number value : Nat) :
    (st.writeEPnR number value).endpoints = st.endpoints := rfl

@[simp] theorem resetCallback_writeEPnR (st : State) (number value : Nat) :
    (st.writeEPnR number value).resetCallback = st.resetCallback := rfl

@[simp] theorem suspendCallback_writeEPnR (st : State) (number value : Nat) :
    (st.writeEPnR number value).suspendCallback = st.suspendCallback := rfl

@[simp] theorem resumeCallback_writeEPnR (st : State) (number value : Nat) :
    (st.writeEPnR number value).resumeCallback = st.resumeCallback := rfl

@[simp] theorem CNTR_writeDADDR (st : State) (value : Nat) :
    (st.writeDADDR value).CNTR = st.CNTR := rfl

@[simp] theorem ISTR_writeDADDR (st : State) (value : Nat) :
    (st.writeDADDR value).ISTR = st.ISTR := rfl

@[simp] theorem BTABLE_writeDADDR (st : State) (value : Nat) :
    (st.writeDADDR value).BTABLE = st.BTABLE := rfl

@[simp] theorem preSuspendStatus_writeDADDR (st : State) (value : Nat) :
    (st.writeDADDR value).preSuspendStatus = st.preSuspendStatus := rfl

@[simp] theorem endpoints_writeDADDR (st : State) (value : Nat) :
    (st.writeDADDR value).endpoints = st.endpoints := rfl

@[simp] theorem resetCallback_writeDADDR (st : State) (value : Nat) :
    (st.writeDADDR value).resetCallback = st.resetCallback := rfl

@[simp] theorem suspendCallback_writeDADDR (st : State) (value : Nat) :
    (st.writeDADDR value).suspendCallback = st.suspendCallback := rfl

@[simp] theorem resumeCallback_writeDADDR (st : State) (value : Nat) :
    (st.writeDADDR value).resumeCallback = st.resumeCallback := rfl

@[simp] theorem CNTR_setDataStage (st : State) (stage : USB_ControlEndpoint.DataStage) (length : Int) :
    (st.setDataStage stage length).CNTR = st.CNTR := rfl

@[simp] theorem ISTR_setDataStage (st : State) (stage : USB_ControlEndpoint.DataStage) (length : Int) :
    (st.setDataStage stage length).ISTR = st.ISTR := rfl

@[simp] theorem BTABLE_setDataStage (st : State) (stage : USB_ControlEndpoint.DataStage) (length : Int) :
    (st.setDataStage stage length).BTABLE = st.BTABLE := rfl

@[simp] theorem preSuspendStatus_setDataStage (st : State) (stage : USB_ControlEndpoint.DataStage) (length : Int) :
    (st.setDataStage stage length).preSuspendStatus = st.preSuspendStatus := rfl

@[simp] theorem endpoints_setDataStage (st : State) (stage : USB_ControlEndpoint.DataStage) (length : Int) :
    (st.setDataStage stage length).endpoints = st.endpoints := rfl

@[simp] theorem resetCallback_setDataStage (st : State) (stage : USB_ControlEndpoint.DataStage) (length : Int) :
    (st.setDataStage stage length).resetCallback = st.resetCallback := rfl

@[simp] theorem suspendCallback_setDataStage (st : State) (stage : USB_ControlEndpoint.DataStage) (length : Int) :
    (st.setDataStage stage length).suspendCallback = st.suspendCallback := rfl

@[simp] theorem resumeCallback_setDataStage (st : State) (stage : USB_ControlEndpoint.DataStage) (length : Int) :
    (st.setDataStage stage length).resumeCallback = st.resumeCallback := rfl

@[simp] theorem CNTR_setAddressTemp (st : State) (value : Nat) :
    (st.setAddressTemp value).CNTR = st.CNTR := rfl

@[simp] theorem ISTR_setAddressTemp (st : State) (value : Nat) :
    (st.setAddressTemp value).ISTR = st.ISTR := rfl

@[simp] theorem BTABLE_setAddressTemp (st : State) (value : Nat) :
    (st.setAddressTemp value).BTABLE = st.BTABLE := rfl

@[simp] theorem preSuspendStatus_setAddressTemp (st : State) (value : Nat) :
    (st.setAddressTemp value).preSuspendStatus = st.preSuspendStatus := rfl

@[simp] theorem endpoints_setAddressTemp (st : State) (value : Nat) :
    (st.setAddressTemp value).endpoints = st.endpoints := rfl

@[simp] theorem resetCallback_setAddressTemp (st : State) (value : Nat) :
    (st.setAddressTemp value).resetCallback = st.resetCallback := rfl

@[simp] theorem suspendCallback_setAddressTemp (st : State) (value : Nat) :
    (st.setAddressTemp value).suspendCallback = st.suspendCallback := rfl

@[simp] theorem resumeCallback_setAddressTemp (st : State) (value : Nat) :
    (st.setAddressTemp value).resumeCallback = st.resumeCallback := rfl

@[simp] theorem CNTR_setPendingDescriptor (st : State) (descriptor : Option USB_Descriptor) :
    (st.setPendingDescriptor descriptor).CNTR = st.CNTR := rfl

@[simp] theorem ISTR_setPendingDescriptor (st : State) (descriptor : Option USB_Descriptor) :
    (st.setPendingDescriptor descriptor).ISTR = st.ISTR := rfl

@[simp] theorem BTABLE_setPendingDescriptor (st : State) (descriptor : Option USB_Descriptor) :
    (st.setPendingDescriptor descriptor).BTABLE = st.BTABLE := rfl

@[simp] theorem preSuspendStatus_setPendingDescriptor (st : State) (descriptor : Option USB_Descriptor) :
    (st.setPendingDescriptor descriptor).preSuspendStatus = st.preSuspendStatus := rfl

@[simp] theorem endpoints_setPendingDescriptor (st : State) (descriptor : Option USB_Descriptor) :
    (st.setPendingDescriptor descriptor).endpoints = st.endpoints := rfl

@[simp] theorem resetCallback_setPendingDescriptor (st : State) (descriptor : Option USB_Descriptor) :
    (st.setPendingDescriptor descriptor).resetCallback = st.resetCallback := rfl

@[simp] theorem suspendCallback_setPendingDescriptor (st : State) (descriptor : Option USB_Descriptor) :
    (st.setPendingDescriptor descriptor).suspendCallback = st.suspendCallback := rfl

@[simp] theorem resumeCallback_setPendingDescriptor (st : State) (descriptor : Option USB_Descriptor) :
    (st.setPendingDescriptor descriptor).resumeCallback = st.resumeCallback := rfl

@[simp] theorem CNTR_setPendingDescriptorDataIndex (st : State) (index : Int) :
    (st.setPendingDescriptorDataIndex index).CNTR = st.CNTR := rfl

@[simp] theorem ISTR_setPendingDescriptorDataIndex (st : State) (index : Int) :
    (st.setPendingDescriptorDataIndex index).ISTR = st.ISTR := rfl

@[simp] theorem BTABLE_setPendingDescriptorDataIndex (st : State) (index : Int) :
    (st.setPendingDescriptorDataIndex index).BTABLE = st.BTABLE := rfl

@[simp] theorem preSuspendStatus_setPendingDescriptorDataIndex (st : State) (index : Int) :
    (st.setPendingDescriptorDataIndex index).preSuspendStatus = st.preSuspendStatus := rfl

@[simp] theorem endpoints_setPendingDescriptorDataIndex (st : State) (index : Int) :
    (st.setPendingDescriptorDataIndex index).endpoints = st.endpoints := rfl

@[simp] theorem resetCallback_setPendingDescriptorDataIndex (st : State) (index : Int) :
    (st.setPendingDescriptorDataIndex index).resetCallback = st.resetCallback := rfl

@[simp] theorem suspendCallback_setPendingDescriptorDataIndex (st : State) (index : Int) :
    (st.setPendingDescriptorDataIndex index).suspendCallback = st.suspendCallback := rfl

@[simp] theorem resumeCallback_setPendingDescriptorDataIndex (st : State) (index : Int) :
    (st.setPendingDescriptorDataIndex index).resumeCallback = st.resumeCallback := rfl

@[simp] theorem sram_writeCNTR (st : State) (value : Nat) :
    (st.writeCNTR value).sram = st.sram := rfl

@[simp] theorem EPnR_writeCNTR (st : State) (value : Nat) :
    (st.writeCNTR value).EPnR = st.EPnR := rfl

@[simp] theorem DADDR_writeCNTR (st : State) (value : Nat) :
    (st.writeCNTR value).DADDR = st.DADDR := rfl

@[simp] theorem status_writeCNTR (st : State) (value : Nat) :
    (st.writeCNTR value).status = st.status := rfl

@[simp] theorem trace_writeCNTR (st : State) (value : Nat) :
    (st.writeCNTR value).trace = st.trace := rfl

@[simp] theorem controlEndpoint_writeCNTR (st : State) (value : Nat) :
    (st.writeCNTR value).controlEndpoint = st.controlEndpoint := rfl

@[simp] theorem CNTR_writeCNTR (st : State) (value : Nat) :
    (st.writeCNTR value).CNTR = value % 4294967296 := rfl

@[simp] theorem ISTR_writeCNTR (st : State) (value : Nat) :
    (st.writeCNTR value).ISTR = st.ISTR := rfl

@[simp] theorem BTABLE_writeCNTR (st : State) (value : Nat) :
    (st.writeCNTR value).BTABLE = st.BTABLE := rfl

@[simp] theorem preSuspendStatus_writeCNTR (st : State) (value : Nat) :
    (st.writeCNTR value).preSuspendStatus = st.preSuspendStatus := rfl

@[simp] theorem endpoints_writeCNTR (st : State) (value : Nat) :
    (st.writeCNTR value).endpoints = st.endpoints := rfl

@[simp] theorem resetCallback_writeCNTR (st : State) (value : Nat) :
    (st.writeCNTR value).resetCallback = st.resetCallback := rfl

@[simp] theorem suspendCallback_writeCNTR (st : State) (value : Nat) :
    (st.writeCNTR value).suspendCallback = st.suspendCallback := rfl

@[simp] theorem resumeCallback_writeCNTR (st : State) (value : Nat) :
    (st.writeCNTR value).resumeCallback = st.resumeCallback := rfl

@[simp] theorem sram_writeISTR (st : State) (value : Nat) :
    (st.writeISTR value).sram = st.sram := rfl

@[simp] theorem EPnR_writeISTR (st : State) (value : Nat) :
    (st.writeISTR value).EPnR = st.EPnR := rfl

@[simp] theorem DADDR_writeISTR (st : State) (value : Nat) :
    (st.writeISTR value).DADDR = st.DADDR := rfl

@[simp] theorem status_writeISTR (st : State) (value : Nat) :
    (st.writeISTR value).status = st.status := rfl

@[simp] theorem trace_writeISTR (st : State) (value : Nat) :
    (st.writeISTR value).trace = st.trace := rfl

@[simp] theorem controlEndpoint_writeISTR (st : State) (value : Nat) :
    (st.writeISTR value).controlEndpoint = st.controlEndpoint := rfl

@[simp] theorem CNTR_writeISTR (st : State) (value : Nat) :
    (st.writeISTR value).CNTR = st.CNTR := rfl

@[simp] theorem ISTR_writeISTR (st : State) (value : Nat) :
    (st.writeISTR value).ISTR = value % 4294967296 := rfl

@[simp] theorem BTABLE_writeISTR (st : State) (value : Nat) :
    (st.writeISTR value).BTABLE = st.BTABLE := rfl

@[simp] theorem preSuspendStatus_writeISTR (st : State) (value : Nat) :
    (st.writeISTR value).preSuspendStatus = st.preSuspendStatus := rfl

@[simp] theorem endpoints_writeISTR (st : State) (value : Nat) :
    (st.writeISTR value).endpoints = st.endpoints := rfl

@[simp] theorem resetCallback_writeISTR (st : State) (value : Nat) :
    (st.writeISTR value).resetCallback = st.resetCallback := rfl

@[simp] theorem suspendCallback_writeISTR (st : State) (value : Nat) :
    (st.writeISTR value).suspendCallback = st.suspendCallback := rfl

@[simp] theorem resumeCallback_writeISTR (st : State) (value : Nat) :
    (st.writeISTR value).resumeCallback = st.resumeCallback := rfl

@[simp] theorem sram_writeBTABLE (st : State) (value : Nat) :
    (st.writeBTABLE value).sram = st.sram := rfl

@[simp] theorem EPnR_writeBTABLE (st : State) (value : Nat) :
    (st.writeBTABLE value).EPnR = st.EPnR := rfl

@[simp] theorem DADDR_writeBTABLE (st : State) (value : Nat) :
    (st.writeBTABLE value).DADDR = st.DADDR := rfl

@[simp] theorem status_writeBTABLE (st : State) (value : Nat) :
    (st.writeBTABLE value).status = st.status := rfl

@[simp] theorem trace_writeBTABLE (st : State) (value : Nat) :
    (st.writeBTABLE value).trace = st.trace := rfl

@[simp] theorem controlEndpoint_writeBTABLE (st : State) (value : Nat) :
    (st.writeBTABLE value).controlEndpoint = st.controlEndpoint := rfl

@[simp] theorem CNTR_writeBTABLE (st : State) (value : Nat) :
    (st.writeBTABLE value).CNTR = st.CNTR := rfl

@[simp] theorem ISTR_writeBTABLE (st : State) (value : Nat) :
    (st.writeBTABLE value).ISTR = st.ISTR := rfl

@[simp] theorem BTABLE_writeBTABLE (st : State) (value : Nat) :
    (st.writeBTABLE value).BTABLE = value % 4294967296 := rfl

@[simp] theorem preSuspendStatus_writeBTABLE (st : State) (value : Nat) :
    (st.writeBTABLE value).preSuspendStatus = st.preSuspendStatus := rfl

@[simp] theorem endpoints_writeBTABLE (st : State) (value : Nat) :
    (st.writeBTABLE value).endpoints = st.endpoints := rfl

@[simp] theorem resetCallback_writeBTABLE (st : State) (value : Nat) :
    (st.writeBTABLE value).resetCallback = st.resetCallback := rfl

@[simp] theorem suspendCallback_writeBTABLE (st : State) (value : Nat) :
    (st.writeBTABLE value).suspendCallback = st.suspendCallback := rfl

@[simp] theorem resumeCallback_writeBTABLE (st : State) (value : Nat) :
    (st.writeBTABLE value).resumeCallback = st.resumeCallback := rfl

@[simp] theorem sram_setPreSuspendStatus (st : State) (status : USB.Status) :
    (st.setPreSuspendStatus status).sram = st.sram := rfl

@[simp] theorem EPnR_setPreSuspendStatus (st : State) (status : USB.Status) :
    (st.setPreSuspendStatus status).EPnR = st.EPnR := rfl

@[simp] theorem DADDR_setPreSuspendStatus (st : State) (status : USB.Status) :
    (st.setPreSuspendStatus status).DADDR = st.DADDR := rfl

@[simp] theorem status_setPreSuspendStatus (st : State) (status : USB.Status) :
    (st.setPreSuspendStatus status).status = st.status := rfl

@[simp] theorem trace_setPreSuspendStatus (st : State) (status : USB.Status) :
    (st.setPreSuspendStatus status).trace = st.trace := rfl

@[simp] theorem controlEndpoint_setPreSuspendStatus (st : State) (status : USB.Status) :
    (st.setPreSuspendStatus status).controlEndpoint = st.controlEndpoint := rfl

@[simp] theorem CNTR_setPreSuspendStatus (st : State) (status : USB.Status) :
    (st.setPreSuspendStatus status).CNTR = st.CNTR := rfl

@[simp] theorem ISTR_setPreSuspendStatus (st : State) (status : USB.Status) :
    (st.setPreSuspendStatus status).ISTR = st.ISTR := rfl

@[simp] theorem BTABLE_setPreSuspendStatus (st : State) (status : USB.Status) :
    (st.setPreSuspendStatus status).BTABLE = st.BTABLE := rfl

@[simp] theorem preSuspendStatus_setPreSuspendStatus (st : State) (status : USB.Status) :
    (st.setPreSuspendStatus status).preSuspendStatus = status := rfl

@[simp] theorem endpoints_setPreSuspendStatus (st : State) (status : USB.Status) :
    (st.setPreSuspendStatus status).endpoints = st.endpoints := rfl

@[simp] theorem resetCallback_setPreSuspendStatus (st : State) (status : USB.Status) :
    (st.setPreSuspendStatus status).resetCallback = st.resetCallback := rfl

@[simp] theorem suspendCallback_setPreSuspendStatus (st : State) (status : USB.Status) :
    (st.setPreSuspendStatus status).suspendCallback = st.suspendCallback := rfl

@[simp] theorem resumeCallback_setPreSuspendStatus (st : State) (status : USB.Status) :
    (st.setPreSuspendStatus status).resumeCallback = st.resumeCallback := rfl

@[simp] theorem sram_interrupt (st : State) (istr : Nat) :
    (st.interrupt istr).sram = st.sram := rfl

@[simp] theorem EPnR_interrupt (st : State) (istr : Nat) :
    (st.interrupt istr).EPnR = st.EPnR := rfl

@[simp] theorem DADDR_interrupt (st : State) (istr : Nat) :
    (st.interrupt istr).DADDR = st.DADDR := rfl

@[simp] theorem status_interrupt (st : State) (istr : Nat) :
    (st.interrupt istr).status = st.status := rfl

@[simp] theorem trace_interrupt (st : State) (istr : Nat) :
    (st.interrupt istr).trace = st.trace := rfl

@[simp] theorem controlEndpoint_interrupt (st : State) (istr : Nat) :
    (st.interrupt istr).controlEndpoint = st.controlEndpoint := rfl

@[simp] theorem CNTR_interrupt (st : State) (istr : Nat) :
    (st.interrupt istr).CNTR = st.CNTR := rfl

@[simp] theorem ISTR_interrupt (st : State) (istr : Nat) :
    (st.interrupt istr).ISTR = istr := rfl

@[simp] theorem BTABLE_interrupt (st : State) (istr : Nat) :
    (st.interrupt istr).BTABLE = st.BTABLE := rfl

@[simp] theorem preSuspendStatus_interrupt (st : State) (istr : Nat) :
    (st.interrupt istr).preSuspendStatus = st.preSuspendStatus := rfl

@[simp] theorem endpoints_interrupt (st : State) (istr : Nat) :
    (st.interrupt istr).endpoints = st.endpoints := rfl

@[simp] theorem resetCallback_interrupt (st : State) (istr : Nat) :
    (st.interrupt istr).resetCallback = st.resetCallback := rfl

@[simp] theorem suspendCallback_interrupt (st : State) (istr : Nat) :
    (st.interrupt istr).suspendCallback = st.suspendCallback := rfl

@[simp] theorem resumeCallback_interrupt (st : State) (istr : Nat) :
    (st.interrupt istr).resumeCallback = st.resumeCallback := rfl

end State

end FrameLemmas

/-! # Properties

## Bit fields and the endpoint register -/

section BitLemmas

open USB_Registers USB_Endpoint

theorem testBit_not32 (x i : Nat) :
    (not32 x).testBit i = (decide (i < 32) && !x.testBit i) := by
  unfold not32
  rw [show (0xFFFFFFFF : Nat) = 2 ^ 32 - 1 from rfl, show (4294967296 : Nat) = 2 ^ 32 from rfl,
    Nat.testBit_xor, Nat.testBit_two_pow_sub_one, Nat.testBit_mod_two_pow]
  cases decide (i < 32) <;> cases x.testBit i <;> rfl

theorem testBit_bitMask (n o i : Nat) :
    (bitMask n o).testBit i = (decide (i < 32) && (decide (o ≤ i) && decide (i - o < n))) := by
  unfold bitMask
  rw [show (4294967296 : Nat) = 2 ^ 32 from rfl, Nat.testBit_mod_two_pow, Nat.testBit_shiftLeft,
    Nat.one_shiftLeft, Nat.testBit_two_pow_sub_one]

theorem testBit_bitsValue (v n o i : Nat) :
    (bitsValue v n o).testBit i = (v.testBit (o + i) && (decide (i < 32) && decide (i < n))) := by
  unfold bitsValue
  rw [Nat.testBit_and, Nat.testBit_shiftRight, testBit_bitMask]
  simp

theorem testBit_bitsReplace (v r n o i : Nat) :
    (bitsReplace v r n o).testBit i =
      (decide (i < 32) &&
        (if o ≤ i ∧ i - o < n then r.testBit (i - o) else v.testBit i)) := by
  unfold bitsReplace
  simp only [Nat.testBit_or, Nat.testBit_and, testBit_not32, testBit_bitMask,
    show (4294967296 : Nat) = 2 ^ 32 from rfl, Nat.testBit_mod_two_pow, Nat.testBit_shiftLeft]
  by_cases h1 : i < 32 <;> by_cases h2 : o ≤ i <;> by_cases h3 : i - o < n <;> simp [h1, h2, h3]


theorem testBit_TOGGLE_MASK (i : Nat) :
    EPnR.TOGGLE_MASK.testBit i =
      (decide (i = 4) || decide (i = 5) || decide (i = 6)
        || decide (i = 12) || decide (i = 13) || decide (i = 14)) := by
  simp only [EPnR.TOGGLE_MASK, EPnR.STAT_TX_MASK, EPnR.STAT_RX_MASK, EPnR.STAT_TX_0,
    EPnR.STAT_TX_1, EPnR.DTOG_TX, EPnR.STAT_RX_0, EPnR.STAT_RX_1, EPnR.DTOG_RX,
    Nat.one_shiftLeft, Nat.testBit_or, Nat.testBit_two_pow, @eq_comm Nat _ i, Bool.or_assoc]

theorem testBit_RC_W0_MASK (i : Nat) :
    EPnR.RC_W0_MASK.testBit i = (decide (i = 7) || decide (i = 15)) := by
  simp only [EPnR.RC_W0_MASK, EPnR.CTR_TX, EPnR.CTR_RX,
    Nat.one_shiftLeft, Nat.testBit_or, Nat.testBit_two_pow, @eq_comm Nat _ i]

theorem testBit_hwWrite (cur w i : Nat) :
    (EPnR.hwWrite cur w).testBit i =
      if i = 4 ∨ i = 5 ∨ i = 6 ∨ i = 12 ∨ i = 13 ∨ i = 14 then (cur.testBit i ^^ w.testBit i)
      else if i = 7 ∨ i = 15 then (cur.testBit i && w.testBit i)
      else (decide (i < 32) && w.testBit i) := by
  unfold EPnR.hwWrite
  simp only [Nat.testBit_or, Nat.testBit_and, Nat.testBit_xor, testBit_not32,
    testBit_TOGGLE_MASK, testBit_RC_W0_MASK]
  by_cases h4 : i = 4 <;> by_cases h5 : i = 5 <;> by_cases h6 : i = 6 <;>
  by_cases h12 : i = 12 <;> by_cases h13 : i = 13 <;> by_cases h14 : i = 14 <;>
  by_cases h7 : i = 7 <;> by_cases h15 : i = 15 <;>
  first
  | omega
  | (simp [h4, h5, h6, h12, h13, h14, h7, h15] <;> exact Bool.and_comm _ _)


theorem hwWrite_setTransmissionStatusWord (cur : Nat) (s : Status) :
    EPnR.hwWrite cur (setTransmissionStatusWord (cur % 4294967296) s)
      = bitsReplace (cur % 4294967296) s.toNat 2 EPnR.STAT_TX_0 := by
  apply Nat.eq_of_testBit_eq
  intro i
  simp only [testBit_hwWrite, setTransmissionStatusWord, testBit_bitsReplace, Nat.testBit_and,
    Nat.testBit_or, Nat.testBit_xor, testBit_not32, testBit_TOGGLE_MASK, testBit_RC_W0_MASK,
    testBit_bitsValue, show (4294967296 : Nat) = 2 ^ 32 from rfl, Nat.testBit_mod_two_pow,
    EPnR.STAT_TX_0]
  rcases Nat.lt_or_ge i 16 with h | h
  · interval_cases i <;> simp
  · have e : i = (i - 16) + 16 := by omega
    generalize i - 16 = j at e
    subst e
    simp [show ¬ (j + 12 < 2) by omega]
    cases decide (j + 16 < 32) <;> simp

theorem hwWrite_setReceptionStatusWord (cur : Nat) (s : Status) :
    EPnR.hwWrite cur (setReceptionStatusWord (cur % 4294967296) s)
      = bitsReplace (cur % 4294967296) s.toNat 2 EPnR.STAT_RX_0 := by
  apply Nat.eq_of_testBit_eq
  intro i
  simp only [testBit_hwWrite, setReceptionStatusWord, testBit_bitsReplace, Nat.testBit_and,
    Nat.testBit_or, Nat.testBit_xor, testBit_not32, testBit_TOGGLE_MASK, testBit_RC_W0_MASK,
    testBit_bitsValue, show (4294967296 : Nat) = 2 ^ 32 from rfl, Nat.testBit_mod_two_pow,
    EPnR.STAT_RX_0]
  rcases Nat.lt_or_ge i 16 with h | h
  · interval_cases i <;> simp
  · have e : i = (i - 16) + 16 := by omega
    generalize i - 16 = j at e
    subst e
    simp [show ¬ (j + 4 < 2) by omega]
    cases decide (j + 16 < 32) <;> simp

theorem hwWrite_setTypeWord (cur : Nat) (t : EpType) :
    EPnR.hwWrite cur (setTypeWord (cur % 4294967296) t)
      = bitsReplace (cur % 4294967296) t.toNat 2 EPnR.EP_TYPE_0 := by
  apply Nat.eq_of_testBit_eq
  intro i
  simp only [testBit_hwWrite, setTypeWord, testBit_bitsReplace, Nat.testBit_and,
    Nat.testBit_or, Nat.testBit_xor, testBit_not32, testBit_TOGGLE_MASK, testBit_RC_W0_MASK,
    testBit_bitsValue, show (4294967296 : Nat) = 2 ^ 32 from rfl, Nat.testBit_mod_two_pow,
    EPnR.EP_TYPE_0]
  rcases Nat.lt_or_ge i 16 with h | h
  · interval_cases i <;> simp
  · have e : i = (i - 16) + 16 := by omega
    generalize i - 16 = j at e
    subst e
    simp [show ¬ (j + 7 < 2) by omega]
    cases decide (j + 16 < 32) <;> simp

theorem hwWrite_setAddressWord (cur : Nat) (a : Int) :
    EPnR.hwWrite cur (setAddressWord (cur % 4294967296) a)
      = bitsReplace (cur % 4294967296) (toU32 a) 4 EPnR.EA_0 := by
  apply Nat.eq_of_testBit_eq
  intro i
  simp only [testBit_hwWrite, setAddressWord, testBit_bitsReplace, Nat.testBit_and,
    Nat.testBit_or, Nat.testBit_xor, testBit_not32, testBit_TOGGLE_MASK, testBit_RC_W0_MASK,
    testBit_bitsValue, show (4294967296 : Nat) = 2 ^ 32 from rfl, Nat.testBit_mod_two_pow,
    EPnR.EA_0]
  rcases Nat.lt_or_ge i 16 with h | h
  · interval_cases i <;> simp
  · have e : i = (i - 16) + 16 := by omega
    generalize i - 16 = j at e
    subst e
    simp [show ¬ (j + 16 < 4) by omega]
    cases decide (j + 16 < 32) <;> simp

theorem bitsReplace_mod (v r n o : Nat) :
    bitsReplace v r n o % 4294967296 = bitsReplace v r n o := by
  apply Nat.eq_of_testBit_eq
  intro i
  rw [show (4294967296 : Nat) = 2 ^ 32 from rfl, Nat.testBit_mod_two_pow, testBit_bitsReplace]
  cases decide (i < 32) <;> simp

theorem bitsValue_bitsReplace_same (v r n o : Nat) (h : n + o ≤ 32) :
    bitsValue (bitsReplace v r n o) n o = r % 2 ^ n := by
  apply Nat.eq_of_testBit_eq
  intro i
  rw [testBit_bitsValue, testBit_bitsReplace, Nat.testBit_mod_two_pow]
  by_cases hi : i < n
  · have h1 : o + i < 32 := by omega
    have h2 : i < 32 := by omega
    have h3 : o + i - o = i := by omega
    simp [hi, h1, h2, h3]
  · simp [hi]

theorem bitsValue_bitsReplace_other (v r n o m p : Nat) (h : p + m ≤ o ∨ o + n ≤ p) :
    bitsValue (bitsReplace v r n o) m p = bitsValue (v % 4294967296) m p := by
  apply Nat.eq_of_testBit_eq
  intro i
  rw [testBit_bitsValue, testBit_bitsReplace, testBit_bitsValue,
    show (4294967296 : Nat) = 2 ^ 32 from rfl, Nat.testBit_mod_two_pow]
  by_cases hi : i < m
  · have h1 : ¬ (o ≤ p + i ∧ p + i - o < n) := by omega
    simp [hi, h1]
  · simp [hi]

theorem bitsReplace_bitsReplace_same (v r n o : Nat) :
    bitsReplace (bitsReplace v r n o) r n o = bitsReplace v r n o := by
  apply Nat.eq_of_testBit_eq
  intro i
  simp only [testBit_bitsReplace]
  by_cases h : o ≤ i ∧ i - o < n <;> simp [h]

end BitLemmas

section RegisterLemmas
open USB_Registers USB_Endpoint

theorem EPnR_setTransmissionStatus (ep : USB_Endpoint) (st : State) (s : Status) :
    (ep.setTransmissionStatus st s).EPnR = fun n =>
      if n = ep.number then bitsReplace (st.EPnR n % 4294967296) s.toNat 2 EPnR.STAT_TX_0
      else st.EPnR n := by
  funext n
  by_cases h : n = ep.number
  · subst h
    simp [setTransmissionStatus, State.writeEPnR, State.readEPnR,
      hwWrite_setTransmissionStatusWord]
  · simp [setTransmissionStatus, State.writeEPnR, h]

theorem EPnR_setReceptionStatus (ep : USB_Endpoint) (st : State) (s : Status) :
    (ep.setReceptionStatus st s).EPnR = fun n =>
      if n = ep.number then bitsReplace (st.EPnR n % 4294967296) s.toNat 2 EPnR.STAT_RX_0
      else st.EPnR n := by
  funext n
  by_cases h : n = ep.number
  · subst h
    simp [setReceptionStatus, State.writeEPnR, State.readEPnR,
      hwWrite_setReceptionStatusWord]
  · simp [setReceptionStatus, State.writeEPnR, h]

theorem EPnR_setType (ep : USB_Endpoint) (st : State) (t : EpType) :
    (ep.setType st t).EPnR = fun n =>
      if n = ep.number then bitsReplace (st.EPnR n % 4294967296) t.toNat 2 EPnR.EP_TYPE_0
      else st.EPnR n := by
  funext n
  by_cases h : n = ep.number
  · subst h
    simp [setType, State.writeEPnR, State.readEPnR, hwWrite_setTypeWord]
  · simp [setType, State.writeEPnR, h]

theorem EPnR_setAddress (ep : USB_Endpoint) (st : State) (a : Int) :
    (ep.setAddress st a).EPnR = fun n =>
      if n = ep.number then bitsReplace (st.EPnR n % 4294967296) (toU32 a) 4 EPnR.EA_0
      else st.EPnR n := by
  funext n
  by_cases h : n = ep.number
  · subst h
    simp [setAddress, State.writeEPnR, State.readEPnR, hwWrite_setAddressWord]
  · simp [setAddress, State.writeEPnR, h]

theorem statusToNat_mod (s : Status) : s.toNat % 2 ^ 2 = s.toNat := by
  cases s <;> rfl

theorem epTypeToNat_mod (t : EpType) : t.toNat % 2 ^ 2 = t.toNat := by
  cases t <;> rfl

@[simp] theorem transmissionStatus_setTransmissionStatus (ep : USB_Endpoint) (st : State) (s : Status) :
    ep.transmissionStatus (ep.setTransmissionStatus st s) = s.toNat := by
  simp only [transmissionStatus, State.readEPnR, EPnR_setTransmissionStatus, if_true,
    bitsReplace_mod]
  rw [bitsValue_bitsReplace_same _ _ _ _ (by decide), statusToNat_mod]

@[simp] theorem receptionStatus_setReceptionStatus (ep : USB_Endpoint) (st : State) (s : Status) :
    ep.receptionStatus (ep.setReceptionStatus st s) = s.toNat := by
  simp only [receptionStatus, State.readEPnR, EPnR_setReceptionStatus, if_true,
    bitsReplace_mod]
  rw [bitsValue_bitsReplace_same _ _ _ _ (by decide), statusToNat_mod]

@[simp] theorem transmissionStatus_setReceptionStatus (ep : USB_Endpoint) (st : State) (s : Status) :
    ep.transmissionStatus (ep.setReceptionStatus st s) = ep.transmissionStatus st := by
  simp only [transmissionStatus, State.readEPnR, EPnR_setReceptionStatus, if_true,
    bitsReplace_mod]
  rw [bitsValue_bitsReplace_other _ _ _ _ _ _ (by decide), Nat.mod_mod]

@[simp] theorem receptionStatus_setTransmissionStatus (ep : USB_Endpoint) (st : State) (s : Status) :
    ep.receptionStatus (ep.setTransmissionStatus st s) = ep.receptionStatus st := by
  simp only [receptionStatus, State.readEPnR, EPnR_setTransmissionStatus, if_true,
    bitsReplace_mod]
  rw [bitsValue_bitsReplace_other _ _ _ _ _ _ (by decide), Nat.mod_mod]

@[simp] theorem typeField_setTransmissionStatus (ep : USB_Endpoint) (st : State) (s : Status) :
    ep.typeField (ep.setTransmissionStatus st s) = ep.typeField st := by
  simp only [typeField, State.readEPnR, EPnR_setTransmissionStatus, if_true,
    bitsReplace_mod]
  rw [bitsValue_bitsReplace_other _ _ _ _ _ _ (by decide), Nat.mod_mod]

@[simp] theorem typeField_setReceptionStatus (ep : USB_Endpoint) (st : State) (s : Status) :
    ep.typeField (ep.setReceptionStatus st s) = ep.typeField st := by
  simp only [typeField, State.readEPnR, EPnR_setReceptionStatus, if_true,
    bitsReplace_mod]
  rw [bitsValue_bitsReplace_other _ _ _ _ _ _ (by decide), Nat.mod_mod]

@[simp] theorem typeField_setType (ep : USB_Endpoint) (st : State) (t : EpType) :
    ep.typeField (ep.setType st t) = t.toNat := by
  simp only [typeField, State.readEPnR, EPnR_setType, if_true, bitsReplace_mod]
  rw [bitsValue_bitsReplace_same _ _ _ _ (by decide), epTypeToNat_mod]

theorem EPnR_setTransmissionStatus_twice (ep : USB_Endpoint) (st : State) (s : Status) :
    (ep.setTransmissionStatus (ep.setTransmissionStatus st s) s).EPnR
      = (ep.setTransmissionStatus st s).EPnR := by
  funext n
  rw [EPnR_setTransmissionStatus ep (ep.setTransmissionStatus st s), EPnR_setTransmissionStatus]
  by_cases h : n = ep.number
  · simp only [h, if_true, bitsReplace_mod, bitsReplace_bitsReplace_same]
  · simp only [h, if_false]

theorem EPnR_setReceptionStatus_twice (ep : USB_Endpoint) (st : State) (s : Status) :
    (ep.setReceptionStatus (ep.setReceptionStatus st s) s).EPnR
      = (ep.setReceptionStatus st s).EPnR := by
  funext n
  rw [EPnR_setReceptionStatus ep (ep.setReceptionStatus st s), EPnR_setReceptionStatus]
  by_cases h : n = ep.number
  · simp only [h, if_true, bitsReplace_mod, bitsReplace_bitsReplace_same]
  · simp only [h, if_false]

@[simp] theorem controlEndpoint_setType (ep : USB_Endpoint) (st : State) (t : EpType) :
    (ep.setType st t).controlEndpoint = st.controlEndpoint := rfl

@[simp] theorem controlEndpoint_setTransmissionStatus (ep : USB_Endpoint) (st : State)
    (s : Status) : (ep.setTransmissionStatus st s).controlEndpoint = st.controlEndpoint := rfl

@[simp] theorem controlEndpoint_setReceptionStatus (ep : USB_Endpoint) (st : State)
    (s : Status) : (ep.setReceptionStatus st s).controlEndpoint = st.controlEndpoint := rfl

end RegisterLemmas

section MemoryLemmas
open USB_SRAM

theorem byte_pair (x y : Nat) (hx : x < 256) :
    x ||| (y <<< 8) = x + 256 * y := by
  have h := Nat.mul_add_lt_is_or (show x < 2 ^ 8 from hx) y
  rw [Nat.lor_comm, Nat.shiftLeft_eq, Nat.mul_comm y, ← h]
  omega

theorem readByte_storeCell (m : Mem) (c v a : Nat) :
    readByte (storeCell m c v) a =
      if a / 2 = c then (v % 65536 / 2 ^ (8 * (a % 2))) % 256 else readByte m a := by
  unfold readByte storeCell
  by_cases h : a / 2 = c
  · simp [h, Nat.shiftRight_eq_div_pow]
  · simp [h]

theorem write_cell (m : Mem) (a : Nat) (buf : Buf) (n j : Nat) :
    write m a buf n j =
      if a / 2 ≤ j ∧ j < a / 2 + (n + 1) / 2 then
        buf (2 * (j - a / 2)) % 256 + 256 * (buf (2 * (j - a / 2) + 1) % 256)
      else m j := by
  unfold write
  generalize (n + 1) / 2 = K
  induction K with
  | zero => rw [List.range_zero, List.foldl_nil, if_neg (by omega)]
  | succ K ih =>
    rw [List.range_succ, List.foldl_append, List.foldl_cons, List.foldl_nil, writeStep,
      storeCell]
    simp only [Nat.shiftRight_eq_div_pow, pow_one]
    rw [byte_pair _ _ (Nat.mod_lt _ (by decide))]
    by_cases h : j = (a + 2 * K) / 2
    · have hj : j - a / 2 = K := by omega
      have h2 : a / 2 ≤ j ∧ j < a / 2 + (K + 1) := by omega
      rw [if_pos h, if_pos h2, hj]
      have := Nat.mod_lt (buf (2 * K)) (show 256 > 0 by decide)
      have := Nat.mod_lt (buf (2 * K + 1)) (show 256 > 0 by decide)
      omega
    · rw [if_neg h, ih]
      by_cases h3 : a / 2 ≤ j ∧ j < a / 2 + K
      · rw [if_pos h3, if_pos (by omega)]
      · rw [if_neg h3, if_neg (by omega)]

theorem readByte_write_inside (m : Mem) (a : Nat) (buf : Buf) (n i : Nat)
    (ha : a % 2 = 0) (hi : i < n) :
    readByte (write m a buf n) (a + i) = buf i % 256 := by
  unfold readByte
  rw [write_cell, if_pos (by omega), Nat.shiftRight_eq_div_pow]
  have h1 := Nat.mod_lt (buf (2 * ((a + i) / 2 - a / 2))) (show 256 > 0 by decide)
  have h2 := Nat.mod_lt (buf (2 * ((a + i) / 2 - a / 2) + 1)) (show 256 > 0 by decide)
  rcases Nat.mod_two_eq_zero_or_one i with h | h
  · have e : 2 * ((a + i) / 2 - a / 2) = i := by omega
    have e2 : (a + i) % 2 = 0 := by omega
    rw [e] at h1 ⊢
    rw [e2]
    simp only [Nat.mul_zero, pow_zero, Nat.div_one]
    omega
  · have e : 2 * ((a + i) / 2 - a / 2) + 1 = i := by omega
    have e2 : (a + i) % 2 = 1 := by omega
    rw [e] at h2 ⊢
    rw [e2]
    simp only [Nat.mul_one]
    omega

theorem readByte_write_outside (m : Mem) (a : Nat) (buf : Buf) (n b : Nat)
    (hb : b / 2 < a / 2 ∨ a / 2 + (n + 1) / 2 ≤ b / 2) :
    readByte (write m a buf n) b = readByte m b := by
  unfold readByte
  rw [write_cell, if_neg (by omega)]

/-- Content of every byte after `write`: the cells from `a / 2` on, `(n + 1) / 2`
of them, hold the buffer from element 0 on. -/
theorem readByte_write (m : Mem) (a : Nat) (buf : Buf) (n b : Nat) :
    readByte (write m a buf n) b =
      if a / 2 ≤ b / 2 ∧ b / 2 < a / 2 + (n + 1) / 2 then buf (b - 2 * (a / 2)) % 256
      else readByte m b := by
  unfold readByte
  rw [write_cell]
  by_cases h : a / 2 ≤ b / 2 ∧ b / 2 < a / 2 + (n + 1) / 2
  · rw [if_pos h, if_pos h, Nat.shiftRight_eq_div_pow]
    have h1 := Nat.mod_lt (buf (2 * (b / 2 - a / 2))) (show 256 > 0 by decide)
    have h2 := Nat.mod_lt (buf (2 * (b / 2 - a / 2) + 1)) (show 256 > 0 by decide)
    rcases Nat.mod_two_eq_zero_or_one b with hb | hb
    · have e : 2 * (b / 2 - a / 2) = b - 2 * (a / 2) := by omega
      rw [e] at h1 ⊢
      rw [hb]
      simp only [Nat.mul_zero, pow_zero, Nat.div_one]
      omega
    · have e : 2 * (b / 2 - a / 2) + 1 = b - 2 * (a / 2) := by omega
      rw [e] at h2 ⊢
      rw [hb]
      simp only [Nat.mul_one]
      omega
  · rw [if_neg h, if_neg h]

theorem readHalfword_writeHalfword (m : Mem) (a v : Nat) :
    readHalfword (writeHalfword m a v) a = v % 65536 := by
  simp [readHalfword, writeHalfword, storeCell]

theorem readByte_writeHalfword_other (m : Mem) (a v b : Nat) (h : b / 2 ≠ a / 2) :
    readByte (writeHalfword m a v) b = readByte m b := by
  unfold writeHalfword
  rw [readByte_storeCell, Nat.shiftRight_eq_div_pow, pow_one, if_neg h]

theorem and_0x3FF (x : Nat) : x &&& 0x3FF = x % 1024 :=
  Nat.and_pow_two_sub_one_eq_mod x 10

theorem sram_transmit (ep : USB_Endpoint) (st : State) (data : Buf) (size : Int) :
    (ep.transmit st data size).sram =
      writeHalfword
        (write st.sram ep.txBufferAddress data (toU32 (min size (ep.txBufferSize : Int))))
        (ep.bufferDescriptorAddress + 2) (toU16 (min size (ep.txBufferSize : Int))) := rfl

theorem txCount_transmit (ep : USB_Endpoint) (st : State) (data : Buf) (size : Int) :
    ep.txCount (ep.transmit st data size) = toU16 (min size (ep.txBufferSize : Int)) % 65536 := by
  rw [USB_Endpoint.txCount, sram_transmit, readHalfword_writeHalfword]

theorem toU32_of_nonneg (x : Int) (h0 : 0 ≤ x) (h1 : x < 4294967296) : toU32 x = x.toNat := by
  unfold toU32
  omega

theorem toU16_of_nonneg (x : Int) (h0 : 0 ≤ x) (h1 : x < 65536) : toU16 x = x.toNat := by
  unfold toU16
  omega

end MemoryLemmas

section ControlLemmas
open USB_Registers USB_Endpoint USB_ControlEndpoint

@[simp] theorem sram_setTransmissionStatus (ep : USB_Endpoint) (st : State) (s : Status) :
    (ep.setTransmissionStatus st s).sram = st.sram := rfl
@[simp] theorem sram_setReceptionStatus (ep : USB_Endpoint) (st : State) (s : Status) :
    (ep.setReceptionStatus st s).sram = st.sram := rfl
@[simp] theorem DADDR_setTransmissionStatus (ep : USB_Endpoint) (st : State) (s : Status) :
    (ep.setTransmissionStatus st s).DADDR = st.DADDR := rfl
@[simp] theorem DADDR_setReceptionStatus (ep : USB_Endpoint) (st : State) (s : Status) :
    (ep.setReceptionStatus st s).DADDR = st.DADDR := rfl
@[simp] theorem status_setTransmissionStatus (ep : USB_Endpoint) (st : State) (s : Status) :
    (ep.setTransmissionStatus st s).status = st.status := rfl
@[simp] theorem status_setReceptionStatus (ep : USB_Endpoint) (st : State) (s : Status) :
    (ep.setReceptionStatus st s).status = st.status := rfl
@[simp] theorem trace_setTransmissionStatus (ep : USB_Endpoint) (st : State) (s : Status) :
    (ep.setTransmissionStatus st s).trace = st.trace ++
      [Event.writeEPnR ep.number (setTransmissionStatusWord (st.readEPnR ep.number) s)] := rfl
@[simp] theorem trace_setReceptionStatus (ep : USB_Endpoint) (st : State) (s : Status) :
    (ep.setReceptionStatus st s).trace = st.trace ++
      [Event.writeEPnR ep.number (setReceptionStatusWord (st.readEPnR ep.number) s)] := rfl

@[simp] theorem controlEndpoint_transmit (ep : USB_Endpoint) (st : State) (d : Buf) (n : Int) :
    (ep.transmit st d n).controlEndpoint = st.controlEndpoint := rfl
@[simp] theorem DADDR_transmit (ep : USB_Endpoint) (st : State) (d : Buf) (n : Int) :
    (ep.transmit st d n).DADDR = st.DADDR := rfl
@[simp] theorem status_transmit (ep : USB_Endpoint) (st : State) (d : Buf) (n : Int) :
    (ep.transmit st d n).status = st.status := rfl
@[simp] theorem trace_transmit (ep : USB_Endpoint) (st : State) (d : Buf) (n : Int) :
    (ep.transmit st d n).trace = st.trace ++
      [Event.writeEPnR ep.number (setTransmissionStatusWord
        (st.readEPnR ep.number) Status.VALID)] := rfl

theorem transmit_eq (ep : USB_Endpoint) (st : State) (d : Buf) (n : Int) :
    ep.transmit st d n = ep.setTransmissionStatus
      (st.setSram (USB_SRAM.writeHalfword
        (USB_SRAM.write st.sram ep.txBufferAddress d (toU32 (min n (ep.txBufferSize : Int))))
        (ep.bufferDescriptorAddress + 2) (toU16 (min n (ep.txBufferSize : Int))))) Status.VALID :=
  rfl

@[simp] theorem txCount_setReceptionStatus (ep ep2 : USB_Endpoint) (st : State) (s : Status) :
    ep.txCount (ep2.setReceptionStatus st s) = ep.txCount st := rfl

@[simp] theorem transmissionStatus_transmit (ep : USB_Endpoint) (st : State) (d : Buf)
    (n : Int) : ep.transmissionStatus (ep.transmit st d n) = Status.VALID.toNat :=
  transmissionStatus_setTransmissionStatus ep _ _

@[simp] theorem drop_length_append (l l2 : List Event) : (l ++ l2).drop l.length = l2 :=
  List.drop_left l l2

@[simp] theorem txCount_transmit_zero (ep : USB_Endpoint) (st : State) (d : Buf) :
    ep.txCount (ep.transmit st d 0) = 0 := by
  rw [txCount_transmit]
  have : min (0 : Int) (ep.txBufferSize : Int) = 0 := by omega
  rw [this]
  rfl

theorem newEvents_of_trace (st st2 : State) (l : List Event) (h : st2.trace = st.trace ++ l) :
    State.newEvents st st2 = l := by
  unfold State.newEvents
  rw [h, List.drop_left]

theorem onSetupReceptionComplete_eq (st : State) (requestBuffer adjacent : Buf) :
    onSetupReceptionComplete st requestBuffer adjacent =
      (onSetupStage.handleRequest
          (st.controlEndpoint.setReceptionStatus (st.setDataStage DataStage.NONE 0) Status.VALID)
          (receivedRequest st requestBuffer) adjacent).controlEndpoint.setReceptionStatus
        (onSetupStage.handleRequest
          (st.controlEndpoint.setReceptionStatus (st.setDataStage DataStage.NONE 0) Status.VALID)
          (receivedRequest st requestBuffer) adjacent) Status.VALID := rfl

theorem and_0x7F_of_le (a : Nat) (h : a ≤ 127) : a &&& 0x7F = a := by
  rw [show (0x7F : Nat) = 2 ^ 7 - 1 from rfl, Nat.and_pow_two_sub_one_eq_mod]
  omega

theorem or_0x80_of_le (a : Nat) (h : a ≤ 127) : a ||| 0x80 = a + 128 := by
  have h2 := Nat.mul_add_lt_is_or (show a < 2 ^ 7 by omega) 1
  rw [Nat.lor_comm, show (0x80 : Nat) = 2 ^ 7 * 1 from rfl, ← h2]
  omega

theorem onTransmissionComplete_status_stage (s : State) (adjacent : Buf)
    (h1 : s.controlEndpoint.dataStage = DataStage.NONE) :
    onTransmissionComplete s adjacent = onStatusStage s := by
  simp [onTransmissionComplete, h1]

theorem onReceptionComplete_status_stage (s : State) (adjacent : Buf)
    (h1 : s.controlEndpoint.dataStage = DataStage.NONE) :
    onReceptionComplete s adjacent
      = (onStatusStage s).controlEndpoint.setReceptionStatus (onStatusStage s) Status.VALID := by
  simp [onReceptionComplete, h1, onDataStageOUT]

theorem onStatusStage_pending (s : State) (h : s.controlEndpoint.addressTemp ≠ 0) :
    onStatusStage s =
      ((s.writeDADDR (s.controlEndpoint.addressTemp ||| (1 <<< USB_Registers.DADDR.EF))).setStatus
        USB.Status.ADDRESSED).setAddressTemp 0 := by
  simp [onStatusStage, h]

theorem onStatusStage_idle (s : State) (h : s.controlEndpoint.addressTemp = 0) :
    onStatusStage s = s := by
  simp [onStatusStage, h]

end ControlLemmas


section ControlLemmas2
open USB_Registers USB_Endpoint USB_ControlEndpoint USB_SRAM

theorem transmit_memory (ep : USB_Endpoint) (st : State) (data : Buf) (n : Int)
    (hn : 0 ≤ n) (hB : ep.txBufferSize < 65536) (htx : ep.txBufferAddress % 2 = 0)
    (hgeo : ep.bufferDescriptorAddress + 4 ≤ ep.txBufferAddress
      ∨ ep.txBufferAddress + ep.txBufferSize + 2 ≤ ep.bufferDescriptorAddress + 2) :
    (∀ i : Nat, (i : Int) < min n ep.txBufferSize →
        readByte (ep.transmit st data n).sram (ep.txBufferAddress + i) = data i % 256)
    ∧ (ep.txCount (ep.transmit st data n) : Int) = min n ep.txBufferSize
    ∧ (∀ b : Nat,
        (b < ep.txBufferAddress
          ∨ ep.txBufferAddress + 2 * (((min n (ep.txBufferSize : Int)).toNat + 1) / 2) ≤ b) →
        b / 2 ≠ (ep.bufferDescriptorAddress + 2) / 2 →
        readByte (ep.transmit st data n).sram b = readByte st.sram b) := by
  have hw0 : 0 ≤ min n (ep.txBufferSize : Int) := by omega
  have hw1 : min n (ep.txBufferSize : Int) < 65536 := by omega
  have e32 := toU32_of_nonneg _ hw0 (by omega)
  have e16 := toU16_of_nonneg _ hw0 hw1
  refine ⟨?_, ?_, ?_⟩
  · intro i hi
    rw [sram_transmit, readByte_writeHalfword_other _ _ _ _ (by omega), e32,
      readByte_write_inside _ _ _ _ _ htx (by omega)]
  · rw [txCount_transmit, e16]
    omega
  · intro b hb hc
    rw [sram_transmit, readByte_writeHalfword_other _ _ _ _ hc, e32,
      readByte_write_outside _ _ _ _ _ (by omega)]

theorem txPacket_transmit (ep : USB_Endpoint) (st : State) (data : Buf) (n : Nat)
    (hB : ep.txBufferSize < 65536) (htx : ep.txBufferAddress % 2 = 0)
    (hgeo : ep.bufferDescriptorAddress + 4 ≤ ep.txBufferAddress
      ∨ ep.txBufferAddress + ep.txBufferSize + 2 ≤ ep.bufferDescriptorAddress + 2) :
    ep.txPacket (ep.transmit st data n)
      = (List.range (min n ep.txBufferSize)).map (fun i => data i % 256) := by
  obtain ⟨h1, h2, -⟩ := transmit_memory ep st data n (by omega) hB htx hgeo
  unfold USB_Endpoint.txPacket
  have hc : ep.txCount (ep.transmit st data (n : Int)) = min n ep.txBufferSize := by omega
  rw [hc]
  apply List.map_congr_left
  intro i hi
  rw [List.mem_range] at hi
  exact h1 i (by omega)

theorem txPacket_congr (ep : USB_Endpoint) (s s2 : State) (h : s2.sram = s.sram) :
    ep.txPacket s2 = ep.txPacket s := by
  unfold USB_Endpoint.txPacket USB_Endpoint.txCount
  rw [h]

theorem transmissionStatus_of_EPnR (ep : USB_Endpoint) (s s2 : State) (h : s2.EPnR = s.EPnR) :
    ep.transmissionStatus s2 = ep.transmissionStatus s := by
  unfold USB_Endpoint.transmissionStatus State.readEPnR
  rw [h]

end ControlLemmas2

section DescriptorLemmas
open USB_Registers USB_Endpoint USB_ControlEndpoint USB_SRAM

theorem filter_isCall_getDataEvents (o : Int) (n : Nat) :
    (getDataEvents o n).filter Event.isCall = getDataEvents o n := by
  unfold getDataEvents
  rw [List.filter_eq_self]
  intro e he
  rw [List.mem_map] at he
  obtain ⟨i, -, rfl⟩ := he
  rfl

theorem txPacket_transmit_placed (ep : USB_Endpoint) (st : State) (data : Buf) (n : Nat)
    (hp : ep.TxBufferPlaced) :
    ep.txPacket (ep.transmit st data n)
      = (List.range (min n ep.txBufferSize)).map (fun i => data i % 256) :=
  txPacket_transmit ep st data n hp.1 hp.2.1 (by have := hp.2.2; omega)

theorem sendDescriptor_eq (s : State) (request : Request) (d : USB_Descriptor) (adj : Buf) :
    onSetupStage.sendDescriptor s request d adj =
      if request.wLength > min (min request.wLength d.onGetLength) s.controlEndpoint.txBufferSize
          ∧ d.onGetLength > min (min request.wLength d.onGetLength) s.controlEndpoint.txBufferSize
      then
        ((s.controlEndpoint.transmit
            (((s.log Event.descriptorOnInit).log Event.descriptorOnGetLength).logAll
              (getDataEvents 0
                (min (min request.wLength d.onGetLength) s.controlEndpoint.txBufferSize)))
            (descriptorBuffer d 0
              (min (min request.wLength d.onGetLength) s.controlEndpoint.txBufferSize : Nat) adj)
            (min (min request.wLength d.onGetLength) s.controlEndpoint.txBufferSize : Nat)
          ).setPendingDescriptor (some d)).setPendingDescriptorDataIndex
            (min (min request.wLength d.onGetLength) s.controlEndpoint.txBufferSize : Nat)
      else
        (s.controlEndpoint.transmit
            (((s.log Event.descriptorOnInit).log Event.descriptorOnGetLength).logAll
              (getDataEvents 0
                (min (min request.wLength d.onGetLength) s.controlEndpoint.txBufferSize)))
            (descriptorBuffer d 0
              (min (min request.wLength d.onGetLength) s.controlEndpoint.txBufferSize : Nat) adj)
            (min (min request.wLength d.onGetLength) s.controlEndpoint.txBufferSize : Nat)
          ).log Event.descriptorOnDeinit := rfl

theorem sendPending_eq (s : State) (d : USB_Descriptor) (adj : Buf) :
    onDataStageIN.sendPending s d adj =
      if s.controlEndpoint.pendingDescriptorDataIndex
            + min (s.controlEndpoint.txBufferSize : Int)
                ((d.onGetLength : Int) - s.controlEndpoint.pendingDescriptorDataIndex)
          ≥ (d.onGetLength : Int)
      then
        ((((s.controlEndpoint.transmit
            ((s.log Event.descriptorOnGetLength).logAll
              (getDataEvents s.controlEndpoint.pendingDescriptorDataIndex
                (min (s.controlEndpoint.txBufferSize : Int)
                  ((d.onGetLength : Int) - s.controlEndpoint.pendingDescriptorDataIndex)).toNat))
            (descriptorBuffer d s.controlEndpoint.pendingDescriptorDataIndex
              (min (s.controlEndpoint.txBufferSize : Int)
                ((d.onGetLength : Int) - s.controlEndpoint.pendingDescriptorDataIndex)) adj)
            (min (s.controlEndpoint.txBufferSize : Int)
              ((d.onGetLength : Int) - s.controlEndpoint.pendingDescriptorDataIndex))
          ).setPendingDescriptorDataIndex
            (s.controlEndpoint.pendingDescriptorDataIndex
              + min (s.controlEndpoint.txBufferSize : Int)
                  ((d.onGetLength : Int) - s.controlEndpoint.pendingDescriptorDataIndex))
          ).log Event.descriptorOnDeinit).setPendingDescriptor none
          ).setPendingDescriptorDataIndex 0
      else
        (s.controlEndpoint.transmit
            ((s.log Event.descriptorOnGetLength).logAll
              (getDataEvents s.controlEndpoint.pendingDescriptorDataIndex
                (min (s.controlEndpoint.txBufferSize : Int)
                  ((d.onGetLength : Int) - s.controlEndpoint.pendingDescriptorDataIndex)).toNat))
            (descriptorBuffer d s.controlEndpoint.pendingDescriptorDataIndex
              (min (s.controlEndpoint.txBufferSize : Int)
                ((d.onGetLength : Int) - s.controlEndpoint.pendingDescriptorDataIndex)) adj)
            (min (s.controlEndpoint.txBufferSize : Int)
              ((d.onGetLength : Int) - s.controlEndpoint.pendingDescriptorDataIndex))
          ).setPendingDescriptorDataIndex
            (s.controlEndpoint.pendingDescriptorDataIndex
              + min (s.controlEndpoint.txBufferSize : Int)
                  ((d.onGetLength : Int) - s.controlEndpoint.pendingDescriptorDataIndex)) := rfl

theorem handleRequest_getDescriptor (s : State) (adj : Buf) (wValue wIndex wLength : Nat)
    (f : Nat → Nat → Option USB_Descriptor) (d : USB_Descriptor)
    (hf : s.controlEndpoint.descriptorCallbackFunc = some f)
    (hd : f (wValue >>> 8) (wValue &&& 0xFF) = some d) :
    onSetupStage.handleRequest s
        { bmRequestType := 0x80, bRequest := 0x06, wValue := wValue, wIndex := wIndex,
          wLength := wLength } adj
      = onSetupStage.sendDescriptor
          ((s.setDataStage (if wLength > 0 then DataStage.IN else DataStage.NONE)
              (if wLength > 0 then (wLength : Int) else 0)).log
            (Event.descriptorCallback (wValue >>> 8) (wValue &&& 0xFF)))
          { bmRequestType := 0x80, bRequest := 0x06, wValue := wValue, wIndex := wIndex,
            wLength := wLength } d adj := by
  by_cases hw : 0 < wLength <;> simp [onSetupStage.handleRequest, hw, hf, hd]

theorem txPacket_transmit_descriptor (ep : USB_Endpoint) (st : State) (d : USB_Descriptor)
    (o : Int) (n : Nat) (adj : Buf) (hp : ep.TxBufferPlaced) (hn : n ≤ ep.txBufferSize) :
    ep.txPacket (ep.transmit st (descriptorBuffer d o n adj) n)
      = (List.range n).map (fun (i : Nat) => d.onGetData (o + (i : Int)) % 256) := by
  rw [txPacket_transmit_placed ep st _ n hp, Nat.min_eq_left hn]
  apply List.map_congr_left
  intro i hi
  rw [List.mem_range] at hi
  simp only [descriptorBuffer]
  rw [if_pos (by omega), Nat.mod_mod]

theorem txCount_transmit_le (ep : USB_Endpoint) (st : State) (data : Buf) (n : Nat)
    (hB : ep.txBufferSize < 65536) (hn : n ≤ ep.txBufferSize) :
    ep.txCount (ep.transmit st data n) = n := by
  rw [txCount_transmit, toU16_of_nonneg _ (by omega) (by omega)]
  omega

end DescriptorLemmas

section TransferLemmas
open USB_Registers USB_Endpoint USB_ControlEndpoint USB_SRAM

theorem dataStage_sendPending (s : State) (d : USB_Descriptor) (adj : Buf) :
    (onDataStageIN.sendPending s d adj).controlEndpoint.dataStage
      = s.controlEndpoint.dataStage := by
  rw [sendPending_eq]
  split <;> simp

theorem sendDescriptor_armed (s : State) (request : Request) (d : USB_Descriptor) (adj : Buf) :
    s.controlEndpoint.transmissionStatus (onSetupStage.sendDescriptor s request d adj)
      = Status.VALID.toNat := by
  rw [sendDescriptor_eq]
  split_ifs
  · exact (transmissionStatus_of_EPnR _ _ _ rfl).trans (transmissionStatus_transmit _ _ _ _)
  · exact (transmissionStatus_of_EPnR _ _ _ rfl).trans (transmissionStatus_transmit _ _ _ _)

theorem toUSB_Endpoint_sendDescriptor (s : State) (request : Request) (d : USB_Descriptor)
    (adj : Buf) :
    (onSetupStage.sendDescriptor s request d adj).controlEndpoint.toUSB_Endpoint
      = s.controlEndpoint.toUSB_Endpoint := by
  rw [sendDescriptor_eq]
  split_ifs <;> rfl

/-- The setup handler of a GET_DESCRIPTOR request for which the provider returns a
descriptor leaves the transmit status valid. -/
theorem setup_getDescriptor_armed (st : State) (requestBuffer adjacent : Buf)
    (wValue wIndex wLength : Nat) (f : Nat → Nat → Option USB_Descriptor) (d : USB_Descriptor)
    (hreq : receivedRequest st requestBuffer =
      { bmRequestType := 0x80, bRequest := 0x06, wValue := wValue, wIndex := wIndex,
        wLength := wLength })
    (hf : st.controlEndpoint.descriptorCallbackFunc = some f)
    (hd : f (wValue >>> 8) (wValue &&& 0xFF) = some d) :
    st.controlEndpoint.transmissionStatus (onSetupReceptionComplete st requestBuffer adjacent)
      = Status.VALID.toNat := by
  have key : ∀ (X : State) (request : Request),
      X.controlEndpoint.toUSB_Endpoint = st.controlEndpoint.toUSB_Endpoint →
      st.controlEndpoint.transmissionStatus
          ((onSetupStage.sendDescriptor X request d adjacent).controlEndpoint.setReceptionStatus
            (onSetupStage.sendDescriptor X request d adjacent) Status.VALID)
        = Status.VALID.toNat := by
    intro X request hX
    have h1 := toUSB_Endpoint_sendDescriptor X request d adjacent
    have h2 := sendDescriptor_armed X request d adjacent
    show USB_Endpoint.transmissionStatus st.controlEndpoint.toUSB_Endpoint
      (USB_Endpoint.setReceptionStatus
        (onSetupStage.sendDescriptor X request d adjacent).controlEndpoint.toUSB_Endpoint
        (onSetupStage.sendDescriptor X request d adjacent) Status.VALID) = _
    rw [h1, hX, transmissionStatus_setReceptionStatus, ← hX]
    exact h2
  rw [onSetupReceptionComplete_eq, hreq,
    handleRequest_getDescriptor _ _ _ _ _ f d (by simpa using hf) hd]
  exact key _ _ rfl

/-- Calls, packet and pending-descriptor fields left by the setup handler of a
GET_DESCRIPTOR request for which the provider returns a descriptor. -/
theorem setup_getDescriptor_packet (st : State) (requestBuffer adjacent : Buf)
    (wValue wIndex wLength : Nat) (f : Nat → Nat → Option USB_Descriptor) (d : USB_Descriptor)
    (hreq : receivedRequest st requestBuffer =
      { bmRequestType := 0x80, bRequest := 0x06, wValue := wValue, wIndex := wIndex,
        wLength := wLength })
    (hf : st.controlEndpoint.descriptorCallbackFunc = some f)
    (hd : f (wValue >>> 8) (wValue &&& 0xFF) = some d)
    (hp : st.controlEndpoint.TxBufferPlaced) :
    (State.newEvents st (onSetupReceptionComplete st requestBuffer adjacent)).filter Event.isCall
        = [Event.descriptorCallback (wValue >>> 8) (wValue &&& 0xFF), Event.descriptorOnInit,
            Event.descriptorOnGetLength]
          ++ getDataEvents 0 (min (min wLength d.onGetLength) st.controlEndpoint.txBufferSize)
          ++ (if wLength > min (min wLength d.onGetLength) st.controlEndpoint.txBufferSize
                ∧ d.onGetLength > min (min wLength d.onGetLength) st.controlEndpoint.txBufferSize
              then [] else [Event.descriptorOnDeinit])
    ∧ st.controlEndpoint.txPacket (onSetupReceptionComplete st requestBuffer adjacent)
        = (List.range (min (min wLength d.onGetLength) st.controlEndpoint.txBufferSize)).map
            (fun (i : Nat) => d.onGetData (i : Int) % 256)
    ∧ st.controlEndpoint.txCount (onSetupReceptionComplete st requestBuffer adjacent)
        = min (min wLength d.onGetLength) st.controlEndpoint.txBufferSize
    ∧ (if wLength > min (min wLength d.onGetLength) st.controlEndpoint.txBufferSize
            ∧ d.onGetLength > min (min wLength d.onGetLength) st.controlEndpoint.txBufferSize
        then
          (onSetupReceptionComplete st requestBuffer adjacent).controlEndpoint.pendingDescriptor
              = some d
          ∧ (onSetupReceptionComplete st requestBuffer
                adjacent).controlEndpoint.pendingDescriptorDataIndex
              = min (min wLength d.onGetLength) st.controlEndpoint.txBufferSize
        else
          (onSetupReceptionComplete st requestBuffer adjacent).controlEndpoint.pendingDescriptor
              = st.controlEndpoint.pendingDescriptor
          ∧ (onSetupReceptionComplete st requestBuffer
                adjacent).controlEndpoint.pendingDescriptorDataIndex
              = st.controlEndpoint.pendingDescriptorDataIndex) := by
  rw [onSetupReceptionComplete_eq, hreq,
    handleRequest_getDescriptor _ _ _ _ _ f d (by simpa using hf) hd, sendDescriptor_eq]
  simp only [State.ce_toUSB_Endpoint_setDataStage, State.controlEndpoint_log,
    controlEndpoint_setReceptionStatus]
  by_cases hc : wLength > min (min wLength d.onGetLength) st.controlEndpoint.txBufferSize
                ∧ d.onGetLength > min (min wLength d.onGetLength) st.controlEndpoint.txBufferSize
  · rw [if_pos hc, if_pos hc, if_pos hc]
    refine ⟨?_, ?_, ?_, ?_⟩
    · simp [State.newEvents, Event.isCall, filter_isCall_getDataEvents]
    · exact (txPacket_congr _ _ _ rfl).trans
        (txPacket_transmit_descriptor _ _ d 0 _ adjacent hp (Nat.min_le_right _ _)) |>.trans
          (by simp)
    · exact (txCount_transmit_le _ _ _ _ hp.1 (Nat.min_le_right _ _))
    · simp
  · rw [if_neg hc, if_neg hc, if_neg hc]
    refine ⟨?_, ?_, ?_, ?_⟩
    · simp [State.newEvents, Event.isCall, filter_isCall_getDataEvents]
    · exact (txPacket_congr _ _ _ rfl).trans
        (txPacket_transmit_descriptor _ _ d 0 _ adjacent hp (Nat.min_le_right _ _)) |>.trans
          (by simp)
    · exact (txCount_transmit_le _ _ _ _ hp.1 (Nat.min_le_right _ _))
    · simp

end TransferLemmas

/-! ## Claims C1 to C10 -/

section Claims

open USB_Registers USB_Endpoint USB_ControlEndpoint USB_SRAM

/-- C1 (what the code does instead): the round trip holds at even addresses
only. For every address `a` and length `n` with `a + n` inside the packet memory
and every byte sequence `d`: when `a` is even, `write(a, d, n)` followed by
`read(a, buf, n)` yields `buf = d`, for odd `n` too. When `a` is odd, `write`
stores its cells from byte `a - 1` on, so that `read` returns the data shifted by
one place: `buf[i] = d[i + 1]`, which for the last byte of an odd-length write is
`d[n]`, one element past the data, and for the last byte of an even-length write
is what the memory held before. -/
theorem C1_round_trip_even_and_odd (m : Mem) (a n : Nat) (d buf : Buf)
    (_hn : a + n ≤ SIZE) (hd : ∀ i, i < n → d i < 256) :
    (a % 2 = 0 → ∀ i, i < n → USB_SRAM.read (write m a d n) a buf n i = d i)
    ∧ (a % 2 = 1 → ∀ i, i < n →
        USB_SRAM.read (write m a d n) a buf n i
          = if i + 1 < n + n % 2 then d (i + 1) % 256 else readByte m (a + i)) := by
  refine ⟨fun ha i hi => ?_, fun ha i hi => ?_⟩
  · unfold USB_SRAM.read
    rw [if_pos hi, readByte_write_inside m a d n i ha hi, Nat.mod_eq_of_lt (hd i hi)]
  · unfold USB_SRAM.read
    rw [if_pos hi, readByte_write]
    by_cases h : i + 1 < n + n % 2
    · rw [if_pos h, if_pos (by omega)]
      congr 2
      omega
    · rw [if_neg h, if_neg (by omega)]

/-- C1 witness: on a zeroed memory `write(1, {0xAA, 0xBB}, 2)` followed by
`read(1, buf, 2)` yields `{0xBB, 0x00}`; a 3-byte write at the even address 64 is
read back unchanged. -/
theorem C1_round_trip_even_and_odd_witness :
    (1 % 2 = 1 ∧ 1 + 2 ≤ SIZE
      ∧ ∀ i, i < 2 → (fun i => if i = 0 then 0xAA else 0xBB) i < 256)
    ∧ USB_SRAM.read (write (fun _ => 0) 1 (fun i => if i = 0 then 0xAA else 0xBB) 2) 1
        (fun _ => 0) 2 0 = 0xBB
    ∧ USB_SRAM.read (write (fun _ => 0) 1 (fun i => if i = 0 then 0xAA else 0xBB) 2) 1
        (fun _ => 0) 2 1 = 0x00
    ∧ ∀ i, i < 3 →
      USB_SRAM.read (write (fun _ => 0) 64 (fun i => if i < 3 then 0x10 + i else 0xEE) 3) 64
        (fun _ => 0) 3 i = (fun i => if i < 3 then 0x10 + i else 0xEE) i :=
  ⟨⟨by decide, by decide, by intro i _; dsimp only; split <;> decide⟩,
    (C1_round_trip_even_and_odd (fun _ => 0) 1 2 (fun i => if i = 0 then 0xAA else 0xBB)
      (fun _ => 0) (by decide) (by intro i _; dsimp only; split <;> decide)).2 (by decide) 0
      (by decide),
    (C1_round_trip_even_and_odd (fun _ => 0) 1 2 (fun i => if i = 0 then 0xAA else 0xBB)
      (fun _ => 0) (by decide) (by intro i _; dsimp only; split <;> decide)).2 (by decide) 1
      (by decide),
    (C1_round_trip_even_and_odd (fun _ => 0) 64 3 (fun i => if i < 3 then 0x10 + i else 0xEE)
      (fun _ => 0) (by decide) (by intro i hi; simp only [if_pos hi]; omega)).1 (by decide)⟩

/-- C2 (what the code does instead): `transmit(data, n)` stores whole 16-bit
cells. For every call with `n >= 0` on an endpoint whose BDT transmit-count
half-word lies outside the TX buffer cells, with `w = min(n, txBufferSize)`: the
bytes from the TX buffer address rounded down to even on, `w` rounded up to even
of them, receive `data[0], data[1], ...`; the BDT transmit count (half-word at
`bufferDescriptorAddress + 2`) is `w`; every byte outside those cells and outside
the count half-word keeps its value; the transmit status reads valid. At an even
TX buffer address the `w` bytes from the address on are therefore the first `w`
bytes of `data`, and for odd `w` the byte behind them, `txBufferAddress + w`,
receives `data[w]`. At an odd address the data lands one byte lower. -/
theorem C2_transmit_stores_whole_cells (ep : USB_Endpoint) (st : State) (data : Buf) (n : Int)
    (hn : 0 ≤ n) (hB : ep.txBufferSize < 65536)
    (hgeo : ep.bufferDescriptorAddress + 4 ≤ ep.txBufferAddress
      ∨ ep.txBufferAddress + ep.txBufferSize + 2 ≤ ep.bufferDescriptorAddress + 2) :
    (∀ k : Nat, k < 2 * (((min n (ep.txBufferSize : Int)).toNat + 1) / 2) →
        readByte (ep.transmit st data n).sram (2 * (ep.txBufferAddress / 2) + k)
          = data k % 256)
    ∧ (ep.txCount (ep.transmit st data n) : Int) = min n ep.txBufferSize
    ∧ (∀ b : Nat,
        (b < 2 * (ep.txBufferAddress / 2)
          ∨ 2 * (ep.txBufferAddress / 2)
              + 2 * (((min n (ep.txBufferSize : Int)).toNat + 1) / 2) ≤ b) →
        b / 2 ≠ (ep.bufferDescriptorAddress + 2) / 2 →
        readByte (ep.transmit st data n).sram b = readByte st.sram b)
    ∧ ep.transmissionStatus (ep.transmit st data n) = Status.VALID.toNat
    ∧ (ep.txBufferAddress % 2 = 0 →
        ∀ i : Nat, (i : Int) < min n ep.txBufferSize →
          readByte (ep.transmit st data n).sram (ep.txBufferAddress + i) = data i % 256)
    ∧ (ep.txBufferAddress % 2 = 0 → (min n (ep.txBufferSize : Int)).toNat % 2 = 1 →
        readByte (ep.transmit st data n).sram
            (ep.txBufferAddress + (min n (ep.txBufferSize : Int)).toNat)
          = data (min n (ep.txBufferSize : Int)).toNat % 256) := by
  have hw0 : 0 ≤ min n (ep.txBufferSize : Int) := by omega
  have hw1 : min n (ep.txBufferSize : Int) < 65536 := by omega
  have e32 := toU32_of_nonneg _ hw0 (by omega)
  have e16 := toU16_of_nonneg _ hw0 hw1
  have key : ∀ k : Nat, k < 2 * (((min n (ep.txBufferSize : Int)).toNat + 1) / 2) →
      readByte (ep.transmit st data n).sram (2 * (ep.txBufferAddress / 2) + k)
        = data k % 256 := by
    intro k hk
    rw [sram_transmit, readByte_writeHalfword_other _ _ _ _ (by omega), e32, readByte_write,
      if_pos (by omega)]
    congr 2
    omega
  refine ⟨key, ?_, ?_, transmissionStatus_setTransmissionStatus ep _ _, ?_, ?_⟩
  · rw [txCount_transmit, e16]
    omega
  · intro b hb hc
    rw [sram_transmit, readByte_writeHalfword_other _ _ _ _ hc, e32, readByte_write,
      if_neg (by omega)]
  · intro htx i hi
    have := key i (by omega)
    rw [show 2 * (ep.txBufferAddress / 2) = ep.txBufferAddress by omega] at this
    exact this
  · intro htx hodd
    have := key (min n (ep.txBufferSize : Int)).toNat (by omega)
    rw [show 2 * (ep.txBufferAddress / 2) = ep.txBufferAddress by omega] at this
    exact this

/-- C2 witness: on endpoint 0 with its default geometry (TX buffer 64..127)
`transmit` of the 3 bytes `0x10, 0x11, 0x12` changes byte 67 from 0 to `0x13`,
the element that follows the data; with the TX buffer at 65, `transmit` of
`{0xAA, 0xBB}` leaves `0xBB, 0x00` in the bytes 65 and 66. -/
theorem C2_transmit_stores_whole_cells_witness :
    ((0 : Int) ≤ 3 ∧ ({ number := 0 } : USB_Endpoint).txBufferSize < 65536
      ∧ ({ number := 0 } : USB_Endpoint).txBufferAddress % 2 = 0
      ∧ (min (3 : Int) (({ number := 0 } : USB_Endpoint).txBufferSize : Int)).toNat % 2 = 1)
    ∧ (({ number := 0 } : USB_Endpoint).txBufferAddress = 64
      ∧ ({ number := 0 } : USB_Endpoint).txBufferSize = 64
      ∧ readByte ({} : State).sram 67 = 0)
    ∧ readByte (({ number := 0 } : USB_Endpoint).transmit {} (fun i => 0x10 + i) 3).sram 67
      = 0x13
    ∧ (readByte
        (({ number := 0, txBufferAddress := 65 } : USB_Endpoint).transmit {}
          (fun i => if i = 0 then 0xAA else 0xBB) 2).sram 65 = 0xBB
      ∧ readByte
        (({ number := 0, txBufferAddress := 65 } : USB_Endpoint).transmit {}
          (fun i => if i = 0 then 0xAA else 0xBB) 2).sram 66 = 0x00) :=
  ⟨⟨by decide, by decide, by decide, by decide⟩, ⟨by decide, by decide, by decide⟩,
    (C2_transmit_stores_whole_cells { number := 0 } {} (fun i => 0x10 + i) 3 (by decide)
      (by decide) (by decide)).2.2.2.2.2 (by decide) (by decide),
    ⟨(C2_transmit_stores_whole_cells { number := 0, txBufferAddress := 65 } {}
      (fun i => if i = 0 then 0xAA else 0xBB) 2 (by decide) (by decide) (by decide)).1 1
      (by decide), by decide⟩⟩

/-- C3: for every `receive(buf, n)` with `n >= 0` the returned length is `min(n, c)`
with `c` the BDT receive-count half-word (at `bufferDescriptorAddress + 6`)
reduced to its low 10 bits, so that `c` is below 1024 whatever bits 10..15 hold;
`buf[0..r)` equals the first `r` bytes of the RX buffer (for odd `r` too); and the
packet memory is unchanged by the call. -/
theorem C3_receive_length_and_data (ep : USB_Endpoint) (st : State) (buf : Buf) (n : Int)
    (_hn : 0 ≤ n) :
    ep.getReceivedLength st
        = ((readHalfword st.sram (ep.bufferDescriptorAddress + 6) % 1024 : Nat) : Int)
    ∧ (ep.receive st buf n).2.2 = min n (ep.getReceivedLength st)
    ∧ (∀ i : Nat, (i : Int) < (ep.receive st buf n).2.2 →
        (ep.receive st buf n).2.1 i = readByte st.sram (ep.rxBufferAddress + i))
    ∧ (ep.receive st buf n).1.sram = st.sram := by
  have hc : ep.getReceivedLength st
      = ((readHalfword st.sram (ep.bufferDescriptorAddress + 6) % 1024 : Nat) : Int) := by
    unfold USB_Endpoint.getReceivedLength
    rw [and_0x3FF]
  refine ⟨hc, rfl, ?_, rfl⟩
  intro i hi
  have hlt := Nat.mod_lt (readHalfword st.sram (ep.bufferDescriptorAddress + 6))
    (show 1024 > 0 by decide)
  simp only [USB_Endpoint.receive] at hi ⊢
  rw [hc] at hi ⊢
  unfold USB_SRAM.read
  rw [toU32_of_nonneg _ (by omega) (by omega), if_pos (by omega)]

/-- C3 witness: `receive` of at most 5 bytes on endpoint 0 while the BDT receive
count reads 8 together with block-size bits (0x8408): 5 bytes are returned. -/
theorem C3_receive_length_and_data_witness :
    (0 : Int) ≤ 5
    ∧ (({ number := 0 } : USB_Endpoint).receive USB_ControlEndpoint.exampleSetAddressState
        (fun _ => 0) 5).2.2 = 5
    ∧ (({ number := 0 } : USB_Endpoint).receive USB_ControlEndpoint.exampleSetAddressState
        (fun _ => 0) 5).1.sram = USB_ControlEndpoint.exampleSetAddressState.sram :=
  ⟨by decide,
    (C3_receive_length_and_data { number := 0 } USB_ControlEndpoint.exampleSetAddressState
      (fun _ => 0) 5 (by decide)).2.1.trans (by decide),
    (C3_receive_length_and_data { number := 0 } USB_ControlEndpoint.exampleSetAddressState
      (fun _ => 0) 5 (by decide)).2.2.2⟩

/-- C4: under the endpoint register's write semantics a status write is exact and
idempotent. For every state (every register value) and every status `s`, after
`setTransmissionStatus(s)` the STAT_TX field reads `s`, and a second
`setTransmissionStatus(s)` leaves every endpoint register unchanged, STAT_TX
still reading `s`; likewise for `setReceptionStatus` and STAT_RX. -/
theorem C4_status_write_exact_and_idempotent (ep : USB_Endpoint) (st : State) (s : Status) :
    (ep.transmissionStatus (ep.setTransmissionStatus st s) = s.toNat
      ∧ (ep.setTransmissionStatus (ep.setTransmissionStatus st s) s).EPnR
          = (ep.setTransmissionStatus st s).EPnR
      ∧ ep.transmissionStatus (ep.setTransmissionStatus (ep.setTransmissionStatus st s) s)
          = s.toNat)
    ∧ (ep.receptionStatus (ep.setReceptionStatus st s) = s.toNat
      ∧ (ep.setReceptionStatus (ep.setReceptionStatus st s) s).EPnR
          = (ep.setReceptionStatus st s).EPnR
      ∧ ep.receptionStatus (ep.setReceptionStatus (ep.setReceptionStatus st s) s)
          = s.toNat) :=
  ⟨⟨transmissionStatus_setTransmissionStatus ep st s,
    EPnR_setTransmissionStatus_twice ep st s,
    transmissionStatus_setTransmissionStatus ep _ s⟩,
   ⟨receptionStatus_setReceptionStatus ep st s,
    EPnR_setReceptionStatus_twice ep st s,
    receptionStatus_setReceptionStatus ep _ s⟩⟩

/-- C5: toggle-bit-safe writes. For every value `v` read from the endpoint
register and every argument: the word stored by `setAddress` and by `setType`
has the six toggle bits 0 and CTR_TX = CTR_RX = 1; the word stored by
`setTransmissionStatus` has DTOG_TX, DTOG_RX, STAT_RX 0 and CTR_TX = CTR_RX = 1
(`setReceptionStatus`: DTOG_TX, DTOG_RX, STAT_TX); in all four every bit that is
neither toggle bit, nor flag, nor part of the field being set equals the bit
read. Each operation performs exactly one store, of that word computed from the
register value read. -/
theorem C5_toggle_bit_safe_writes (v : Nat) (a : Int) (t : EpType) (s : Status)
    (ep : USB_Endpoint) (st : State) :
    (setAddressWord v a &&& EPnR.TOGGLE_MASK = 0
      ∧ setAddressWord v a &&& EPnR.RC_W0_MASK = EPnR.RC_W0_MASK
      ∧ setAddressWord v a
            &&& not32 (EPnR.TOGGLE_MASK ||| EPnR.RC_W0_MASK ||| bitMask 4 EPnR.EA_0)
          = v &&& not32 (EPnR.TOGGLE_MASK ||| EPnR.RC_W0_MASK ||| bitMask 4 EPnR.EA_0))
    ∧ (setTypeWord v t &&& EPnR.TOGGLE_MASK = 0
      ∧ setTypeWord v t &&& EPnR.RC_W0_MASK = EPnR.RC_W0_MASK
      ∧ setTypeWord v t
            &&& not32 (EPnR.TOGGLE_MASK ||| EPnR.RC_W0_MASK ||| bitMask 2 EPnR.EP_TYPE_0)
          = v &&& not32 (EPnR.TOGGLE_MASK ||| EPnR.RC_W0_MASK ||| bitMask 2 EPnR.EP_TYPE_0))
    ∧ (setTransmissionStatusWord v s
            &&& ((1 <<< EPnR.DTOG_TX) ||| (1 <<< EPnR.DTOG_RX) ||| EPnR.STAT_RX_MASK) = 0
      ∧ setTransmissionStatusWord v s &&& EPnR.RC_W0_MASK = EPnR.RC_W0_MASK
      ∧ setTransmissionStatusWord v s &&& not32 (EPnR.TOGGLE_MASK ||| EPnR.RC_W0_MASK)
          = v &&& not32 (EPnR.TOGGLE_MASK ||| EPnR.RC_W0_MASK))
    ∧ (setReceptionStatusWord v s
            &&& ((1 <<< EPnR.DTOG_TX) ||| (1 <<< EPnR.DTOG_RX) ||| EPnR.STAT_TX_MASK) = 0
      ∧ setReceptionStatusWord v s &&& EPnR.RC_W0_MASK = EPnR.RC_W0_MASK
      ∧ setReceptionStatusWord v s &&& not32 (EPnR.TOGGLE_MASK ||| EPnR.RC_W0_MASK)
          = v &&& not32 (EPnR.TOGGLE_MASK ||| EPnR.RC_W0_MASK))
    ∧ ((ep.setAddress st a).trace
          = st.trace ++ [Event.writeEPnR ep.number (setAddressWord (st.readEPnR ep.number) a)]
      ∧ (ep.setType st t).trace
          = st.trace ++ [Event.writeEPnR ep.number (setTypeWord (st.readEPnR ep.number) t)]
      ∧ (ep.setTransmissionStatus st s).trace
          = st.trace ++ [Event.writeEPnR ep.number
              (setTransmissionStatusWord (st.readEPnR ep.number) s)]
      ∧ (ep.setReceptionStatus st s).trace
          = st.trace ++ [Event.writeEPnR ep.number
              (setReceptionStatusWord (st.readEPnR ep.number) s)]) := by
  refine ⟨⟨?_, ?_, ?_⟩, ⟨?_, ?_, ?_⟩, ⟨?_, ?_, ?_⟩, ⟨?_, ?_, ?_⟩, ⟨rfl, rfl, rfl, rfl⟩⟩ <;>
  · apply Nat.eq_of_testBit_eq
    intro i
    simp only [setAddressWord, setTypeWord, setTransmissionStatusWord, setReceptionStatusWord,
      testBit_bitsReplace, Nat.testBit_and, Nat.testBit_or, Nat.testBit_xor, testBit_not32,
      testBit_TOGGLE_MASK, testBit_RC_W0_MASK, testBit_bitsValue, testBit_bitMask,
      show (4294967296 : Nat) = 2 ^ 32 from rfl, Nat.testBit_mod_two_pow, Nat.zero_testBit,
      EPnR.STAT_TX_MASK, EPnR.STAT_RX_MASK, Nat.one_shiftLeft, Nat.testBit_two_pow,
      EPnR.STAT_TX_0, EPnR.STAT_TX_1, EPnR.STAT_RX_0, EPnR.STAT_RX_1, EPnR.DTOG_TX,
      EPnR.DTOG_RX, EPnR.EA_0, EPnR.EP_TYPE_0]
    rcases Nat.lt_or_ge i 16 with h | h
    · interval_cases i <;> simp
    · have e : i = (i - 16) + 16 := by omega
      generalize i - 16 = j at e
      subst e
      simp [show ¬ (j + 12 < 2) by omega, show ¬ (j + 4 < 2) by omega,
        show ¬ (j + 7 < 2) by omega, show ¬ (j + 16 < 4) by omega]
      try (cases decide (j + 16 < 32) <;> simp)

/-- C6: for every prior state (any value of the endpoint-0 register), after
`USB_ControlEndpoint::onReset()` the endpoint type field reads control, the
transmit status reads nak and the receive status reads valid. -/
theorem C6_onReset_type_and_status (st : State) :
    st.controlEndpoint.typeField (USB_ControlEndpoint.onReset st) = EpType.CONTROL.toNat
    ∧ st.controlEndpoint.transmissionStatus (USB_ControlEndpoint.onReset st) = Status.NAK.toNat
    ∧ st.controlEndpoint.receptionStatus (USB_ControlEndpoint.onReset st)
        = Status.VALID.toNat := by
  simp only [USB_ControlEndpoint.onReset, controlEndpoint_setType,
    controlEndpoint_setTransmissionStatus]
  refine ⟨?_, ?_, ?_⟩
  · rw [typeField_setReceptionStatus, typeField_setTransmissionStatus, typeField_setType]
  · rw [transmissionStatus_setReceptionStatus, transmissionStatus_setTransmissionStatus]
  · rw [receptionStatus_setReceptionStatus]

/-- C8: first GET_DESCRIPTOR packet. For every setup packet with `bRequest = 6`,
`bmRequestType = 0x80`, an installed provider and a placed TX buffer: the
provider is called with type = high byte and index = low byte of `wValue`; when
it returns a descriptor of length `L`, the calls leaving the driver are, in
order, the provider, `onInit()`, `onGetLength()`, `onGetData(0..transmitSize-1)`
and, unless a cursor is recorded, `onDeinit()`; exactly
`transmitSize = min(wLength, L, txBufferSize)` bytes, descriptor bytes
`0..transmitSize-1`, are handed to the peripheral (TX buffer content and BDT
transmit count) and the transmit status of the endpoint is left valid, which is
what makes the peripheral send them; a pending descriptor with
cursor `transmitSize` is recorded if and only if `wLength > transmitSize` and
`L > transmitSize`, and otherwise the pending-descriptor fields are left as they
were. -/
theorem C8_first_get_descriptor_packet (st : State) (requestBuffer adjacent : Buf)
    (wValue wIndex wLength : Nat) (f : Nat → Nat → Option USB_Descriptor) (d : USB_Descriptor)
    (hreq : receivedRequest st requestBuffer =
      { bmRequestType := 0x80, bRequest := 0x06, wValue := wValue, wIndex := wIndex,
        wLength := wLength })
    (hf : st.controlEndpoint.descriptorCallbackFunc = some f)
    (hd : f (wValue >>> 8) (wValue &&& 0xFF) = some d)
    (hp : st.controlEndpoint.TxBufferPlaced) :
    (State.newEvents st (onSetupReceptionComplete st requestBuffer adjacent)).filter Event.isCall
        = [Event.descriptorCallback (wValue >>> 8) (wValue &&& 0xFF), Event.descriptorOnInit,
            Event.descriptorOnGetLength]
          ++ getDataEvents 0 (min (min wLength d.onGetLength) st.controlEndpoint.txBufferSize)
          ++ (if wLength > min (min wLength d.onGetLength) st.controlEndpoint.txBufferSize
                ∧ d.onGetLength > min (min wLength d.onGetLength) st.controlEndpoint.txBufferSize
              then [] else [Event.descriptorOnDeinit])
    ∧ st.controlEndpoint.txPacket (onSetupReceptionComplete st requestBuffer adjacent)
        = (List.range (min (min wLength d.onGetLength) st.controlEndpoint.txBufferSize)).map
            (fun (i : Nat) => d.onGetData (i : Int) % 256)
    ∧ st.controlEndpoint.txCount (onSetupReceptionComplete st requestBuffer adjacent)
        = min (min wLength d.onGetLength) st.controlEndpoint.txBufferSize
    ∧ st.controlEndpoint.transmissionStatus
        (onSetupReceptionComplete st requestBuffer adjacent) = Status.VALID.toNat
    ∧ (if wLength > min (min wLength d.onGetLength) st.controlEndpoint.txBufferSize
            ∧ d.onGetLength > min (min wLength d.onGetLength) st.controlEndpoint.txBufferSize
        then
          (onSetupReceptionComplete st requestBuffer adjacent).controlEndpoint.pendingDescriptor
              = some d
          ∧ (onSetupReceptionComplete st requestBuffer
                adjacent).controlEndpoint.pendingDescriptorDataIndex
              = min (min wLength d.onGetLength) st.controlEndpoint.txBufferSize
        else
          (onSetupReceptionComplete st requestBuffer adjacent).controlEndpoint.pendingDescriptor
              = st.controlEndpoint.pendingDescriptor
          ∧ (onSetupReceptionComplete st requestBuffer
                adjacent).controlEndpoint.pendingDescriptorDataIndex
              = st.controlEndpoint.pendingDescriptorDataIndex) := by
  obtain ⟨h1, h2, h3, h4⟩ := setup_getDescriptor_packet st requestBuffer adjacent wValue wIndex
    wLength f d hreq hf hd hp
  exact ⟨h1, h2, h3,
    setup_getDescriptor_armed st requestBuffer adjacent wValue wIndex wLength f d hreq hf hd,
    h4⟩

/-- C8 witness: GET_DESCRIPTOR(DEVICE), `wLength = 18`, `L = 18`, `txBufferSize = 8`:
8 bytes are handed over, the transmit status goes from disabled to valid and the
cursor 8 is recorded. -/
theorem C8_first_get_descriptor_packet_witness :
    (receivedRequest exampleEnumerationState (fun _ => 0) =
        { bmRequestType := 0x80, bRequest := 0x06, wValue := 0x0100, wIndex := 0,
          wLength := 18 }
      ∧ exampleEnumerationState.controlEndpoint.TxBufferPlaced)
    ∧ exampleEnumerationState.controlEndpoint.txPacket
        (onSetupReceptionComplete exampleEnumerationState (fun _ => 0) (fun _ => 0xEE))
        = [1, 2, 3, 4, 5, 6, 7, 8]
    ∧ exampleEnumerationState.controlEndpoint.txCount
        (onSetupReceptionComplete exampleEnumerationState (fun _ => 0) (fun _ => 0xEE)) = 8
    ∧ exampleEnumerationState.controlEndpoint.transmissionStatus exampleEnumerationState
        = Status.DISABLED.toNat
    ∧ exampleEnumerationState.controlEndpoint.transmissionStatus
        (onSetupReceptionComplete exampleEnumerationState (fun _ => 0) (fun _ => 0xEE))
      = Status.VALID.toNat
    ∧ (onSetupReceptionComplete exampleEnumerationState (fun _ => 0)
        (fun _ => 0xEE)).controlEndpoint.pendingDescriptorDataIndex = 8 :=
  ⟨⟨rfl, by decide⟩,
    (C8_first_get_descriptor_packet exampleEnumerationState (fun _ => 0) (fun _ => 0xEE)
      0x0100 0 18 (fun _ _ => some exampleDescriptor) exampleDescriptor rfl rfl rfl
      (by decide)).2.1,
    (C8_first_get_descriptor_packet exampleEnumerationState (fun _ => 0) (fun _ => 0xEE)
      0x0100 0 18 (fun _ _ => some exampleDescriptor) exampleDescriptor rfl rfl rfl
      (by decide)).2.2.1,
    by decide,
    (C8_first_get_descriptor_packet exampleEnumerationState (fun _ => 0) (fun _ => 0xEE)
      0x0100 0 18 (fun _ _ => some exampleDescriptor) exampleDescriptor rfl rfl rfl
      (by decide)).2.2.2.1,
    rfl⟩

/-- C9: SET_ADDRESS is deferred. For every setup packet with `bRequest = 5`,
`bmRequestType = 0` and any `wValue`, `onSetupReceptionComplete` leaves DADDR and
the device status unchanged (no store to DADDR occurs), keeps the requested
address `wValue & 0x7F` in `addressTemp`, and arms a zero-length status packet:
BDT transmit count 0 and transmit status valid. -/
theorem C9_set_address_is_deferred (st : State) (requestBuffer adjacent : Buf)
    (wValue wIndex wLength : Nat)
    (hreq : receivedRequest st requestBuffer =
      { bmRequestType := 0x00, bRequest := 0x05, wValue := wValue, wIndex := wIndex,
        wLength := wLength }) :
    (onSetupReceptionComplete st requestBuffer adjacent).DADDR = st.DADDR
    ∧ (onSetupReceptionComplete st requestBuffer adjacent).status = st.status
    ∧ ((State.newEvents st (onSetupReceptionComplete st requestBuffer adjacent)).countP
        Event.isWriteDADDR = 0)
    ∧ (onSetupReceptionComplete st requestBuffer adjacent).controlEndpoint.addressTemp
        = wValue &&& 0x7F
    ∧ st.controlEndpoint.txCount (onSetupReceptionComplete st requestBuffer adjacent) = 0
    ∧ st.controlEndpoint.transmissionStatus
        (onSetupReceptionComplete st requestBuffer adjacent) = Status.VALID.toNat := by
  rw [onSetupReceptionComplete_eq, hreq]
  by_cases hw : 0 < wLength <;>
    simp [onSetupStage.handleRequest, hw, State.newEvents, Event.isWriteDADDR]

/-- C9 witness: the setup packet SET_ADDRESS with `wValue = 5`. -/
theorem C9_set_address_is_deferred_witness :
    receivedRequest exampleSetAddressState (fun _ => 0) =
        { bmRequestType := 0x00, bRequest := 0x05, wValue := 5, wIndex := 0, wLength := 0 }
    ∧ (onSetupReceptionComplete exampleSetAddressState (fun _ => 0) (fun _ => 0)).DADDR
        = exampleSetAddressState.DADDR
    ∧ (onSetupReceptionComplete exampleSetAddressState (fun _ => 0) (fun _ => 0)).status
        = exampleSetAddressState.status :=
  ⟨rfl,
    (C9_set_address_is_deferred exampleSetAddressState (fun _ => 0) (fun _ => 0) 5 0 0 rfl).1,
    (C9_set_address_is_deferred exampleSetAddressState (fun _ => 0) (fun _ => 0) 5 0 0
      rfl).2.1⟩

/-- C10: address commit at the status stage. For every address `a` in 1..127,
after a SET_ADDRESS setup packet with `wValue = a` (and `wLength = 0`, so that the
stage is None) DADDR and the device status are still unchanged; the first
following completion event, `onTransmissionComplete` or `onReceptionComplete`,
stores to DADDR exactly once, the value `a | 0x80`, sets the device status to
Addressed and clears the deferred address; a further completion event stores to
DADDR no more. When no deferred address is pending (value 0) the status-stage
action changes nothing, in particular neither DADDR nor the device status. -/
theorem C10_address_commit_at_status_stage (st : State)
    (requestBuffer adjacent adjacent2 adjacent3 : Buf) (a wIndex : Nat)
    (ha1 : 1 ≤ a) (ha2 : a ≤ 127)
    (hreq : receivedRequest st requestBuffer =
      { bmRequestType := 0x00, bRequest := 0x05, wValue := a, wIndex := wIndex, wLength := 0 }) :
    (∀ s1, s1 = onSetupReceptionComplete st requestBuffer adjacent →
      s1.DADDR = st.DADDR ∧ s1.status = st.status
      ∧ (∀ s2, (s2 = onTransmissionComplete s1 adjacent2 ∨ s2 = onReceptionComplete s1 adjacent2) →
          s2.DADDR = a ||| 0x80
          ∧ s2.status = USB.Status.ADDRESSED
          ∧ s2.controlEndpoint.addressTemp = 0
          ∧ (State.newEvents s1 s2).filter Event.isWriteDADDR = [Event.writeDADDR (a ||| 0x80)]
          ∧ (∀ s3, (s3 = onTransmissionComplete s2 adjacent3
                ∨ s3 = onReceptionComplete s2 adjacent3) →
              (State.newEvents s2 s3).filter Event.isWriteDADDR = []
              ∧ s3.DADDR = a ||| 0x80 ∧ s3.status = USB.Status.ADDRESSED)))
    ∧ (∀ s : State, s.controlEndpoint.addressTemp = 0 →
        onStatusStage s = s ∧ (onStatusStage s).DADDR = s.DADDR
          ∧ (onStatusStage s).status = s.status) := by
  refine ⟨?_, fun s hs => by rw [onStatusStage_idle s hs]; exact ⟨rfl, rfl, rfl⟩⟩
  intro s1 hs1
  have e1 : s1.DADDR = st.DADDR ∧ s1.status = st.status
      ∧ s1.controlEndpoint.dataStage = DataStage.NONE ∧ s1.controlEndpoint.addressTemp = a := by
    rw [hs1, onSetupReceptionComplete_eq, hreq]
    simp [onSetupStage.handleRequest, and_0x7F_of_le a ha2]
  obtain ⟨hD, hS, hstage, haddr⟩ := e1
  refine ⟨hD, hS, ?_⟩
  have hne : s1.controlEndpoint.addressTemp ≠ 0 := by omega
  have hor : (a ||| 0x80) % 4294967296 = a ||| 0x80 := by
    rw [or_0x80_of_le a ha2]
    omega
  intro s2 hs2
  have e2 : s2.DADDR = a ||| 0x80 ∧ s2.status = USB.Status.ADDRESSED
      ∧ s2.controlEndpoint.addressTemp = 0
      ∧ (State.newEvents s1 s2).filter Event.isWriteDADDR = [Event.writeDADDR (a ||| 0x80)]
      ∧ s2.controlEndpoint.dataStage = DataStage.NONE := by
    rcases hs2 with h | h
    · rw [h, onTransmissionComplete_status_stage s1 _ hstage, onStatusStage_pending s1 hne, haddr]
      simp [State.newEvents, Event.isWriteDADDR, USB_Registers.DADDR.EF, hor, hstage]
    · rw [h, onReceptionComplete_status_stage s1 _ hstage, onStatusStage_pending s1 hne, haddr]
      simp [State.newEvents, Event.isWriteDADDR, USB_Registers.DADDR.EF, hor, hstage]
  obtain ⟨h2D, h2S, h2A, h2E, h2stage⟩ := e2
  refine ⟨h2D, h2S, h2A, h2E, ?_⟩
  intro s3 hs3
  rcases hs3 with h | h
  · rw [h, onTransmissionComplete_status_stage s2 _ h2stage, onStatusStage_idle s2 h2A]
    simp [State.newEvents, h2D, h2S]
  · rw [h, onReceptionComplete_status_stage s2 _ h2stage, onStatusStage_idle s2 h2A]
    simp [State.newEvents, Event.isWriteDADDR, h2D, h2S]

/-- C10 witness: `a = 5` gives DADDR = 0x85 and the status Addressed. -/
theorem C10_address_commit_at_status_stage_witness :
    ((1 : Nat) ≤ 5 ∧ (5 : Nat) ≤ 127
      ∧ receivedRequest exampleSetAddressState (fun _ => 0) =
        { bmRequestType := 0x00, bRequest := 0x05, wValue := 5, wIndex := 0, wLength := 0 })
    ∧ (onTransmissionComplete
        (onSetupReceptionComplete exampleSetAddressState (fun _ => 0) (fun _ => 0))
        (fun _ => 0)).DADDR = 0x85
    ∧ (onTransmissionComplete
        (onSetupReceptionComplete exampleSetAddressState (fun _ => 0) (fun _ => 0))
        (fun _ => 0)).status = USB.Status.ADDRESSED :=
  ⟨⟨by decide, by decide, rfl⟩,
    (((C10_address_commit_at_status_stage exampleSetAddressState (fun _ => 0) (fun _ => 0)
      (fun _ => 0) (fun _ => 0) 5 0 (by decide) (by decide) rfl).1 _ rfl).2.2 _
        (Or.inl rfl)).1,
    (((C10_address_commit_at_status_stage exampleSetAddressState (fun _ => 0) (fun _ => 0)
      (fun _ => 0) (fun _ => 0) 5 0 (by decide) (by decide) rfl).1 _ rfl).2.2 _
        (Or.inl rfl)).2.1⟩

end Claims

/-! ## Single bits and the interrupt status word -/

section BitLemmas2
open USB_Registers USB_Endpoint

theorem bitValue_eq (x b : Nat) : bitValue x b = (x.testBit b).toNat := by
  unfold bitValue
  rw [Nat.and_one_is_mod, Nat.shiftRight_eq_div_pow]
  exact (Nat.toNat_testBit x b).symm

theorem bitValue_bitSet_same (x b : Nat) (hb : b < 32) : bitValue (bitSet x b) b = 1 := by
  rw [bitValue_eq, bitSet, show (4294967296 : Nat) = 2 ^ 32 from rfl, Nat.testBit_mod_two_pow,
    Nat.testBit_or, Nat.one_shiftLeft, Nat.testBit_two_pow]
  simp [hb]

theorem bitValue_bitReset_same (x b : Nat) : bitValue (bitReset x b) b = 0 := by
  rw [bitValue_eq, bitReset, Nat.testBit_and, testBit_not32, Nat.one_shiftLeft,
    Nat.testBit_two_pow]
  simp

theorem bitSet_mod (x b : Nat) : bitSet x b % 4294967296 = bitSet x b := by
  unfold bitSet
  exact Nat.mod_mod _ _

theorem bitReset_mod (x b : Nat) : bitReset x b % 4294967296 = bitReset x b := by
  apply Nat.eq_of_testBit_eq
  intro i
  unfold bitReset
  rw [show (4294967296 : Nat) = 2 ^ 32 from rfl, Nat.testBit_mod_two_pow, Nat.testBit_and,
    testBit_not32]
  cases decide (i < 32) <;> simp

theorem bitValue_ne_zero (x b : Nat) : bitValue x b ≠ 0 ↔ bitValue x b = 1 := by
  rw [bitValue_eq]
  cases x.testBit b <;> simp

theorem flag_test (x b : Nat) : x &&& (1 <<< b) ≠ 0 ↔ bitValue x b = 1 := by
  rw [bitValue_eq, Nat.one_shiftLeft, Nat.and_two_pow]
  cases x.testBit b <;> simp

theorem hwWrite_clearTxRxFlagsWord (cur : Nat) :
    EPnR.hwWrite cur (clearTxRxFlagsWord (cur % 4294967296))
      = (cur % 4294967296) &&& not32 EPnR.RC_W0_MASK := by
  apply Nat.eq_of_testBit_eq
  intro i
  simp only [testBit_hwWrite, clearTxRxFlagsWord, Nat.testBit_and,
    Nat.testBit_or, testBit_not32, testBit_TOGGLE_MASK, testBit_RC_W0_MASK,
    show (4294967296 : Nat) = 2 ^ 32 from rfl, Nat.testBit_mod_two_pow,
    Nat.one_shiftLeft, Nat.testBit_two_pow, EPnR.CTR_TX, EPnR.CTR_RX]
  rcases Nat.lt_or_ge i 16 with h | h
  · interval_cases i <;> simp
  · have e : i = (i - 16) + 16 := by omega
    generalize i - 16 = j at e
    subst e
    simp
    cases decide (j + 16 < 32) <;> simp

theorem address_after_reset (d : Nat) :
    bitsValue (bitSet (bitsReplace d 0 7 DADDR.ADD_0) DADDR.EF) 7 DADDR.ADD_0 = 0 := by
  apply Nat.eq_of_testBit_eq
  intro i
  rw [testBit_bitsValue, bitSet, show (4294967296 : Nat) = 2 ^ 32 from rfl,
    Nat.testBit_mod_two_pow, Nat.testBit_or, testBit_bitsReplace, Nat.one_shiftLeft,
    Nat.testBit_two_pow, Nat.zero_testBit]
  by_cases hi : i < 7
  · have h1 : DADDR.ADD_0 ≤ DADDR.ADD_0 + i ∧ DADDR.ADD_0 + i - DADDR.ADD_0 < 7 := by
      simp only [DADDR.ADD_0]
      omega
    have h2 : DADDR.EF ≠ DADDR.ADD_0 + i := by
      simp only [DADDR.ADD_0, DADDR.EF]
      omega
    simp [h1, h2]
    intros
    omega
  · simp [hi]

end BitLemmas2

/-! ## The buffer descriptor table entry -/

section BufferDescriptorLemmas
open USB_SRAM USB_Endpoint

theorem countRx_small_fields (v : Nat) (hv : v < 32) :
    bitsReplace 0 v 5 Registers.COUNTn_RX.NUM_BLOCK_0 % 65536 = v * 1024
    ∧ bitValue (v * 1024) Registers.COUNTn_RX.BL_SIZE = 0
    ∧ bitsValue (v * 1024) 5 Registers.COUNTn_RX.NUM_BLOCK_0 = v
    ∧ bitsValue (v * 1024) 10 0 = 0 := by
  interval_cases v <;> decide

theorem countRx_large_fields (v : Nat) (hv : v < 32) :
    (bitsReplace 0 v 5 Registers.COUNTn_RX.NUM_BLOCK_0
        ||| (1 <<< Registers.COUNTn_RX.BL_SIZE)) % 65536 = 32768 + v * 1024
    ∧ bitValue (32768 + v * 1024) Registers.COUNTn_RX.BL_SIZE = 1
    ∧ bitsValue (32768 + v * 1024) 5 Registers.COUNTn_RX.NUM_BLOCK_0 = v
    ∧ bitsValue (32768 + v * 1024) 10 0 = 0 := by
  interval_cases v <;> decide

theorem countRxWord_small (rx u : Nat) (h1 : 2 ≤ rx) (h2 : rx ≤ 62) :
    countRxWord rx u = rx / 2 * 1024 := by
  unfold countRxWord
  rw [if_pos ⟨h1, h2⟩]
  exact (countRx_small_fields (rx / 2) (by omega)).1

theorem countRxWord_large (rx u : Nat) (h1 : 64 ≤ rx) (h2 : rx ≤ 1024) :
    countRxWord rx u = 32768 + (rx / 32 - 1) * 1024 := by
  unfold countRxWord
  rw [if_neg (by omega), if_pos (by omega)]
  exact (countRx_large_fields (rx / 32 - 1) (by omega)).1

theorem bufferDescriptorWords_getD (ep : USB_Endpoint) (u : Nat) (w : Nat) (hw : w < 4) :
    (ep.bufferDescriptorWords u).getD w 0 < 65536 := by
  have hc : countRxWord ep.rxBufferSize u < 65536 := by
    unfold countRxWord
    split
    · exact Nat.mod_lt _ (by decide)
    · split <;> exact Nat.mod_lt _ (by decide)
  have h1 := Nat.mod_lt ep.txBufferAddress (show 65536 > 0 by decide)
  have h2 := Nat.mod_lt ep.rxBufferAddress (show 65536 > 0 by decide)
  unfold bufferDescriptorWords
  interval_cases w <;> simp <;> omega

/-- Cell `j` of the packet memory after `initBufferDescriptor()`. -/
theorem sram_initBufferDescriptor (ep : USB_Endpoint) (st : State) (u : Nat) (adj : Buf)
    (j : Nat) :
    (ep.initBufferDescriptor st u adj).sram j =
      if ep.bufferDescriptorAddress / 2 ≤ j ∧ j < ep.bufferDescriptorAddress / 2 + 4 then
        (ep.bufferDescriptorWords u).getD (j - ep.bufferDescriptorAddress / 2) 0
      else st.sram j := by
  unfold initBufferDescriptor
  rw [State.sram_setSram, write_cell]
  by_cases h : ep.bufferDescriptorAddress / 2 ≤ j ∧ j < ep.bufferDescriptorAddress / 2 + 4
  · rw [if_pos (by omega), if_pos h]
    generalize hw : j - ep.bufferDescriptorAddress / 2 = w
    have hw4 : w < 4 := by omega
    have hlt := bufferDescriptorWords_getD ep u w hw4
    unfold bufferDescriptorBytes
    rw [if_pos (by omega), if_pos (by omega)]
    have e1 : 2 * w / 2 = w := by omega
    have e2 : (2 * w + 1) / 2 = w := by omega
    have e3 : 2 * w % 2 = 0 := by omega
    have e4 : (2 * w + 1) % 2 = 1 := by omega
    rw [e1, e2, e3, e4]
    simp only [Nat.mul_zero, Nat.shiftRight_zero, Nat.mul_one, Nat.shiftRight_eq_div_pow]
    omega
  · rw [if_neg (by omega), if_neg h]

theorem bufferDescriptorWords_valid (ep : USB_Endpoint) (u : Nat)
    (hrx : (2 ≤ ep.rxBufferSize ∧ ep.rxBufferSize ≤ 62)
      ∨ (64 ≤ ep.rxBufferSize ∧ ep.rxBufferSize ≤ 1024)) :
    ep.bufferDescriptorWords u =
      [ep.txBufferAddress % 65536, 0, ep.rxBufferAddress % 65536,
        if ep.rxBufferSize ≤ 62 then ep.rxBufferSize / 2 * 1024
        else 32768 + (ep.rxBufferSize / 32 - 1) * 1024] := by
  unfold bufferDescriptorWords
  rcases hrx with ⟨h1, h2⟩ | ⟨h1, h2⟩
  · rw [countRxWord_small _ _ h1 h2, if_pos h2]
  · rw [countRxWord_large _ _ h1 h2, if_neg (by omega)]

end BufferDescriptorLemmas

/-! ## Hook invocations in the trace -/

section HookLemmas
open USB_Registers USB_Endpoint USB_ControlEndpoint

namespace State.HandlerStep

theorem step_refl (s : State) : s.HandlerStep s [] := ⟨rfl, [], by simp, rfl⟩

theorem step_append {s s2 s3 : State} {hs hs2 : List Event} (h1 : s.HandlerStep s2 hs)
    (h2 : s2.HandlerStep s3 hs2) : s.HandlerStep s3 (hs ++ hs2) := by
  obtain ⟨a1, l1, b1, c1⟩ := h1
  obtain ⟨a2, l2, b2, c2⟩ := h2
  refine ⟨a2.trans a1, l1 ++ l2, ?_, ?_⟩
  · rw [b2, b1, List.append_assoc]
  · rw [List.filter_append, c1, c2]

theorem step_trans {s s2 s3 : State} {hs : List Event} (h1 : s.HandlerStep s2 hs)
    (h2 : s2.HandlerStep s3 []) : s.HandlerStep s3 hs := by
  have h := step_append h1 h2
  rwa [List.append_nil] at h

theorem step_ite {s a b : State} {hs : List Event} (c : Prop) [Decidable c]
    (ha : s.HandlerStep a hs)
    (hb : s.HandlerStep b hs) : s.HandlerStep (if c then a else b) hs := by
  split_ifs
  · exact ha
  · exact hb

theorem step_log {s x : State} {hs : List Event} (e : Event) (he : e.isTransferHook = false)
    (h : s.HandlerStep x hs) :
    s.HandlerStep (x.log e) hs :=
  h.step_trans ⟨rfl, [e], rfl, by simp [he]⟩

theorem step_getData {s x : State} {hs : List Event} (o : Int) (n : Nat) (h : s.HandlerStep x hs) :
    s.HandlerStep (x.logAll (getDataEvents o n)) hs := by
  refine h.step_trans ⟨rfl, _, rfl, ?_⟩
  unfold getDataEvents
  rw [List.filter_eq_nil_iff]
  intro e he
  rw [List.mem_map] at he
  obtain ⟨i, -, rfl⟩ := he
  simp [Event.isTransferHook]

theorem step_setSram {s x : State} {hs : List Event} (m : Mem)
    (h : s.HandlerStep x hs) : s.HandlerStep (x.setSram m) hs :=
  h.step_trans ⟨rfl, [], by simp, rfl⟩

theorem step_setStatus {s x : State} {hs : List Event} (m : USB.Status) (h : s.HandlerStep x hs) :
    s.HandlerStep (x.setStatus m) hs :=
  h.step_trans ⟨rfl, [], by simp, rfl⟩

theorem step_setDataStage {s x : State} {hs : List Event} (d : DataStage) (n : Int)
    (h : s.HandlerStep x hs) :
    s.HandlerStep (x.setDataStage d n) hs :=
  h.step_trans ⟨rfl, [], by simp, rfl⟩

theorem step_setAddressTemp {s x : State} {hs : List Event} (n : Nat) (h : s.HandlerStep x hs) :
    s.HandlerStep (x.setAddressTemp n) hs :=
  h.step_trans ⟨rfl, [], by simp, rfl⟩

theorem step_setPendingDescriptor {s x : State} {hs : List Event} (d : Option USB_Descriptor)
    (h : s.HandlerStep x hs) :
    s.HandlerStep (x.setPendingDescriptor d) hs :=
  h.step_trans ⟨rfl, [], by simp, rfl⟩

theorem step_setPendingDescriptorDataIndex {s x : State} {hs : List Event} (n : Int)
    (h : s.HandlerStep x hs) :
    s.HandlerStep (x.setPendingDescriptorDataIndex n) hs :=
  h.step_trans ⟨rfl, [], by simp, rfl⟩

theorem step_writeEPnR {s x : State} {hs : List Event} (n v : Nat) (h : s.HandlerStep x hs) :
    s.HandlerStep (x.writeEPnR n v) hs :=
  h.step_trans ⟨rfl, [Event.writeEPnR n v], rfl, rfl⟩

theorem step_writeDADDR {s x : State} {hs : List Event} (v : Nat) (h : s.HandlerStep x hs) :
    s.HandlerStep (x.writeDADDR v) hs :=
  h.step_trans ⟨rfl, [Event.writeDADDR v], rfl, rfl⟩

theorem step_setReceptionStatus {s x : State} {hs : List Event} (ep : USB_Endpoint) (t : Status)
    (h : s.HandlerStep x hs) : s.HandlerStep (ep.setReceptionStatus x t) hs :=
  step_writeEPnR _ _ h

theorem step_setTransmissionStatus {s x : State} {hs : List Event} (ep : USB_Endpoint) (t : Status)
    (h : s.HandlerStep x hs) : s.HandlerStep (ep.setTransmissionStatus x t) hs :=
  step_writeEPnR _ _ h

theorem step_transmit {s x : State} {hs : List Event} (ep : USB_Endpoint) (d : Buf) (n : Int)
    (h : s.HandlerStep x hs) : s.HandlerStep (ep.transmit x d n) hs :=
  step_setTransmissionStatus _ _ (step_setSram _ (step_setSram _ h))

theorem step_sendDescriptor {s x : State} {hs : List Event} (request : Request) (d : USB_Descriptor)
    (adj : Buf)
    (h : s.HandlerStep x hs) : s.HandlerStep (onSetupStage.sendDescriptor x request d adj) hs := by
  rw [sendDescriptor_eq]
  refine step_ite _ ?_ ?_
  · exact step_setPendingDescriptorDataIndex _ (step_setPendingDescriptor _ (step_transmit _ _ _
      (step_getData _ _ (step_log _ rfl (step_log _ rfl h)))))
  · exact step_log _ rfl (step_transmit _ _ _ (step_getData _ _ (step_log _ rfl
      (step_log _ rfl h))))

theorem step_sendPending {s x : State} {hs : List Event} (d : USB_Descriptor) (adj : Buf)
    (h : s.HandlerStep x hs) : s.HandlerStep (onDataStageIN.sendPending x d adj) hs := by
  rw [sendPending_eq]
  refine step_ite _ ?_ ?_
  · exact step_setPendingDescriptorDataIndex _ (step_setPendingDescriptor _ (step_log _ rfl
      (step_setPendingDescriptorDataIndex _ (step_transmit _ _ _ (step_getData _ _
          (step_log _ rfl h))))))
  · exact step_setPendingDescriptorDataIndex _ (step_transmit _ _ _ (step_getData _ _
      (step_log _ rfl h)))

theorem step_handleRequest {s x : State} {hs : List Event} (request : Request) (adj : Buf)
    (h : s.HandlerStep x hs) : s.HandlerStep (onSetupStage.handleRequest x request adj) hs := by
  have h0 : s.HandlerStep (if request.wLength > 0 then
      x.setDataStage
        (if request.bmRequestType &&& 0x80 ≠ 0 then DataStage.IN else DataStage.OUT)
        request.wLength
    else
      x.setDataStage DataStage.NONE 0) hs := step_ite _ (step_setDataStage _ _ h)
          (step_setDataStage _ _ h)
  unfold onSetupStage.handleRequest
  generalize (if request.wLength > 0 then
      x.setDataStage
        (if request.bmRequestType &&& 0x80 ≠ 0 then DataStage.IN else DataStage.OUT)
        request.wLength
    else
      x.setDataStage DataStage.NONE 0) = y at h0
  dsimp only
  refine step_ite _ (step_transmit _ _ _ h0) (step_ite _ (step_transmit _ _ _ h0)
      (step_ite _ (step_transmit _ _ _ h0)
    (step_ite _ (step_transmit _ _ _ (step_setAddressTemp _ h0)) (step_ite _ ?_
        (step_ite _ (step_transmit _ _ _ h0)
    (step_ite _ (step_transmit _ _ _ h0) (step_ite _ (step_transmit _ _ _
        (step_setStatus _ h0)) h0)))))))
  cases y.controlEndpoint.descriptorCallbackFunc with
  | none => exact h0
  | some f =>
    dsimp only
    cases f (request.wValue >>> 8) (request.wValue &&& 0xFF) with
    | none => exact step_log _ rfl h0
    | some d => exact step_sendDescriptor _ _ _ (step_log _ rfl h0)

theorem step_onStatusStage {s x : State} {hs : List Event} (h : s.HandlerStep x hs) :
    s.HandlerStep (onStatusStage x) hs := by
  unfold USB_ControlEndpoint.onStatusStage
  exact step_ite _ (step_setAddressTemp _ (step_setStatus _ (step_writeDADDR _ h))) h

theorem step_onDataStageIN {s x : State} {hs : List Event} (adj : Buf) (h : s.HandlerStep x hs) :
    s.HandlerStep (onDataStageIN x adj) hs := by
  have h0 : s.HandlerStep (if x.controlEndpoint.getReceivedLength x = 0
      then x.setDataStage DataStage.NONE 0 else x) hs := step_ite _ (step_setDataStage _ _ h) h
  unfold USB_ControlEndpoint.onDataStageIN
  dsimp only
  generalize (if x.controlEndpoint.getReceivedLength x = 0
      then x.setDataStage DataStage.NONE 0 else x) = y at h0
  cases y.controlEndpoint.pendingDescriptor with
  | none => exact h0
  | some d => exact step_sendPending _ _ h0

theorem step_onSetupReceptionComplete {s x : State} {hs : List Event} (rb adj : Buf)
    (h : s.HandlerStep x hs) :
    s.HandlerStep (onSetupReceptionComplete x rb adj) hs := by
  rw [onSetupReceptionComplete_eq]
  exact step_setReceptionStatus _ _ (step_handleRequest _ _ (step_setReceptionStatus _ _
      (step_setDataStage _ _ h)))

theorem step_onTransmissionComplete {s x : State} {hs : List Event} (adj : Buf)
    (h : s.HandlerStep x hs) :
    s.HandlerStep (onTransmissionComplete x adj) hs := by
  have h0 : s.HandlerStep (if x.controlEndpoint.dataStage = DataStage.IN
      then USB_ControlEndpoint.onDataStageIN x adj else x) hs := step_ite _
          (step_onDataStageIN _ h) h
  unfold USB_ControlEndpoint.onTransmissionComplete
  generalize (if x.controlEndpoint.dataStage = DataStage.IN
      then USB_ControlEndpoint.onDataStageIN x adj else x) = y at h0
  exact step_ite _ (step_onStatusStage h0) h0

theorem step_onReceptionComplete {s x : State} {hs : List Event} (adj : Buf)
    (h : s.HandlerStep x hs) :
    s.HandlerStep (onReceptionComplete x adj) hs := by
  have h0 : s.HandlerStep (if x.controlEndpoint.dataStage = DataStage.IN
      then USB_ControlEndpoint.onDataStageIN x adj
      else if x.controlEndpoint.dataStage = DataStage.OUT then onDataStageOUT x else x) hs :=
    step_ite _ (step_onDataStageIN _ h) (step_ite _ h h)
  unfold USB_ControlEndpoint.onReceptionComplete
  generalize (if x.controlEndpoint.dataStage = DataStage.IN
      then USB_ControlEndpoint.onDataStageIN x adj
      else if x.controlEndpoint.dataStage = DataStage.OUT then onDataStageOUT x else x) = y at h0
  dsimp only
  have h1 : s.HandlerStep (if y.controlEndpoint.dataStage = DataStage.NONE
      then USB_ControlEndpoint.onStatusStage y else y) hs := step_ite _ (step_onStatusStage h0) h0
  generalize (if y.controlEndpoint.dataStage = DataStage.NONE
      then USB_ControlEndpoint.onStatusStage y else y) = z at h1
  exact step_setReceptionStatus _ _ h1

end State.HandlerStep

theorem base_congr (e : EndpointRef) (s s2 : State)
    (h : s2.controlEndpoint.toUSB_Endpoint = s.controlEndpoint.toUSB_Endpoint) :
    e.base s2 = e.base s := by
  cases e with
  | control => exact h
  | generic ep => rfl

theorem step_hook_setup (e : EndpointRef) (s : State) (rb adj : Buf) :
    s.HandlerStep (e.onSetupReceptionComplete s rb adj)
      [Event.onSetupReceptionComplete (e.base s).number] := by
  have h0 : s.HandlerStep (s.log (Event.onSetupReceptionComplete (e.base s).number))
      [Event.onSetupReceptionComplete (e.base s).number] := ⟨rfl, [_], rfl, rfl⟩
  cases e with
  | control => exact State.HandlerStep.step_onSetupReceptionComplete _ _ h0
  | generic ep => exact h0

theorem step_hook_reception (e : EndpointRef) (s : State) (adj : Buf) :
    s.HandlerStep (e.onReceptionComplete s adj)
      [Event.onReceptionComplete (e.base s).number] := by
  have h0 : s.HandlerStep (s.log (Event.onReceptionComplete (e.base s).number))
      [Event.onReceptionComplete (e.base s).number] := ⟨rfl, [_], rfl, rfl⟩
  cases e with
  | control => exact State.HandlerStep.step_onReceptionComplete _ h0
  | generic ep => exact h0

theorem step_hook_transmission (e : EndpointRef) (s : State) (adj : Buf) :
    s.HandlerStep (e.onTransmissionComplete s adj)
      [Event.onTransmissionComplete (e.base s).number] := by
  have h0 : s.HandlerStep (s.log (Event.onTransmissionComplete (e.base s).number))
      [Event.onTransmissionComplete (e.base s).number] := ⟨rfl, [_], rfl, rfl⟩
  cases e with
  | control => exact State.HandlerStep.step_onTransmissionComplete _ h0
  | generic ep => exact h0

/-- Hooks invoked by the correct-transfer block, from the interrupt status word
and the endpoint register value read before the flags are cleared. -/
theorem step_correctTransfer (s : State) (istr : Nat) (e : EndpointRef) (rb a1 a2 : Buf) :
    ((e.base s).clearTxRxFlags s).HandlerStep (USB.irq.correctTransfer s istr e rb a1 a2)
      ((if bitValue istr ISTR.DIR = 1 ∧ bitValue (s.readEPnR (e.base s).number) EPnR.CTR_RX = 1
          then
            [if bitValue (s.readEPnR (e.base s).number) EPnR.SETUP = 1
              then Event.onSetupReceptionComplete (e.base s).number
              else Event.onReceptionComplete (e.base s).number]
          else [])
        ++ (if bitValue (s.readEPnR (e.base s).number) EPnR.CTR_TX = 1
          then [Event.onTransmissionComplete (e.base s).number] else [])) := by
  unfold USB.irq.correctTransfer
  simp only [bitValue_ne_zero]
  generalize hv : s.readEPnR (e.base s).number = v
  have hb : e.base ((e.base s).clearTxRxFlags s) = e.base s := base_congr _ _ _ rfl
  have h1 : ((e.base s).clearTxRxFlags s).HandlerStep
      (if bitValue istr ISTR.DIR = 1 ∧ bitValue v EPnR.CTR_RX = 1 then
        if bitValue v EPnR.SETUP = 1 then
          e.onSetupReceptionComplete ((e.base s).clearTxRxFlags s) rb a1
        else e.onReceptionComplete ((e.base s).clearTxRxFlags s) a1
      else (e.base s).clearTxRxFlags s)
      (if bitValue istr ISTR.DIR = 1 ∧ bitValue v EPnR.CTR_RX = 1
          then
            [if bitValue v EPnR.SETUP = 1
              then Event.onSetupReceptionComplete (e.base s).number
              else Event.onReceptionComplete (e.base s).number]
          else []) := by
    split_ifs
    · have := step_hook_setup e ((e.base s).clearTxRxFlags s) rb a1
      rwa [hb] at this
    · have := step_hook_reception e ((e.base s).clearTxRxFlags s) a1
      rwa [hb] at this
    · exact State.HandlerStep.step_refl _
  generalize (if bitValue istr ISTR.DIR = 1 ∧ bitValue v EPnR.CTR_RX = 1 then
        if bitValue v EPnR.SETUP = 1 then
          e.onSetupReceptionComplete ((e.base s).clearTxRxFlags s) rb a1
        else e.onReceptionComplete ((e.base s).clearTxRxFlags s) a1
      else (e.base s).clearTxRxFlags s) = y at h1
  have hy : e.base y = e.base s := (base_congr _ _ _ h1.1).trans hb
  refine State.HandlerStep.step_append h1 ?_
  split_ifs
  · have := step_hook_transmission e y a2
    rwa [hy] at this
  · exact State.HandlerStep.step_refl _

theorem step_writeCNTR {s x : State} {hs : List Event} (v : Nat) (h : s.HandlerStep x hs) :
    s.HandlerStep (x.writeCNTR v) hs :=
  h.step_trans ⟨rfl, [], by simp, rfl⟩

theorem step_setPreSuspendStatus {s x : State} {hs : List Event} (v : USB.Status)
    (h : s.HandlerStep x hs) : s.HandlerStep (x.setPreSuspendStatus v) hs :=
  h.step_trans ⟨rfl, [], by simp, rfl⟩

theorem step_suspend (s : State) (istr : Nat) : s.HandlerStep (USB.irq.suspend s istr) [] := by
  have h0 := State.HandlerStep.step_setStatus USB.Status.SUSPENDED
    (step_setPreSuspendStatus s.status
      (step_writeCNTR (bitSet (s.CNTR % 4294967296) CNTR.FSUSP) (State.HandlerStep.step_refl s)))
  unfold USB.irq.suspend
  exact State.HandlerStep.step_ite _
    (State.HandlerStep.step_ite _ (State.HandlerStep.step_log _ rfl h0) h0)
    (State.HandlerStep.step_refl _)

theorem step_wakeup (s : State) (istr : Nat) : s.HandlerStep (USB.irq.wakeup s istr) [] := by
  have h0 := step_writeCNTR (bitReset (s.CNTR % 4294967296) CNTR.FSUSP)
    (State.HandlerStep.step_refl s)
  have h1 := State.HandlerStep.step_setStatus
    (s.writeCNTR (bitReset (s.CNTR % 4294967296) CNTR.FSUSP)).preSuspendStatus h0
  unfold USB.irq.wakeup
  exact State.HandlerStep.step_ite _
    (State.HandlerStep.step_ite _
      (State.HandlerStep.step_ite _ (State.HandlerStep.step_log _ rfl h1) h1) h0)
    (State.HandlerStep.step_refl _)

theorem irq_of_transfer (st : State) (istr : Nat) (rb a1 a2 : Buf) (e : EndpointRef)
    (hlt : istr < 4294967296)
    (hctr : bitValue istr ISTR.CTR = 1) (hreset : bitValue istr ISTR.RESET = 0)
    (hbound : st.endpoints (bitsValue istr 4 ISTR.EP_ID_0) = some e) :
    USB.irq (st.interrupt istr) rb a1 a2 =
      USB.irq.wakeup (USB.irq.suspend
        (USB.irq.correctTransfer ((st.interrupt istr).writeISTR 0) istr e rb a1 a2) istr) istr := by
  have h1 : ¬ (istr &&& (1 <<< ISTR.RESET) ≠ 0) := by
    rw [flag_test, hreset]
    decide
  have h2 : istr &&& (1 <<< ISTR.CTR) ≠ 0 := (flag_test _ _).2 hctr
  unfold USB.irq
  simp only [State.ISTR_interrupt, Nat.mod_eq_of_lt hlt, if_neg h1]
  unfold USB.irq.transfer
  rw [if_pos h2]
  simp only [State.endpoints_writeISTR, State.endpoints_interrupt, hbound]

theorem irq_suspend_only (st : State) (rb a1 a2 : Buf) :
    USB.irq (st.interrupt (1 <<< ISTR.SUSP)) rb a1 a2 =
      USB.irq.suspend ((st.interrupt (1 <<< ISTR.SUSP)).writeISTR 0) (1 <<< ISTR.SUSP) := by
  simp +decide [USB.irq, USB.irq.transfer, USB.irq.wakeup, ISTR.SUSP, ISTR.RESET, ISTR.WKUP,
    ISTR.CTR]

theorem irq_wakeup_only (st : State) (rb a1 a2 : Buf) :
    USB.irq (st.interrupt (1 <<< ISTR.WKUP)) rb a1 a2 =
      USB.irq.wakeup ((st.interrupt (1 <<< ISTR.WKUP)).writeISTR 0) (1 <<< ISTR.WKUP) := by
  simp +decide [USB.irq, USB.irq.transfer, USB.irq.suspend, ISTR.SUSP, ISTR.RESET, ISTR.WKUP,
    ISTR.CTR]

end HookLemmas

/-! ## Bus reset -/

section ResetLemmas
open USB_Registers USB_Endpoint USB_ControlEndpoint

theorem EPnR_reset_generic (ep : USB_Endpoint) (s : State) :
    ((EndpointRef.generic ep).reset s).EPnR = fun r =>
      if r = ep.number then
        bitsReplace (s.EPnR r % 4294967296) (toU32 (ep.number : Int)) 4 EPnR.EA_0
      else s.EPnR r := by
  show (ep.setAddress s ep.number).EPnR = _
  rw [EPnR_setAddress]

theorem EPnR_reset_control (s : State) :
    (EndpointRef.control.reset s).EPnR = fun r =>
      if r = s.controlEndpoint.number then
        bitsReplace (bitsReplace (bitsReplace
          (bitsReplace (s.EPnR r % 4294967296) (toU32 (s.controlEndpoint.number : Int)) 4
            EPnR.EA_0)
          EpType.CONTROL.toNat 2 EPnR.EP_TYPE_0) Status.NAK.toNat 2 EPnR.STAT_TX_0)
          Status.VALID.toNat 2 EPnR.STAT_RX_0
      else s.EPnR r := by
  show (s.controlEndpoint.setReceptionStatus (s.controlEndpoint.setTransmissionStatus
    (s.controlEndpoint.setType (s.controlEndpoint.setAddress s s.controlEndpoint.number)
      EpType.CONTROL) Status.NAK) Status.VALID).EPnR = _
  rw [EPnR_setReceptionStatus, EPnR_setTransmissionStatus, EPnR_setType, EPnR_setAddress]
  funext r
  by_cases h : r = s.controlEndpoint.number
  · simp only [h, if_true, bitsReplace_mod]
  · simp only [h, if_false]

theorem events_refl (Q : Event → Prop) (s : State) :
    ∃ l, s.trace = s.trace ++ l ∧ ∀ x ∈ l, Q x :=
  ⟨[], by simp, by simp⟩

theorem events_snoc (Q : Event → Prop) {s x y : State} (e : Event)
    (hy : y.trace = x.trace ++ [e]) (he : Q e)
    (h : ∃ l, x.trace = s.trace ++ l ∧ ∀ e ∈ l, Q e) :
    ∃ l, y.trace = s.trace ++ l ∧ ∀ e ∈ l, Q e := by
  obtain ⟨l, h1, h2⟩ := h
  refine ⟨l ++ [e], ?_, ?_⟩
  · rw [hy, h1, List.append_assoc]
  · intro e2 he2
    rw [List.mem_append, List.mem_singleton] at he2
    rcases he2 with he2 | rfl
    · exact h2 e2 he2
    · exact he

theorem events_trans (Q : Event → Prop) {s x y : State}
    (h : ∃ l, x.trace = s.trace ++ l ∧ ∀ e ∈ l, Q e)
    (h2 : ∃ l, y.trace = x.trace ++ l ∧ ∀ e ∈ l, Q e) :
    ∃ l, y.trace = s.trace ++ l ∧ ∀ e ∈ l, Q e := by
  obtain ⟨l, a1, a2⟩ := h
  obtain ⟨l2, b1, b2⟩ := h2
  refine ⟨l ++ l2, ?_, ?_⟩
  · rw [b1, a1, List.append_assoc]
  · intro e he
    rw [List.mem_append] at he
    rcases he with he | he
    · exact a2 e he
    · exact b2 e he

theorem events_mono {Q Q2 : Event → Prop} {s x : State} (hQ : ∀ e, Q e → Q2 e)
    (h : ∃ l, x.trace = s.trace ++ l ∧ ∀ e ∈ l, Q e) :
    ∃ l, x.trace = s.trace ++ l ∧ ∀ e ∈ l, Q2 e := by
  obtain ⟨l, a1, a2⟩ := h
  exact ⟨l, a1, fun e he => hQ e (a2 e he)⟩

theorem writes_writeEPnR {s x : State} (n v : Nat)
    (h : ∃ l, x.trace = s.trace ++ l ∧ ∀ e ∈ l, e.isWriteEPnR = true) :
    ∃ l, (x.writeEPnR n v).trace = s.trace ++ l ∧ ∀ e ∈ l, e.isWriteEPnR = true :=
  events_snoc _ (Event.writeEPnR n v) rfl rfl h

/-- What `reset()` leaves alone. -/
theorem reset_frame (e : EndpointRef) (s : State) :
    (e.reset s).controlEndpoint = s.controlEndpoint
    ∧ (e.reset s).endpoints = s.endpoints
    ∧ (e.reset s).DADDR = s.DADDR
    ∧ (e.reset s).status = s.status
    ∧ (e.reset s).sram = s.sram
    ∧ ∃ l, (e.reset s).trace = s.trace ++ l ∧ ∀ x ∈ l, x.isWriteEPnR = true := by
  cases e with
  | control =>
    exact ⟨rfl, rfl, rfl, rfl, rfl,
      writes_writeEPnR _ _ (writes_writeEPnR _ _ (writes_writeEPnR _ _
        (writes_writeEPnR _ _ (events_refl _ s))))⟩
  | generic ep =>
    exact ⟨rfl, rfl, rfl, rfl, rfl, writes_writeEPnR _ _ (events_refl _ s)⟩

/-- The loop over the slots: what it leaves alone. -/
theorem resetEndpoints_frame (slots : List Nat) (s : State) :
    (USB.onReset.resetEndpoints s slots).controlEndpoint = s.controlEndpoint
    ∧ (USB.onReset.resetEndpoints s slots).endpoints = s.endpoints
    ∧ (USB.onReset.resetEndpoints s slots).DADDR = s.DADDR
    ∧ (USB.onReset.resetEndpoints s slots).status = s.status
    ∧ (USB.onReset.resetEndpoints s slots).sram = s.sram
    ∧ ∃ l, (USB.onReset.resetEndpoints s slots).trace = s.trace ++ l
        ∧ ∀ x ∈ l, x.isWriteEPnR = true := by
  induction slots generalizing s with
  | nil => exact ⟨rfl, rfl, rfl, rfl, rfl, events_refl _ s⟩
  | cons k ks ih =>
    have hstep : ∀ s2 : State, s2 = (match s.endpoints k with
        | none => s
        | some endpoint => endpoint.reset s) →
        USB.onReset.resetEndpoints s (k :: ks) = USB.onReset.resetEndpoints s2 ks := by
      intro s2 h2
      rw [h2]
      rfl
    rw [hstep _ rfl]
    cases hk : s.endpoints k with
    | none => exact ih s
    | some e =>
      obtain ⟨a1, a2, a3, a4, a5, a6⟩ := reset_frame e s
      obtain ⟨b1, b2, b3, b4, b5, b6⟩ := ih (e.reset s)
      exact ⟨b1.trans a1, b2.trans a2, b3.trans a3, b4.trans a4, b5.trans a5,
        events_trans _ a6 b6⟩

/-- A property of the endpoint registers that every `reset()` keeps holds after
the loop when it holds before. -/
theorem resetEndpoints_preserves (P : (Nat → Nat) → Prop) (slots : List Nat) (s : State)
    (hP : ∀ (e : EndpointRef) (x : State), x.controlEndpoint = s.controlEndpoint →
      P x.EPnR → P (e.reset x).EPnR)
    (h : P s.EPnR) : P (USB.onReset.resetEndpoints s slots).EPnR := by
  induction slots generalizing s with
  | nil => exact h
  | cons k ks ih =>
    show P (USB.onReset.resetEndpoints (match s.endpoints k with
        | none => s
        | some endpoint => endpoint.reset s) ks).EPnR
    cases hk : s.endpoints k with
    | none => exact ih s hP h
    | some e =>
      refine ih (e.reset s) ?_ (hP e s rfl h)
      intro e2 x hx hx2
      exact hP e2 x (hx.trans (reset_frame e s).1) hx2

/-- A property of the endpoint registers that the `reset()` of the endpoint
bound in slot `k` sets up and every `reset()` keeps holds after the loop over
slots that include `k`. -/
theorem resetEndpoints_establishes (P : (Nat → Nat) → Prop) (slots : List Nat) (s : State)
    (k : Nat) (e : EndpointRef) (hk : k ∈ slots) (he : s.endpoints k = some e)
    (hP : ∀ (e2 : EndpointRef) (x : State), x.controlEndpoint = s.controlEndpoint →
      P x.EPnR → P (e2.reset x).EPnR)
    (hE : ∀ x : State, x.controlEndpoint = s.controlEndpoint → P (e.reset x).EPnR) :
    P (USB.onReset.resetEndpoints s slots).EPnR := by
  induction slots generalizing s with
  | nil => cases hk
  | cons j ks ih =>
    show P (USB.onReset.resetEndpoints (match s.endpoints j with
        | none => s
        | some endpoint => endpoint.reset s) ks).EPnR
    by_cases hj : j = k
    · subst hj
      rw [he]
      refine resetEndpoints_preserves P ks (e.reset s) ?_ (hE s rfl)
      intro e2 x hx hx2
      exact hP e2 x (hx.trans (reset_frame e s).1) hx2
    · have hk2 : k ∈ ks := by
        rcases List.mem_cons.1 hk with h | h
        · exact absurd h.symm hj
        · exact h
      cases hjs : s.endpoints j with
      | none => exact ih s hk2 he hP hE
      | some e3 =>
        have hf := reset_frame e3 s
        refine ih (e3.reset s) hk2 (by rw [hf.2.1]; exact he) ?_ ?_
        · intro e2 x hx hx2
          exact hP e2 x (hx.trans hf.1) hx2
        · intro x hx
          exact hE x (hx.trans hf.1)

theorem toU32_natCast_mod16 (n : Nat) : toU32 (n : Int) % 2 ^ 4 = n % 16 := by
  unfold toU32
  omega

theorem reset_address_field (e : EndpointRef) (x : State) :
    bitsValue ((e.reset x).EPnR (e.base x).number % 4294967296) 4 EPnR.EA_0
      = (e.base x).number % 16 := by
  cases e with
  | generic ep =>
    rw [EPnR_reset_generic]
    simp only [EndpointRef.base, if_true, bitsReplace_mod]
    rw [bitsValue_bitsReplace_same _ _ _ _ (by decide), toU32_natCast_mod16]
  | control =>
    rw [EPnR_reset_control]
    simp only [EndpointRef.base, if_true, bitsReplace_mod]
    rw [bitsValue_bitsReplace_other _ _ _ _ _ _ (by decide), bitsReplace_mod,
      bitsValue_bitsReplace_other _ _ _ _ _ _ (by decide), bitsReplace_mod,
      bitsValue_bitsReplace_other _ _ _ _ _ _ (by decide), bitsReplace_mod,
      bitsValue_bitsReplace_same _ _ _ _ (by decide), toU32_natCast_mod16]

theorem reset_keeps_address_field (e : EndpointRef) (x : State) (r : Nat) (hr : r < 16)
    (h : bitsValue (x.EPnR r % 4294967296) 4 EPnR.EA_0 = r) :
    bitsValue ((e.reset x).EPnR r % 4294967296) 4 EPnR.EA_0 = r := by
  by_cases hn : r = (e.base x).number
  · rw [hn, reset_address_field, ← hn]
    omega
  · have : (e.reset x).EPnR r = x.EPnR r := by
      cases e with
      | generic ep =>
        rw [EPnR_reset_generic]
        exact if_neg hn
      | control =>
        rw [EPnR_reset_control]
        exact if_neg hn
    rw [this, h]

theorem reset_control_fields (x : State) :
    bitsValue ((EndpointRef.control.reset x).EPnR x.controlEndpoint.number % 4294967296) 2
        EPnR.EP_TYPE_0 = EpType.CONTROL.toNat
    ∧ bitsValue ((EndpointRef.control.reset x).EPnR x.controlEndpoint.number % 4294967296) 2
        EPnR.STAT_TX_0 = Status.NAK.toNat
    ∧ bitsValue ((EndpointRef.control.reset x).EPnR x.controlEndpoint.number % 4294967296) 2
        EPnR.STAT_RX_0 = Status.VALID.toNat := by
  rw [EPnR_reset_control]
  simp only [if_true, bitsReplace_mod]
  refine ⟨?_, ?_, ?_⟩
  · rw [bitsValue_bitsReplace_other _ _ _ _ _ _ (by decide), bitsReplace_mod,
      bitsValue_bitsReplace_other _ _ _ _ _ _ (by decide), bitsReplace_mod,
      bitsValue_bitsReplace_same _ _ _ _ (by decide)]
    rfl
  · rw [bitsValue_bitsReplace_other _ _ _ _ _ _ (by decide), bitsReplace_mod,
      bitsValue_bitsReplace_same _ _ _ _ (by decide)]
    rfl
  · rw [bitsValue_bitsReplace_same _ _ _ _ (by decide)]
    rfl

theorem reset_keeps_control_fields (e : EndpointRef) (x : State)
    (h : bitsValue (x.EPnR x.controlEndpoint.number % 4294967296) 2 EPnR.EP_TYPE_0
          = EpType.CONTROL.toNat
      ∧ bitsValue (x.EPnR x.controlEndpoint.number % 4294967296) 2 EPnR.STAT_TX_0
          = Status.NAK.toNat
      ∧ bitsValue (x.EPnR x.controlEndpoint.number % 4294967296) 2 EPnR.STAT_RX_0
          = Status.VALID.toNat) :
    bitsValue ((e.reset x).EPnR x.controlEndpoint.number % 4294967296) 2 EPnR.EP_TYPE_0
          = EpType.CONTROL.toNat
      ∧ bitsValue ((e.reset x).EPnR x.controlEndpoint.number % 4294967296) 2 EPnR.STAT_TX_0
          = Status.NAK.toNat
      ∧ bitsValue ((e.reset x).EPnR x.controlEndpoint.number % 4294967296) 2 EPnR.STAT_RX_0
          = Status.VALID.toNat := by
  cases e with
  | control => exact reset_control_fields x
  | generic ep =>
    rw [EPnR_reset_generic]
    by_cases hn : x.controlEndpoint.number = ep.number
    · simp only [hn, if_true, bitsReplace_mod]
      rw [hn] at h
      rw [bitsValue_bitsReplace_other _ _ _ _ _ _ (by decide),
        bitsValue_bitsReplace_other _ _ _ _ _ _ (by decide),
        bitsValue_bitsReplace_other _ _ _ _ _ _ (by decide), Nat.mod_mod]
      exact h
    · simp only [hn, if_false]
      exact h

theorem irq_of_reset (st : State) (istr : Nat) (rb a1 a2 : Buf) (hlt : istr < 4294967296)
    (hreset : bitValue istr ISTR.RESET = 1) :
    USB.irq (st.interrupt istr) rb a1 a2 = USB.onReset ((st.interrupt istr).writeISTR 0) := by
  have h1 : istr &&& (1 <<< ISTR.RESET) ≠ 0 := (flag_test _ _).2 hreset
  unfold USB.irq
  simp only [State.ISTR_interrupt, Nat.mod_eq_of_lt hlt, if_pos h1]

/-- State in which `onReset()` enters the loop over the endpoints. -/
theorem onReset_eq (s : State) :
    USB.onReset s =
      (USB.onReset.resetEndpoints
        (if s.resetCallback then
          ((s.writeDADDR (bitsReplace (s.DADDR % 4294967296) 0 7 DADDR.ADD_0)).writeDADDR
            (bitSet (bitsReplace (s.DADDR % 4294967296) 0 7 DADDR.ADD_0 % 4294967296
              % 4294967296) DADDR.EF)).log Event.resetCallback
        else
          (s.writeDADDR (bitsReplace (s.DADDR % 4294967296) 0 7 DADDR.ADD_0)).writeDADDR
            (bitSet (bitsReplace (s.DADDR % 4294967296) 0 7 DADDR.ADD_0 % 4294967296
              % 4294967296) DADDR.EF))
        (List.range USB.NUM_ENDPOINTS)).setStatus USB.Status.DEFAULT := rfl

theorem onReset_facts (s : State) :
    (USB.onReset s).DADDR = bitSet (bitsReplace (s.DADDR % 4294967296) 0 7 DADDR.ADD_0) DADDR.EF
    ∧ (USB.onReset s).status = USB.Status.DEFAULT
    ∧ (USB.onReset s).controlEndpoint = s.controlEndpoint
    ∧ (USB.onReset s).sram = s.sram
    ∧ (∃ l, (USB.onReset s).trace = s.trace ++ l
        ∧ ∀ x ∈ l, x.isWriteEPnR = true ∨ x.isWriteDADDR = true ∨ x.isResetCallback = true)
    ∧ (∀ P : (Nat → Nat) → Prop,
        (∀ (e : EndpointRef) (x : State), x.controlEndpoint = s.controlEndpoint →
          P x.EPnR → P (e.reset x).EPnR) →
        (P s.EPnR ∨ ∃ k e, k < USB.NUM_ENDPOINTS ∧ s.endpoints k = some e
          ∧ ∀ x : State, x.controlEndpoint = s.controlEndpoint → P (e.reset x).EPnR) →
        P (USB.onReset s).EPnR) := by
  rw [onReset_eq]
  generalize hm : (if s.resetCallback then
          ((s.writeDADDR (bitsReplace (s.DADDR % 4294967296) 0 7 DADDR.ADD_0)).writeDADDR
            (bitSet (bitsReplace (s.DADDR % 4294967296) 0 7 DADDR.ADD_0 % 4294967296
              % 4294967296) DADDR.EF)).log Event.resetCallback
        else
          (s.writeDADDR (bitsReplace (s.DADDR % 4294967296) 0 7 DADDR.ADD_0)).writeDADDR
            (bitSet (bitsReplace (s.DADDR % 4294967296) 0 7 DADDR.ADD_0 % 4294967296
              % 4294967296) DADDR.EF)) = mid
  have hmid : mid.DADDR = bitSet (bitsReplace (s.DADDR % 4294967296) 0 7 DADDR.ADD_0) DADDR.EF
      ∧ mid.controlEndpoint = s.controlEndpoint ∧ mid.sram = s.sram
      ∧ mid.endpoints = s.endpoints ∧ mid.EPnR = s.EPnR
      ∧ (∃ l, mid.trace = s.trace ++ l
        ∧ ∀ x ∈ l, x.isWriteEPnR = true ∨ x.isWriteDADDR = true ∨ x.isResetCallback = true) := by
    rw [← hm]
    have hw : ∃ l, ((s.writeDADDR (bitsReplace (s.DADDR % 4294967296) 0 7 DADDR.ADD_0)).writeDADDR
          (bitSet (bitsReplace (s.DADDR % 4294967296) 0 7 DADDR.ADD_0 % 4294967296
            % 4294967296) DADDR.EF)).trace = s.trace ++ l
        ∧ ∀ x ∈ l, x.isWriteEPnR = true ∨ x.isWriteDADDR = true ∨ x.isResetCallback = true :=
      events_snoc _ _ rfl (Or.inr (Or.inl rfl))
        (events_snoc _ _ rfl (Or.inr (Or.inl rfl)) (events_refl _ s))
    cases s.resetCallback
    · refine ⟨?_, rfl, rfl, rfl, rfl, hw⟩
      simp [bitsReplace_mod, bitSet_mod]
    · refine ⟨?_, rfl, rfl, rfl, rfl, events_snoc _ _ rfl (Or.inr (Or.inr rfl)) hw⟩
      simp [bitsReplace_mod, bitSet_mod]
  obtain ⟨m1, m2, m3, m4, m5, l1, m6, m7⟩ := hmid
  obtain ⟨f1, f2, f3, f4, f5, l2, f6, f7⟩ :=
    resetEndpoints_frame (List.range USB.NUM_ENDPOINTS) mid
  refine ⟨?_, rfl, ?_, ?_, ⟨l1 ++ l2, ?_, ?_⟩, ?_⟩
  · rw [State.DADDR_setStatus, f3, m1]
  · rw [State.controlEndpoint_setStatus, f1, m2]
  · rw [State.sram_setStatus, f5, m3]
  · rw [State.trace_setStatus, f6, m6, List.append_assoc]
  · intro x hx
    rcases List.mem_append.1 hx with h | h
    · exact m7 x h
    · exact Or.inl (f7 x h)
  · intro P hP hor
    rw [State.EPnR_setStatus]
    have hP2 : ∀ (e : EndpointRef) (x : State), x.controlEndpoint = mid.controlEndpoint →
        P x.EPnR → P (e.reset x).EPnR := fun e x hx => hP e x (hx.trans m2)
    rcases hor with h | ⟨k, e, hk, he, hE⟩
    · exact resetEndpoints_preserves P _ mid hP2 (by rw [m5]; exact h)
    · exact resetEndpoints_establishes P _ mid k e (List.mem_range.2 hk) (by rw [m4]; exact he)
        hP2 (fun x hx => hE x (hx.trans m2))

theorem quiet_of_reset_event (x : Event)
    (h : x.isWriteEPnR = true ∨ x.isWriteDADDR = true ∨ x.isResetCallback = true) :
    ¬ ((x.isTransferHook || x.isSuspendCallback || x.isResumeCallback) = true) := by
  cases x <;>
    simp [Event.isWriteEPnR, Event.isWriteDADDR, Event.isResetCallback, Event.isTransferHook,
      Event.isSuspendCallback, Event.isResumeCallback] at h ⊢

/-- Endpoint 0 after `onReset()`, when slot 0 is bound to the control endpoint. -/
theorem control_fields_after_reset (s : State)
    (h0 : s.endpoints 0 = some EndpointRef.control) :
    s.controlEndpoint.typeField (USB.onReset s) = EpType.CONTROL.toNat
    ∧ s.controlEndpoint.transmissionStatus (USB.onReset s) = Status.NAK.toNat
    ∧ s.controlEndpoint.receptionStatus (USB.onReset s) = Status.VALID.toNat := by
  obtain ⟨-, -, -, -, -, f7⟩ := onReset_facts s
  refine f7 (fun f =>
      bitsValue (f s.controlEndpoint.number % 4294967296) 2 EPnR.EP_TYPE_0
        = EpType.CONTROL.toNat
      ∧ bitsValue (f s.controlEndpoint.number % 4294967296) 2 EPnR.STAT_TX_0
        = Status.NAK.toNat
      ∧ bitsValue (f s.controlEndpoint.number % 4294967296) 2 EPnR.STAT_RX_0
        = Status.VALID.toNat) ?_ (Or.inr ⟨0, EndpointRef.control, by decide, h0, ?_⟩)
  · intro e2 x hx hP
    have hx2 : x.controlEndpoint.number = s.controlEndpoint.number := by rw [hx]
    rw [← hx2] at hP ⊢
    exact reset_keeps_control_fields e2 x hP
  · intro x hx
    have hx2 : x.controlEndpoint.number = s.controlEndpoint.number := by rw [hx]
    rw [← hx2]
    exact reset_control_fields x

end ResetLemmas

/-! ## Initialisation -/

section InitLemmas
open USB_SRAM USB_Registers USB_Endpoint

theorem wait_isSome (R : Nat → Bool) (n : Nat) (hn : R n = true) (fuel k : Nat)
    (hk : k ≤ n) (hf : n < k + fuel) : (USB.enableClock.wait R fuel k).isSome = true := by
  induction fuel generalizing k with
  | zero => omega
  | succ fuel ih =>
    unfold USB.enableClock.wait
    by_cases hr : R k = true
    · rw [if_pos hr]
      rfl
    · rw [if_neg hr]
      have : k ≠ n := fun h => hr (h ▸ hn)
      exact ih (k + 1) (by omega) (by omega)

theorem init_frame (e : EndpointRef) (s : State) (u : Nat) (adj : Buf) :
    (e.init s u adj).controlEndpoint = s.controlEndpoint
    ∧ (e.init s u adj).endpoints = s.endpoints
    ∧ (e.init s u adj).status = s.status
    ∧ (e.init s u adj).CNTR = s.CNTR
    ∧ (e.init s u adj).ISTR = s.ISTR
    ∧ (e.init s u adj).BTABLE = s.BTABLE :=
  ⟨rfl, rfl, rfl, rfl, rfl, rfl⟩

theorem initEndpoints_cons (s : State) (u : Nat → Nat) (adj : Nat → Buf) (k : Nat)
    (ks : List Nat) :
    USB.init.initEndpoints s u adj (k :: ks) =
      USB.init.initEndpoints
        (match s.endpoints k with
          | none => s
          | some endpoint => endpoint.init s (u k) (adj k)) u adj ks := rfl

theorem initEndpoints_frame (slots : List Nat) (s : State) (u : Nat → Nat) (adj : Nat → Buf) :
    (USB.init.initEndpoints s u adj slots).controlEndpoint = s.controlEndpoint
    ∧ (USB.init.initEndpoints s u adj slots).endpoints = s.endpoints
    ∧ (USB.init.initEndpoints s u adj slots).status = s.status
    ∧ (USB.init.initEndpoints s u adj slots).CNTR = s.CNTR
    ∧ (USB.init.initEndpoints s u adj slots).ISTR = s.ISTR
    ∧ (USB.init.initEndpoints s u adj slots).BTABLE = s.BTABLE := by
  induction slots generalizing s with
  | nil => exact ⟨rfl, rfl, rfl, rfl, rfl, rfl⟩
  | cons k ks ih =>
    rw [initEndpoints_cons]
    cases s.endpoints k with
    | none => exact ih s
    | some e =>
      obtain ⟨a1, a2, a3, a4, a5, a6⟩ := init_frame e s (u k) (adj k)
      obtain ⟨b1, b2, b3, b4, b5, b6⟩ := ih (e.init s (u k) (adj k))
      exact ⟨b1.trans a1, b2.trans a2, b3.trans a3, b4.trans a4, b5.trans a5, b6.trans a6⟩

/-- Cell `j` after the loop over `slots`: when every endpoint bound in `slots`
whose BDT entry holds cell `j` writes the value `v` there, the cell holds `v`, or
no such endpoint exists and the cell is as before. -/
theorem initEndpoints_cell (slots : List Nat) (s : State) (u : Nat → Nat) (adj : Nat → Buf)
    (j v : Nat)
    (h : ∀ k ∈ slots, ∀ e, s.endpoints k = some e →
      (e.base s).bufferDescriptorAddress / 2 ≤ j →
      j < (e.base s).bufferDescriptorAddress / 2 + 4 →
      ((e.base s).bufferDescriptorWords (u k)).getD
        (j - (e.base s).bufferDescriptorAddress / 2) 0 = v) :
    (USB.init.initEndpoints s u adj slots).sram j = v
    ∨ ((USB.init.initEndpoints s u adj slots).sram j = s.sram j
      ∧ ∀ k ∈ slots, ∀ e, s.endpoints k = some e →
        ¬ ((e.base s).bufferDescriptorAddress / 2 ≤ j
          ∧ j < (e.base s).bufferDescriptorAddress / 2 + 4)) := by
  induction slots generalizing s with
  | nil =>
    right
    exact ⟨rfl, fun k hk => by cases hk⟩
  | cons k ks ih =>
    rw [initEndpoints_cons]
    cases hk : s.endpoints k with
    | none =>
      rcases ih s (fun k2 hk2 => h k2 (List.mem_cons_of_mem _ hk2)) with h1 | ⟨h1, h2⟩
      · exact Or.inl h1
      · refine Or.inr ⟨h1, ?_⟩
        intro k2 hk2 e he
        rcases List.mem_cons.1 hk2 with rfl | hk3
        · rw [hk] at he
          cases he
        · exact h2 k2 hk3 e he
    | some e0 =>
      have hb : ∀ e : EndpointRef, e.base (e0.init s (u k) (adj k)) = e.base s :=
        fun e => base_congr e s _ rfl
      have ih2 := ih (e0.init s (u k) (adj k)) (by
        intro k2 hk2 e he
        rw [hb e]
        exact h k2 (List.mem_cons_of_mem _ hk2) e he)
      rcases ih2 with h1 | ⟨h1, h2⟩
      · exact Or.inl h1
      · have hcell : (e0.init s (u k) (adj k)).sram j =
            if (e0.base s).bufferDescriptorAddress / 2 ≤ j
                ∧ j < (e0.base s).bufferDescriptorAddress / 2 + 4 then
              ((e0.base s).bufferDescriptorWords (u k)).getD
                (j - (e0.base s).bufferDescriptorAddress / 2) 0
            else s.sram j := sram_initBufferDescriptor (e0.base s) s (u k) (adj k) j
        by_cases hc : (e0.base s).bufferDescriptorAddress / 2 ≤ j
            ∧ j < (e0.base s).bufferDescriptorAddress / 2 + 4
        · left
          rw [h1, hcell, if_pos hc]
          exact h k (List.mem_cons_self _ _) e0 hk hc.1 hc.2
        · right
          refine ⟨by rw [h1, hcell, if_neg hc], ?_⟩
          intro k2 hk2 e he
          rcases List.mem_cons.1 hk2 with rfl | hk3
          · rw [hk] at he
            cases he
            exact hc
          · have := h2 k2 hk3 e he
            rwa [hb e] at this

theorem init_eq (st : State) (R : Nat → Bool) (fuel n : Nat) (u : Nat → Nat)
    (adj : Nat → Buf) (hready : R n = true) (hfuel : n < fuel) :
    USB.init st R fuel u adj = some
      (USB.init.initEndpoints
        ((((((st.setStatus USB.Status.POWERED).setSram (USB_SRAM.clear st.sram)).writeCNTR
          (1 <<< CNTR.FRES)).writeCNTR 0).writeISTR 0).writeBTABLE 0)
        u adj (List.range USB.NUM_ENDPOINTS)) := by
  have h := wait_isSome R n hready fuel 0 (Nat.zero_le _) (by omega)
  unfold USB.init
  cases hw : USB.enableClock.wait R fuel 0 with
  | none =>
    rw [hw] at h
    cases h
  | some r => rfl

/-- A cell of the BDT entry of a bound endpoint after the loop of `init()`. -/
theorem initEndpoints_entry (s : State) (u : Nat → Nat) (adj : Nat → Buf)
    (hal : ∀ k e, k < USB.NUM_ENDPOINTS → s.endpoints k = some e →
      (e.base s).bufferDescriptorAddress % 8 = 0)
    (hsame : ∀ j k e1 e2, j < USB.NUM_ENDPOINTS → k < USB.NUM_ENDPOINTS →
      s.endpoints j = some e1 → s.endpoints k = some e2 →
      (e1.base s).bufferDescriptorAddress = (e2.base s).bufferDescriptorAddress →
      e1.base s = e2.base s)
    (hrx : ∀ k e, k < USB.NUM_ENDPOINTS → s.endpoints k = some e →
      (2 ≤ (e.base s).rxBufferSize ∧ (e.base s).rxBufferSize ≤ 62)
        ∨ (64 ≤ (e.base s).rxBufferSize ∧ (e.base s).rxBufferSize ≤ 1024))
    (k0 : Nat) (e0 : EndpointRef) (hk0 : k0 < USB.NUM_ENDPOINTS)
    (he0 : s.endpoints k0 = some e0) (w : Nat) (hw : w < 4) :
    (USB.init.initEndpoints s u adj (List.range USB.NUM_ENDPOINTS)).sram
        ((e0.base s).bufferDescriptorAddress / 2 + w)
      = ((e0.base s).bufferDescriptorWords 0).getD w 0 := by
  have h0 := hal k0 e0 hk0 he0
  rcases initEndpoints_cell (List.range USB.NUM_ENDPOINTS) s u adj
      ((e0.base s).bufferDescriptorAddress / 2 + w)
      (((e0.base s).bufferDescriptorWords 0).getD w 0) (by
        intro k hk e he c1 c2
        have hk2 := List.mem_range.1 hk
        have h1 := hal k e hk2 he
        have hb : (e.base s).bufferDescriptorAddress = (e0.base s).bufferDescriptorAddress := by
          omega
        have hbase := hsame k k0 e e0 hk2 hk0 he he0 hb
        rw [hbase, bufferDescriptorWords_valid _ (u k) (hrx k0 e0 hk0 he0),
          bufferDescriptorWords_valid _ 0 (hrx k0 e0 hk0 he0)]
        congr 1
        omega) with h | ⟨-, h⟩
  · exact h
  · exact absurd ⟨by omega, by omega⟩ (h k0 (List.mem_range.2 hk0) e0 he0)

/-- The two bound slots of `exampleTwoEndpointState`. -/
theorem exampleTwoEndpointState_bound (k : Nat) (e : EndpointRef)
    (he : USB.exampleTwoEndpointState.endpoints k = some e) :
    (k = 0 ∧ e = EndpointRef.control)
      ∨ (k = 1 ∧ e = EndpointRef.generic { number := 1, rxBufferSize := 8 }) := by
  simp only [USB.exampleTwoEndpointState, USB.setEndpoint] at he
  by_cases h1 : k = 1
  · rw [if_pos h1] at he
    exact Or.inr ⟨h1, (Option.some.inj he).symm⟩
  · rw [if_neg h1] at he
    by_cases h0 : k = 0
    · rw [if_pos h0] at he
      exact Or.inl ⟨h0, (Option.some.inj he).symm⟩
    · rw [if_neg h0] at he
      cases he

end InitLemmas

/-! ## Claims C11 to C20 -/

section Claims2

open USB_SRAM USB_Registers USB_Endpoint USB_ControlEndpoint

/-- C11: bus reset. For every 32-bit interrupt status word with the RESET flag
set (whatever its other bits) and every prior state in which slot 0 is bound to
the control endpoint and the bound endpoints have numbers 0..7, `USB::irq()`
ends with the address field of DADDR 0 and EF 1, the address field EA of the
register of every bound endpoint equal to the endpoint's number, endpoint 0 at
type control / transmit nak / receive valid and the device status Default. The
events of the call hold no transfer hook, no suspend and no resume callback. -/
theorem C11_bus_reset (st : State) (istr : Nat) (requestBuffer adjacentRx adjacentTx : Buf)
    (hlt : istr < 4294967296) (hreset : bitValue istr ISTR.RESET = 1)
    (h0 : st.endpoints 0 = some EndpointRef.control)
    (hn : ∀ k e, k < USB.NUM_ENDPOINTS → st.endpoints k = some e →
      (e.base st).number < USB.NUM_ENDPOINTS) :
    bitsValue (USB.irq (st.interrupt istr) requestBuffer adjacentRx adjacentTx).DADDR 7
        DADDR.ADD_0 = 0
    ∧ bitValue (USB.irq (st.interrupt istr) requestBuffer adjacentRx adjacentTx).DADDR
        DADDR.EF = 1
    ∧ (∀ k e, k < USB.NUM_ENDPOINTS → st.endpoints k = some e →
        (e.base st).addressField
          (USB.irq (st.interrupt istr) requestBuffer adjacentRx adjacentTx)
            = (e.base st).number)
    ∧ st.controlEndpoint.typeField
        (USB.irq (st.interrupt istr) requestBuffer adjacentRx adjacentTx)
          = EpType.CONTROL.toNat
    ∧ st.controlEndpoint.transmissionStatus
        (USB.irq (st.interrupt istr) requestBuffer adjacentRx adjacentTx)
          = Status.NAK.toNat
    ∧ st.controlEndpoint.receptionStatus
        (USB.irq (st.interrupt istr) requestBuffer adjacentRx adjacentTx)
          = Status.VALID.toNat
    ∧ (USB.irq (st.interrupt istr) requestBuffer adjacentRx adjacentTx).status
        = USB.Status.DEFAULT
    ∧ (State.newEvents st
        (USB.irq (st.interrupt istr) requestBuffer adjacentRx adjacentTx)).filter
          (fun x => x.isTransferHook || x.isSuspendCallback || x.isResumeCallback) = [] := by
  rw [irq_of_reset st istr _ _ _ hlt hreset]
  obtain ⟨f1, f2, -, -, ⟨l, f5, f6⟩, f7⟩ := onReset_facts ((st.interrupt istr).writeISTR 0)
  have hce : ((st.interrupt istr).writeISTR 0).controlEndpoint = st.controlEndpoint := rfl
  have hen : ((st.interrupt istr).writeISTR 0).endpoints = st.endpoints := rfl
  have key := control_fields_after_reset ((st.interrupt istr).writeISTR 0) h0
  refine ⟨?_, ?_, ?_, key.1, key.2.1, key.2.2, f2, ?_⟩
  · rw [f1]
    exact address_after_reset _
  · rw [f1]
    exact bitValue_bitSet_same _ _ (by decide)
  · intro k e hk he
    have hr : (e.base st).number < 16 := by
      have := hn k e hk he
      simp only [USB.NUM_ENDPOINTS] at this
      omega
    refine f7 (fun f => bitsValue (f (e.base st).number % 4294967296) 4 EPnR.EA_0
      = (e.base st).number) ?_ (Or.inr ⟨k, e, hk, by rw [hen]; exact he, ?_⟩)
    · intro e2 x _ hx
      exact reset_keeps_address_field e2 x _ hr hx
    · intro x hx
      have hb : e.base x = e.base st := base_congr e st x (by rw [hx, hce])
      have := reset_address_field e x
      rw [hb] at this
      rw [this]
      omega
  · have ht : (USB.onReset ((st.interrupt istr).writeISTR 0)).trace = st.trace ++ l := f5
    rw [newEvents_of_trace _ _ _ ht, List.filter_eq_nil_iff]
    intro x hx
    exact quiet_of_reset_event x (f6 x hx)

/-- C11 witness: the status word `0x8C10` (CTR, SUSP, RESET and DIR set) in the
middle of a descriptor transfer. -/
theorem C11_bus_reset_witness :
    ((0x8C10 : Nat) < 4294967296 ∧ bitValue 0x8C10 ISTR.RESET = 1
      ∧ USB.examplePendingTransferState.endpoints 0 = some EndpointRef.control)
    ∧ bitsValue (USB.irq (USB.examplePendingTransferState.interrupt 0x8C10) (fun _ => 0)
        (fun _ => 0) (fun _ => 0)).DADDR 7 DADDR.ADD_0 = 0
    ∧ (USB.irq (USB.examplePendingTransferState.interrupt 0x8C10) (fun _ => 0)
        (fun _ => 0) (fun _ => 0)).status = USB.Status.DEFAULT :=
  ⟨⟨by decide, by decide, rfl⟩,
    (C11_bus_reset USB.examplePendingTransferState 0x8C10 (fun _ => 0) (fun _ => 0)
      (fun _ => 0) (by decide) (by decide) rfl (by
        intro k e hk he
        simp only [USB.examplePendingTransferState] at he
        split at he
        · cases he
          decide
        · cases he)).1,
    (C11_bus_reset USB.examplePendingTransferState 0x8C10 (fun _ => 0) (fun _ => 0)
      (fun _ => 0) (by decide) (by decide) rfl (by
        intro k e hk he
        simp only [USB.examplePendingTransferState] at he
        split at he
        · cases he
          decide
        · cases he)).2.2.2.2.2.2.1⟩

/-- C12 (as stated, refuted): with CTR and DIR set in the status word for the
bound endpoint 0 and the SETUP bit set in the endpoint register, no hook is
invoked when CTR_RX is clear in the register value: `irq()` tests CTR_RX of the
value read before it looks at SETUP. -/
theorem C12_no_hook_without_CTR_RX :
    bitValue 0x8010 ISTR.CTR = 1 ∧ bitValue 0x8010 ISTR.RESET = 0
    ∧ bitValue 0x8010 ISTR.DIR = 1
    ∧ USB.exampleSetupFlagOnlyState.endpoints (bitsValue 0x8010 4 ISTR.EP_ID_0)
        = some EndpointRef.control
    ∧ bitValue (USB.exampleSetupFlagOnlyState.readEPnR 0) EPnR.SETUP = 1
    ∧ bitValue (USB.exampleSetupFlagOnlyState.readEPnR 0) EPnR.CTR_RX = 0
    ∧ (State.newEvents USB.exampleSetupFlagOnlyState
        (USB.irq (USB.exampleSetupFlagOnlyState.interrupt 0x8010) (fun _ => 0) (fun _ => 0)
          (fun _ => 0))).filter Event.isTransferHook = [] :=
  ⟨by decide, by decide, by decide, rfl, by decide, by decide, rfl⟩

/-- C12 (amended): correct-transfer dispatch. For every 32-bit status word with
CTR set and RESET clear whose endpoint id names a bound endpoint, with `v` the
value of that endpoint's register on entry: the first event of `irq()` is one
store to the register, of a word that clears CTR_TX and CTR_RX and keeps every
other bit (`v` with the two flags cleared is what the register holds after it);
the hooks invoked after it are, in order: when DIR is set and CTR_RX is set in
`v`, `onSetupReceptionComplete()` if SETUP is set in `v` and
`onReceptionComplete()` otherwise; then `onTransmissionComplete()` exactly when
CTR_TX is set in `v`. -/
theorem C12_correct_transfer_dispatch (st : State) (istr : Nat)
    (requestBuffer adjacentRx adjacentTx : Buf) (endpoint : EndpointRef)
    (hlt : istr < 4294967296)
    (hctr : bitValue istr ISTR.CTR = 1) (hreset : bitValue istr ISTR.RESET = 0)
    (hbound : st.endpoints (bitsValue istr 4 ISTR.EP_ID_0) = some endpoint) :
    ∃ rest,
      State.newEvents st (USB.irq (st.interrupt istr) requestBuffer adjacentRx adjacentTx)
        = Event.writeEPnR (endpoint.base st).number
            (clearTxRxFlagsWord (st.readEPnR (endpoint.base st).number)) :: rest
      ∧ EPnR.hwWrite (st.EPnR (endpoint.base st).number)
            (clearTxRxFlagsWord (st.readEPnR (endpoint.base st).number))
          = st.readEPnR (endpoint.base st).number &&& not32 EPnR.RC_W0_MASK
      ∧ rest.filter Event.isTransferHook =
          (if bitValue istr ISTR.DIR = 1
              ∧ bitValue (st.readEPnR (endpoint.base st).number) EPnR.CTR_RX = 1
            then
              [if bitValue (st.readEPnR (endpoint.base st).number) EPnR.SETUP = 1
                then Event.onSetupReceptionComplete (endpoint.base st).number
                else Event.onReceptionComplete (endpoint.base st).number]
            else [])
          ++ (if bitValue (st.readEPnR (endpoint.base st).number) EPnR.CTR_TX = 1
            then [Event.onTransmissionComplete (endpoint.base st).number] else []) := by
  rw [irq_of_transfer st istr _ _ _ endpoint hlt hctr hreset hbound]
  have h := ((step_correctTransfer ((st.interrupt istr).writeISTR 0) istr endpoint
    requestBuffer adjacentRx adjacentTx).step_trans (step_suspend _ istr)).step_trans
      (step_wakeup _ istr)
  have hb : endpoint.base ((st.interrupt istr).writeISTR 0) = endpoint.base st :=
    base_congr _ _ _ rfl
  have hr : ((st.interrupt istr).writeISTR 0).readEPnR (endpoint.base st).number
      = st.readEPnR (endpoint.base st).number := rfl
  rw [hb, hr] at h
  obtain ⟨-, l, hl, hf⟩ := h
  refine ⟨l, ?_, hwWrite_clearTxRxFlagsWord _, hf⟩
  apply newEvents_of_trace
  rw [hl]
  show (st.trace ++ [_]) ++ l = _
  rw [List.append_assoc]
  rfl

/-- C12 witness: a setup packet and a finished transmission on endpoint 0 in one
interrupt (register value `0x8880`): the setup hook, then the transmission
hook. -/
theorem C12_correct_transfer_dispatch_witness :
    ((0x8010 : Nat) < 4294967296 ∧ bitValue 0x8010 ISTR.CTR = 1
      ∧ bitValue 0x8010 ISTR.RESET = 0
      ∧ USB.exampleSetupTransferState.endpoints (bitsValue 0x8010 4 ISTR.EP_ID_0)
        = some EndpointRef.control)
    ∧ ∃ rest,
      State.newEvents USB.exampleSetupTransferState
          (USB.irq (USB.exampleSetupTransferState.interrupt 0x8010) (fun _ => 0) (fun _ => 0)
            (fun _ => 0))
        = Event.writeEPnR 0 (clearTxRxFlagsWord 0x8880) :: rest
      ∧ rest.filter Event.isTransferHook
        = [Event.onSetupReceptionComplete 0, Event.onTransmissionComplete 0] :=
  ⟨⟨by decide, by decide, by decide, rfl⟩,
    (C12_correct_transfer_dispatch USB.exampleSetupTransferState 0x8010 (fun _ => 0)
      (fun _ => 0) (fun _ => 0) EndpointRef.control (by decide) (by decide) (by decide)
      rfl).imp (fun _ h => ⟨h.1, h.2.2⟩)⟩

/-- C13: suspend and resume. For every device status `s` other than Suspended,
an interrupt with only SUSP set makes the status Suspended, sets FSUSP in CNTR
and calls the suspend callback once (when one is installed; the only event of
the call); a following interrupt with only WKUP set restores the status `s`,
clears FSUSP and calls the resume callback once (when one is installed). An
interrupt with only WKUP set while the status is not Suspended leaves the status
as it is, clears FSUSP and calls nothing. -/
theorem C13_suspend_resume_round_trip (st : State)
    (requestBuffer adjacentRx adjacentTx : Buf)
    (hs : st.status ≠ USB.Status.SUSPENDED) :
    (∀ s1, s1 = USB.irq (st.interrupt (1 <<< ISTR.SUSP)) requestBuffer adjacentRx adjacentTx →
      s1.status = USB.Status.SUSPENDED
      ∧ bitValue s1.CNTR CNTR.FSUSP = 1
      ∧ State.newEvents st s1 = (if st.suspendCallback then [Event.suspendCallback] else [])
      ∧ (∀ s2,
          s2 = USB.irq (s1.interrupt (1 <<< ISTR.WKUP)) requestBuffer adjacentRx adjacentTx →
          s2.status = st.status
          ∧ bitValue s2.CNTR CNTR.FSUSP = 0
          ∧ State.newEvents s1 s2
              = (if st.resumeCallback then [Event.resumeCallback] else [])))
    ∧ (∀ s3, s3 = USB.irq (st.interrupt (1 <<< ISTR.WKUP)) requestBuffer adjacentRx adjacentTx →
        s3.status = st.status
        ∧ bitValue s3.CNTR CNTR.FSUSP = 0
        ∧ State.newEvents st s3 = []) := by
  refine ⟨?_, ?_⟩
  · intro s1 h1
    rw [irq_suspend_only] at h1
    have f1 : s1.status = USB.Status.SUSPENDED ∧ bitValue s1.CNTR CNTR.FSUSP = 1
        ∧ s1.trace = st.trace ++ (if st.suspendCallback then [Event.suspendCallback] else [])
        ∧ s1.preSuspendStatus = st.status ∧ s1.resumeCallback = st.resumeCallback := by
      rw [h1]
      have hb := bitValue_bitSet_same (st.CNTR % 4294967296) CNTR.FSUSP (by decide)
      cases hc : st.suspendCallback <;>
        simp +decide [USB.irq.suspend, ISTR.SUSP, hc, bitSet_mod, hb]
    obtain ⟨g1, g2, g3, g4, g5⟩ := f1
    refine ⟨g1, g2, newEvents_of_trace _ _ _ g3, ?_⟩
    intro s2 h2
    rw [irq_wakeup_only] at h2
    have hb := bitValue_bitReset_same (s1.CNTR % 4294967296) CNTR.FSUSP
    have f2 : s2.status = st.status ∧ bitValue s2.CNTR CNTR.FSUSP = 0
        ∧ s2.trace = s1.trace ++ (if st.resumeCallback then [Event.resumeCallback] else []) := by
      rw [h2]
      cases hc : st.resumeCallback <;>
        simp +decide [USB.irq.wakeup, ISTR.WKUP, hc, bitReset_mod, hb, g1, g4, g5]
    exact ⟨f2.1, f2.2.1, newEvents_of_trace _ _ _ f2.2.2⟩
  · intro s3 h3
    rw [irq_wakeup_only] at h3
    have hb := bitValue_bitReset_same (st.CNTR % 4294967296) CNTR.FSUSP
    have f3 : s3.status = st.status ∧ bitValue s3.CNTR CNTR.FSUSP = 0
        ∧ s3.trace = st.trace ++ [] := by
      rw [h3]
      simp +decide [USB.irq.wakeup, ISTR.WKUP, bitReset_mod, hb, hs]
    exact ⟨f3.1, f3.2.1, newEvents_of_trace _ _ _ f3.2.2⟩

/-- C13 witness: suspend and resume of a configured device with both callbacks
installed. -/
theorem C13_suspend_resume_round_trip_witness :
    USB.Status.CONFIGURED ≠ USB.Status.SUSPENDED
    ∧ (USB.irq
        (({ status := USB.Status.CONFIGURED, suspendCallback := true,
            resumeCallback := true } : State).interrupt (1 <<< ISTR.SUSP))
        (fun _ => 0) (fun _ => 0) (fun _ => 0)).status = USB.Status.SUSPENDED
    ∧ State.newEvents
        ({ status := USB.Status.CONFIGURED, suspendCallback := true, resumeCallback := true })
        (USB.irq
          (({ status := USB.Status.CONFIGURED, suspendCallback := true,
              resumeCallback := true } : State).interrupt (1 <<< ISTR.SUSP))
          (fun _ => 0) (fun _ => 0) (fun _ => 0)) = [Event.suspendCallback] :=
  ⟨by decide,
    ((C13_suspend_resume_round_trip
      { status := USB.Status.CONFIGURED, suspendCallback := true, resumeCallback := true }
      (fun _ => 0) (fun _ => 0) (fun _ => 0) (by decide)).1 _ rfl).1,
    ((C13_suspend_resume_round_trip
      { status := USB.Status.CONFIGURED, suspendCallback := true, resumeCallback := true }
      (fun _ => 0) (fun _ => 0) (fun _ => 0) (by decide)).1 _ rfl).2.2.1⟩

/-- C14: after `USB::init()`, once the clock-ready flag reads set (at read `n`,
within the `fuel` reads allowed to the wait loop), the call returns with the
device status Powered and CNTR, ISTR and BTABLE 0. When the BDT entries of the
bound endpoints are 8-byte aligned, two bound endpoints with the same entry are
the same endpoint and every receive buffer size is in 2..62 or 64..1024, the
entry of every bound endpoint holds ADDR_TX = `txBufferAddress`, COUNT_TX = 0,
ADDR_RX = `rxBufferAddress` (16-bit fields) and COUNT_RX = the block-size word of
`rxBufferSize`, and every byte of the 1024-byte packet memory outside these
entries is 0. -/
theorem C14_init (st : State) (HSI48RDY : Nat → Bool) (fuel n : Nat)
    (uninitialised : Nat → Nat) (adjacent : Nat → Buf)
    (hready : HSI48RDY n = true) (hfuel : n < fuel)
    (hal : ∀ k e, k < USB.NUM_ENDPOINTS → st.endpoints k = some e →
      (e.base st).bufferDescriptorAddress % 8 = 0)
    (hsame : ∀ j k e1 e2, j < USB.NUM_ENDPOINTS → k < USB.NUM_ENDPOINTS →
      st.endpoints j = some e1 → st.endpoints k = some e2 →
      (e1.base st).bufferDescriptorAddress = (e2.base st).bufferDescriptorAddress →
      e1.base st = e2.base st)
    (hrx : ∀ k e, k < USB.NUM_ENDPOINTS → st.endpoints k = some e →
      (2 ≤ (e.base st).rxBufferSize ∧ (e.base st).rxBufferSize ≤ 62)
        ∨ (64 ≤ (e.base st).rxBufferSize ∧ (e.base st).rxBufferSize ≤ 1024)) :
    ∃ s2, USB.init st HSI48RDY fuel uninitialised adjacent = some s2
      ∧ s2.status = USB.Status.POWERED
      ∧ s2.CNTR = 0 ∧ s2.ISTR = 0 ∧ s2.BTABLE = 0
      ∧ (∀ k e, k < USB.NUM_ENDPOINTS → st.endpoints k = some e →
          readHalfword s2.sram (e.base st).bufferDescriptorAddress
            = (e.base st).txBufferAddress % 65536
          ∧ readHalfword s2.sram ((e.base st).bufferDescriptorAddress + 2) = 0
          ∧ readHalfword s2.sram ((e.base st).bufferDescriptorAddress + 4)
            = (e.base st).rxBufferAddress % 65536
          ∧ readHalfword s2.sram ((e.base st).bufferDescriptorAddress + 6)
            = (if (e.base st).rxBufferSize ≤ 62 then (e.base st).rxBufferSize / 2 * 1024
              else 32768 + ((e.base st).rxBufferSize / 32 - 1) * 1024))
      ∧ (∀ a, a < USB_SRAM.SIZE →
          (∀ k e, k < USB.NUM_ENDPOINTS → st.endpoints k = some e →
            a < (e.base st).bufferDescriptorAddress
              ∨ (e.base st).bufferDescriptorAddress + 8 ≤ a) →
          readByte s2.sram a = 0) := by
  refine ⟨_, init_eq st HSI48RDY fuel n uninitialised adjacent hready hfuel, ?_⟩
  generalize hs : ((((((st.setStatus USB.Status.POWERED).setSram
    (USB_SRAM.clear st.sram)).writeCNTR (1 <<< CNTR.FRES)).writeCNTR 0).writeISTR
      0).writeBTABLE 0) = s
  have hen : s.endpoints = st.endpoints := by rw [← hs]; rfl
  have hb : ∀ e : EndpointRef, e.base s = e.base st := fun e =>
    base_congr e st s (by rw [← hs]; rfl)
  have hsram : s.sram = USB_SRAM.clear st.sram := by rw [← hs]; rfl
  obtain ⟨-, -, f3, f4, f5, f6⟩ :=
    initEndpoints_frame (List.range USB.NUM_ENDPOINTS) s uninitialised adjacent
  refine ⟨?_, ?_, ?_, ?_, ?_, ?_⟩
  · rw [f3, ← hs]; rfl
  · rw [f4, ← hs]; rfl
  · rw [f5, ← hs]; rfl
  · rw [f6, ← hs]; rfl
  · intro k e hk he
    have he2 : s.endpoints k = some e := by rw [hen]; exact he
    have entry := fun w hw => initEndpoints_entry s uninitialised adjacent
      (fun k e hk he => by rw [hb e]; exact hal k e hk (by rw [← hen]; exact he))
      (fun j k e1 e2 hj hk h1 h2 h3 => by
        rw [hb e1, hb e2] at h3 ⊢
        exact hsame j k e1 e2 hj hk (by rw [← hen]; exact h1) (by rw [← hen]; exact h2) h3)
      (fun k e hk he => by rw [hb e]; exact hrx k e hk (by rw [← hen]; exact he))
      k e hk he2 w hw
    have h8 := hal k e hk he
    rw [hb e] at entry
    simp only [bufferDescriptorWords_valid _ 0 (hrx k e hk he)] at entry
    have e0 := entry 0 (by decide)
    have e1 := entry 1 (by decide)
    have e2 := entry 2 (by decide)
    have e3 := entry 3 (by decide)
    simp only [List.getD_cons_zero, List.getD_cons_succ] at e0 e1 e2 e3
    have c0 : (e.base st).bufferDescriptorAddress >>> 1
        = (e.base st).bufferDescriptorAddress / 2 + 0 := by
      rw [Nat.shiftRight_eq_div_pow]; omega
    have c1 : ((e.base st).bufferDescriptorAddress + 2) >>> 1
        = (e.base st).bufferDescriptorAddress / 2 + 1 := by
      rw [Nat.shiftRight_eq_div_pow]; omega
    have c2 : ((e.base st).bufferDescriptorAddress + 4) >>> 1
        = (e.base st).bufferDescriptorAddress / 2 + 2 := by
      rw [Nat.shiftRight_eq_div_pow]; omega
    have c3 : ((e.base st).bufferDescriptorAddress + 6) >>> 1
        = (e.base st).bufferDescriptorAddress / 2 + 3 := by
      rw [Nat.shiftRight_eq_div_pow]; omega
    unfold readHalfword
    rw [c0, c1, c2, c3, e0, e1, e2, e3]
    refine ⟨Nat.mod_mod _ _, rfl, Nat.mod_mod _ _, ?_⟩
    rcases hrx k e hk he with ⟨h1, h2⟩ | ⟨h1, h2⟩
    · rw [if_pos h2]
      omega
    · rw [if_neg (by omega)]
      omega
  · intro a ha hout
    rcases initEndpoints_cell (List.range USB.NUM_ENDPOINTS) s uninitialised adjacent (a / 2) 0
        (by
          intro k hk e he c1 c2
          have hk2 := List.mem_range.1 hk
          rw [hb e] at c1 c2
          have h8 := hal k e hk2 (by rw [← hen]; exact he)
          have := hout k e hk2 (by rw [← hen]; exact he)
          omega) with h | ⟨h, -⟩
    · unfold readByte
      rw [h, Nat.zero_shiftRight]
    · unfold readByte
      rw [h, hsram]
      unfold USB_SRAM.clear
      simp only [USB_SRAM.SIZE] at ha ⊢
      rw [if_pos (by omega), Nat.zero_shiftRight]

/-- C14 witness: the controller with endpoint 0 and a generic endpoint 1 (8-byte
receive buffer); the clock is ready at the third read. -/
theorem C14_init_witness :
    ∃ s2, USB.init USB.exampleTwoEndpointState (fun k => decide (2 ≤ k)) 5 (fun _ => 0xFFFF)
        (fun _ _ => 0xEE) = some s2
      ∧ s2.status = USB.Status.POWERED
      ∧ readHalfword s2.sram 6 = 0x8400
      ∧ readHalfword s2.sram 14 = 0x1000
      ∧ readByte s2.sram 16 = 0 := by
  obtain ⟨s2, h1, h2, -, -, -, h6, h7⟩ :=
    C14_init USB.exampleTwoEndpointState (fun k => decide (2 ≤ k)) 5 2 (fun _ => 0xFFFF)
      (fun _ _ => 0xEE) (by decide) (by decide)
      (by
        intro k e _ he
        rcases exampleTwoEndpointState_bound k e he with ⟨-, rfl⟩ | ⟨-, rfl⟩ <;> decide)
      (by
        intro j k e1 e2 _ _ h1 h2 h3
        rcases exampleTwoEndpointState_bound j e1 h1 with ⟨-, rfl⟩ | ⟨-, rfl⟩ <;>
          rcases exampleTwoEndpointState_bound k e2 h2 with ⟨-, rfl⟩ | ⟨-, rfl⟩
        · rfl
        · exact absurd h3 (by decide)
        · exact absurd h3 (by decide)
        · rfl)
      (by
        intro k e _ he
        rcases exampleTwoEndpointState_bound k e he with ⟨-, rfl⟩ | ⟨-, rfl⟩ <;> decide)
  refine ⟨s2, h1, h2, (h6 0 EndpointRef.control (by decide) rfl).2.2.2,
    (h6 1 (EndpointRef.generic { number := 1, rxBufferSize := 8 }) (by decide) rfl).2.2.2,
    h7 16 (by decide) ?_⟩
  intro k e _ he
  rcases exampleTwoEndpointState_bound k e he with ⟨-, rfl⟩ | ⟨-, rfl⟩ <;> decide

/-- C15 (what the code does instead): `write(a, d, n)` stores whole 16-bit cells.
With `a` rounded down and `n` rounded up to even, every byte `b` of the cells
from `2 * (a / 2)` on, `2 * ((n + 1) / 2)` bytes in all, receives
`buffer[b - 2 * (a / 2)]`, and every other byte keeps its value. So at an even
address with odd `n` the byte `a + n` receives `buffer[n]`, one element past the
data, and at an odd address with `n > 0` the byte `a - 1` receives `buffer[0]`. -/
theorem C15_write_stores_whole_cells (m : Mem) (a n b : Nat) (buffer : Buf) :
    (2 * (a / 2) ≤ b ∧ b < 2 * (a / 2) + 2 * ((n + 1) / 2) →
      readByte (write m a buffer n) b = buffer (b - 2 * (a / 2)) % 256)
    ∧ (b < 2 * (a / 2) ∨ 2 * (a / 2) + 2 * ((n + 1) / 2) ≤ b →
      readByte (write m a buffer n) b = readByte m b)
    ∧ (a % 2 = 0 → n % 2 = 1 → readByte (write m a buffer n) (a + n) = buffer n % 256)
    ∧ (a % 2 = 1 → 0 < n → readByte (write m a buffer n) (a - 1) = buffer 0 % 256) := by
  refine ⟨fun h => ?_, fun h => ?_, fun ha hn => ?_, fun ha hn => ?_⟩
  · rw [readByte_write, if_pos (by omega)]
  · rw [readByte_write, if_neg (by omega)]
  · rw [readByte_write, if_pos (by omega)]
    congr 2
    omega
  · rw [readByte_write, if_pos (by omega)]
    congr 2
    omega

/-- C15 witness: with every cell holding `0x1234`, `write(64, {0xAA}, 1)` stores
what follows the buffer (`0xFF` here) in byte 65, and
`write(65, {0xAA, 0xBB}, 2)` stores `0xAA` in byte 64. -/
theorem C15_write_stores_whole_cells_witness :
    ((64 % 2 = 0 ∧ 1 % 2 = 1) ∧ (65 % 2 = 1 ∧ 0 < 2))
    ∧ (readByte (fun _ => 0x1234) 65 = 0x12
      ∧ readByte (write (fun _ => 0x1234) 64 (fun i => if i = 0 then 0xAA else 0xFF) 1) (64 + 1)
        = 0xFF)
    ∧ (readByte (fun _ => 0x1234) 64 = 0x34
      ∧ readByte
          (write (fun _ => 0x1234) 65
            (fun i => if i = 0 then 0xAA else if i = 1 then 0xBB else 0) 2) (65 - 1) = 0xAA) :=
  ⟨⟨⟨by decide, by decide⟩, ⟨by decide, by decide⟩⟩,
    ⟨by decide,
      (C15_write_stores_whole_cells (fun _ => 0x1234) 64 1 0
        (fun i => if i = 0 then 0xAA else 0xFF)).2.2.1 (by decide) (by decide)⟩,
    ⟨by decide,
      (C15_write_stores_whole_cells (fun _ => 0x1234) 65 2 0
        (fun i => if i = 0 then 0xAA else if i = 1 then 0xBB else 0)).2.2.2 (by decide)
        (by decide)⟩⟩

/-- C16 (the code diverges): `writeByte(a, v)` stores `v | (readByte(a + 1) << 8)`
in the cell of `a`. At an even address this is the claimed byte write. At an odd
address the value lands in byte `a - 1` and byte `a` receives the old content of
byte `a + 1`. -/
theorem C16_writeByte_even_and_odd (m : Mem) (a v : Nat) :
    (a % 2 = 0 →
      readByte (writeByte m a v) a = v % 256
      ∧ ∀ b, b ≠ a → readByte (writeByte m a v) b = readByte m b)
    ∧ (a % 2 = 1 →
      readByte (writeByte m a v) a = readByte m (a + 1)
      ∧ readByte (writeByte m a v) (a - 1) = v % 256) := by
  have hv := Nat.mod_lt v (show 256 > 0 by decide)
  have hr : readByte m (a + 1) < 256 := Nat.mod_lt _ (by decide)
  have hc : ∀ b, readByte (writeByte m a v) b =
      if b / 2 = a / 2 then
        ((v % 256 + 256 * readByte m (a + 1)) % 65536 / 2 ^ (8 * (b % 2))) % 256
      else readByte m b := by
    intro b
    unfold writeByte
    rw [readByte_storeCell, Nat.shiftRight_eq_div_pow, pow_one, byte_pair _ _ hv]
  refine ⟨fun ha => ⟨?_, fun b hb => ?_⟩, fun ha => ⟨?_, ?_⟩⟩
  · rw [hc, if_pos rfl, ha]
    simp only [Nat.mul_zero, pow_zero, Nat.div_one]
    omega
  · rw [hc]
    by_cases h : b / 2 = a / 2
    · have hb1 : b = a + 1 := by omega
      have hb2 : b % 2 = 1 := by omega
      rw [if_pos h, hb2, hb1]
      simp only [Nat.mul_one]
      omega
    · rw [if_neg h]
  · rw [hc, if_pos rfl, ha]
    simp only [Nat.mul_one]
    omega
  · rw [hc, if_pos (by omega), show (a - 1) % 2 = 0 by omega]
    simp only [Nat.mul_zero, pow_zero, Nat.div_one]
    omega

/-- C16 failing input: `writeByte(1, 0xAA)` on the bytes `11 22 33 44`. Byte 1
reads `0x33` afterwards, not `0xAA`, and byte 0 has become `0xAA`. -/
theorem C16_writeByte_even_and_odd_witness :
    readByte (fun j => if j = 0 then 0x2211 else if j = 1 then 0x4433 else 0) 0 = 0x11
    ∧ readByte (fun j => if j = 0 then 0x2211 else if j = 1 then 0x4433 else 0) 2 = 0x33
    ∧ (1 % 2 = 1 →
      readByte (writeByte (fun j => if j = 0 then 0x2211 else if j = 1 then 0x4433 else 0) 1
          0xAA) 1
        = readByte (fun j => if j = 0 then 0x2211 else if j = 1 then 0x4433 else 0) (1 + 1)
      ∧ readByte (writeByte (fun j => if j = 0 then 0x2211 else if j = 1 then 0x4433 else 0) 1
          0xAA) (1 - 1) = 0xAA % 256)
    ∧ readByte (writeByte (fun j => if j = 0 then 0x2211 else if j = 1 then 0x4433 else 0) 1
        0xAA) 1 = 0x33
    ∧ readByte (writeByte (fun j => if j = 0 then 0x2211 else if j = 1 then 0x4433 else 0) 1
        0xAA) 0 = 0xAA :=
  ⟨by decide, by decide,
    (C16_writeByte_even_and_odd (fun j => if j = 0 then 0x2211 else if j = 1 then 0x4433 else 0)
      1 0xAA).2,
    by decide, by decide⟩

/-- C17: receive-count encoding. `w` is the COUNT_RX half-word that
`initBufferDescriptor()` writes at `bufferDescriptorAddress + 6`. For every even
`rxBufferSize` in 2..62, `w` has BL_SIZE 0, NUM_BLOCK `rxBufferSize / 2` and a
zero count field; for every multiple of 32 in 64..1024, `w` has BL_SIZE 1,
NUM_BLOCK `rxBufferSize / 32 - 1` and a zero count field; in both cases the
capacity decoded from `w` is `rxBufferSize`. The default size 64 gives
`w = 0x8400`. -/
theorem C17_receive_count_encoding (ep : USB_Endpoint) (st : State) (uninitialised : Nat)
    (adjacent : Buf) :
    (2 ≤ ep.rxBufferSize → ep.rxBufferSize ≤ 62 → ep.rxBufferSize % 2 = 0 →
      ∀ w, w = readHalfword (ep.initBufferDescriptor st uninitialised adjacent).sram
          (ep.bufferDescriptorAddress + 6) →
        bitValue w Registers.COUNTn_RX.BL_SIZE = 0
        ∧ bitsValue w 5 Registers.COUNTn_RX.NUM_BLOCK_0 = ep.rxBufferSize / 2
        ∧ bitsValue w 10 0 = 0
        ∧ rxCapacity w = ep.rxBufferSize)
    ∧ (64 ≤ ep.rxBufferSize → ep.rxBufferSize ≤ 1024 → ep.rxBufferSize % 32 = 0 →
      ∀ w, w = readHalfword (ep.initBufferDescriptor st uninitialised adjacent).sram
          (ep.bufferDescriptorAddress + 6) →
        bitValue w Registers.COUNTn_RX.BL_SIZE = 1
        ∧ bitsValue w 5 Registers.COUNTn_RX.NUM_BLOCK_0 = ep.rxBufferSize / 32 - 1
        ∧ bitsValue w 10 0 = 0
        ∧ rxCapacity w = ep.rxBufferSize)
    ∧ (ep.rxBufferSize = 64 →
        readHalfword (ep.initBufferDescriptor st uninitialised adjacent).sram
          (ep.bufferDescriptorAddress + 6) = 0x8400) := by
  have hw : readHalfword (ep.initBufferDescriptor st uninitialised adjacent).sram
      (ep.bufferDescriptorAddress + 6) = countRxWord ep.rxBufferSize uninitialised := by
    unfold readHalfword
    rw [sram_initBufferDescriptor, Nat.shiftRight_eq_div_pow, if_pos (by omega)]
    have e : (ep.bufferDescriptorAddress + 6) / 2 ^ 1 - ep.bufferDescriptorAddress / 2 = 3 := by
      omega
    rw [e]
    have := bufferDescriptorWords_getD ep uninitialised 3 (by decide)
    have e2 : (ep.bufferDescriptorWords uninitialised).getD 3 0
        = countRxWord ep.rxBufferSize uninitialised := rfl
    omega
  rw [hw]
  refine ⟨?_, ?_, ?_⟩
  · intro h1 h2 h3 w hw2
    rw [hw2, countRxWord_small _ _ h1 h2]
    obtain ⟨_, a, b, c⟩ := countRx_small_fields (ep.rxBufferSize / 2) (by omega)
    refine ⟨a, b, c, ?_⟩
    rw [rxCapacity, if_pos a, b]
    omega
  · intro h1 h2 h3 w hw2
    rw [hw2, countRxWord_large _ _ h1 h2]
    obtain ⟨_, a, b, c⟩ := countRx_large_fields (ep.rxBufferSize / 32 - 1) (by omega)
    refine ⟨a, b, c, ?_⟩
    rw [rxCapacity, if_neg (by omega), b]
    omega
  · intro h
    rw [h]
    rfl

/-- C17 witness: an 8-byte receive buffer decodes to 8 bytes, the default
endpoint (64 bytes) gets `0x8400`, which decodes to 64 bytes. -/
theorem C17_receive_count_encoding_witness :
    rxCapacity (readHalfword
      (({ number := 1, rxBufferSize := 8 } : USB_Endpoint).initBufferDescriptor {} 0xFFFF
        (fun _ => 0)).sram
      (({ number := 1, rxBufferSize := 8 } : USB_Endpoint).bufferDescriptorAddress + 6)) = 8
    ∧ rxCapacity (readHalfword
      (({ number := 0 } : USB_Endpoint).initBufferDescriptor {} 0xFFFF (fun _ => 0)).sram
      (({ number := 0 } : USB_Endpoint).bufferDescriptorAddress + 6)) = 64
    ∧ readHalfword
      (({ number := 0 } : USB_Endpoint).initBufferDescriptor {} 0xFFFF (fun _ => 0)).sram
      (({ number := 0 } : USB_Endpoint).bufferDescriptorAddress + 6) = 0x8400 :=
  ⟨((C17_receive_count_encoding { number := 1, rxBufferSize := 8 } {} 0xFFFF (fun _ => 0)).1
      (by decide) (by decide) (by decide) _ rfl).2.2.2,
    ((C17_receive_count_encoding { number := 0 } {} 0xFFFF (fun _ => 0)).2.1
      (by decide) (by decide) (by decide) _ rfl).2.2.2,
    (C17_receive_count_encoding { number := 0 } {} 0xFFFF (fun _ => 0)).2.2 rfl⟩

/-- C18: SET_CONFIGURATION. For every setup packet with `bRequest = 9` and
`bmRequestType = 0`, any `wValue` (and `wIndex`, `wLength`) and any prior device
status, `onSetupReceptionComplete` sets the device status to Configured, so that
`isReady()` returns true, and arms a zero-length status packet: BDT transmit
count 0 and transmit status valid. -/
theorem C18_set_configuration (st : State) (requestBuffer adjacent : Buf)
    (wValue wIndex wLength : Nat)
    (hreq : receivedRequest st requestBuffer =
      { bmRequestType := 0x00, bRequest := 0x09, wValue := wValue, wIndex := wIndex,
        wLength := wLength }) :
    (onSetupReceptionComplete st requestBuffer adjacent).status = USB.Status.CONFIGURED
    ∧ USB.isReady (onSetupReceptionComplete st requestBuffer adjacent) = true
    ∧ st.controlEndpoint.txCount (onSetupReceptionComplete st requestBuffer adjacent) = 0
    ∧ st.controlEndpoint.transmissionStatus
        (onSetupReceptionComplete st requestBuffer adjacent) = Status.VALID.toNat := by
  rw [onSetupReceptionComplete_eq, hreq]
  by_cases hw : 0 < wLength <;>
    simp [onSetupStage.handleRequest, hw, USB.isReady]

/-- C18 witness: the setup packet SET_CONFIGURATION with `wValue = 1` received
in the status Addressed. -/
theorem C18_set_configuration_witness :
    receivedRequest USB.exampleSetConfigurationState (fun _ => 0) =
        { bmRequestType := 0x00, bRequest := 0x09, wValue := 1, wIndex := 0, wLength := 0 }
    ∧ USB.exampleSetConfigurationState.status = USB.Status.ADDRESSED
    ∧ (onSetupReceptionComplete USB.exampleSetConfigurationState (fun _ => 0)
        (fun _ => 0)).status = USB.Status.CONFIGURED
    ∧ USB.isReady (onSetupReceptionComplete USB.exampleSetConfigurationState (fun _ => 0)
        (fun _ => 0)) = true :=
  ⟨rfl, rfl,
    (C18_set_configuration USB.exampleSetConfigurationState (fun _ => 0) (fun _ => 0) 1 0 0
      rfl).1,
    (C18_set_configuration USB.exampleSetConfigurationState (fun _ => 0) (fun _ => 0) 1 0 0
      rfl).2.1⟩

/-- C19: no response on the error paths. For every setup packet whose
`(bRequest, bmRequestType)` pair is none of the eight handled ones, and for every
GET_DESCRIPTOR setup packet when no descriptor provider is installed or the
provider returns no descriptor, `onSetupReceptionComplete` leaves the whole
packet memory (so the TX buffer and the BDT transmit count), the transmit status
of endpoint 0, DADDR and the device status unchanged. -/
theorem C19_no_response_on_error_paths (st : State) (requestBuffer adjacent : Buf)
    (h : (((receivedRequest st requestBuffer).bRequest,
            (receivedRequest st requestBuffer).bmRequestType) ∉ handledRequests)
      ∨ (((receivedRequest st requestBuffer).bRequest = 0x06
          ∧ (receivedRequest st requestBuffer).bmRequestType = 0x80)
        ∧ (st.controlEndpoint.descriptorCallbackFunc = none
          ∨ ∃ f, st.controlEndpoint.descriptorCallbackFunc = some f
            ∧ f ((receivedRequest st requestBuffer).wValue >>> 8)
                ((receivedRequest st requestBuffer).wValue &&& 0xFF) = none))) :
    (onSetupReceptionComplete st requestBuffer adjacent).sram = st.sram
    ∧ st.controlEndpoint.txPacket (onSetupReceptionComplete st requestBuffer adjacent)
        = st.controlEndpoint.txPacket st
    ∧ st.controlEndpoint.txCount (onSetupReceptionComplete st requestBuffer adjacent)
        = st.controlEndpoint.txCount st
    ∧ st.controlEndpoint.transmissionStatus (onSetupReceptionComplete st requestBuffer adjacent)
        = st.controlEndpoint.transmissionStatus st
    ∧ (onSetupReceptionComplete st requestBuffer adjacent).DADDR = st.DADDR
    ∧ (onSetupReceptionComplete st requestBuffer adjacent).status = st.status := by
  have key : (onSetupReceptionComplete st requestBuffer adjacent).sram = st.sram
      ∧ (onSetupReceptionComplete st requestBuffer adjacent).EPnR
        = (st.controlEndpoint.setReceptionStatus
            (st.controlEndpoint.setReceptionStatus st Status.VALID) Status.VALID).EPnR
      ∧ (onSetupReceptionComplete st requestBuffer adjacent).DADDR = st.DADDR
      ∧ (onSetupReceptionComplete st requestBuffer adjacent).status = st.status := by
    rw [onSetupReceptionComplete_eq]
    generalize receivedRequest st requestBuffer = request at h
    rcases h with h | ⟨⟨h1, h2⟩, h3⟩
    · simp only [handledRequests, List.mem_cons, Prod.mk.injEq, List.mem_singleton,
        List.not_mem_nil, or_false, not_or] at h
      obtain ⟨c1, c2, c3, c4, c5, c6, c7, c8⟩ := h
      by_cases hw : 0 < request.wLength <;>
        simp [onSetupStage.handleRequest, EPnR_setReceptionStatus, hw, c1, c2, c3, c4, c5, c6,
          c7, c8]
    · rcases h3 with h3 | ⟨f, h3, h4⟩
      · by_cases hw : 0 < request.wLength <;>
          simp [onSetupStage.handleRequest, EPnR_setReceptionStatus, hw, h1, h2, h3]
      · by_cases hw : 0 < request.wLength <;>
          simp [onSetupStage.handleRequest, EPnR_setReceptionStatus, hw, h1, h2, h3, h4]
  obtain ⟨k1, k2, k3, k4⟩ := key
  refine ⟨k1, txPacket_congr _ _ _ k1, ?_, ?_, k3, k4⟩
  · unfold USB_Endpoint.txCount
    rw [k1]
  · rw [transmissionStatus_of_EPnR _ _ _ k2, transmissionStatus_setReceptionStatus,
      transmissionStatus_setReceptionStatus]

/-- C19 witness: a GET_INTERFACE request (not handled), and a GET_DESCRIPTOR
request without a provider. -/
theorem C19_no_response_on_error_paths_witness :
    (((receivedRequest USB.exampleUnhandledRequestState (fun _ => 0)).bRequest,
        (receivedRequest USB.exampleUnhandledRequestState (fun _ => 0)).bmRequestType)
      ∉ handledRequests)
    ∧ (onSetupReceptionComplete USB.exampleUnhandledRequestState (fun _ => 0)
        (fun _ => 0)).sram = USB.exampleUnhandledRequestState.sram
    ∧ (((receivedRequest USB.exampleNoProviderState (fun _ => 0)).bRequest = 0x06
        ∧ (receivedRequest USB.exampleNoProviderState (fun _ => 0)).bmRequestType = 0x80)
      ∧ USB.exampleNoProviderState.controlEndpoint.descriptorCallbackFunc = none)
    ∧ USB.exampleNoProviderState.controlEndpoint.transmissionStatus
        (onSetupReceptionComplete USB.exampleNoProviderState (fun _ => 0) (fun _ => 0))
      = USB.exampleNoProviderState.controlEndpoint.transmissionStatus
          USB.exampleNoProviderState :=
  ⟨by decide,
    (C19_no_response_on_error_paths USB.exampleUnhandledRequestState (fun _ => 0) (fun _ => 0)
      (Or.inl (by decide))).1,
    ⟨⟨rfl, rfl⟩, rfl⟩,
    (C19_no_response_on_error_paths USB.exampleNoProviderState (fun _ => 0) (fun _ => 0)
      (Or.inr ⟨⟨rfl, rfl⟩, Or.inl rfl⟩)).2.2.2.1⟩

/-- C20 (as stated, refuted): a bus reset in the middle of a descriptor transfer
(descriptor pending, cursor 8, stage In) leaves the pending descriptor, the
cursor and the stage as they are. -/
theorem C20_reset_leaves_the_cursor :
    USB.examplePendingTransferState.controlEndpoint.pendingDescriptor.isSome = true
    ∧ USB.examplePendingTransferState.controlEndpoint.pendingDescriptorDataIndex = 8
    ∧ USB.examplePendingTransferState.controlEndpoint.dataStage = DataStage.IN
    ∧ bitValue 0x400 ISTR.RESET = 1
    ∧ (USB.irq (USB.examplePendingTransferState.interrupt 0x400) (fun _ => 0) (fun _ => 0)
        (fun _ => 0)).controlEndpoint.pendingDescriptor.isSome = true
    ∧ (USB.irq (USB.examplePendingTransferState.interrupt 0x400) (fun _ => 0) (fun _ => 0)
        (fun _ => 0)).controlEndpoint.pendingDescriptorDataIndex = 8
    ∧ (USB.irq (USB.examplePendingTransferState.interrupt 0x400) (fun _ => 0) (fun _ => 0)
        (fun _ => 0)).controlEndpoint.dataStage = DataStage.IN :=
  ⟨rfl, rfl, rfl, by decide, rfl, rfl, rfl⟩

/-- C20 (amended): a bus reset does not touch the control-transfer bookkeeping.
For every state in which slot 0 is bound to the control endpoint and every
32-bit status word with the RESET flag, after `USB::irq()` the pending
descriptor, the cursor, the stage and its length are what they were, the packet
memory is unchanged, and endpoint 0 reads transmit nak / receive valid. -/
theorem C20_reset_keeps_the_pending_transfer (st : State) (istr : Nat)
    (requestBuffer adjacentRx adjacentTx : Buf)
    (hlt : istr < 4294967296) (hreset : bitValue istr ISTR.RESET = 1)
    (h0 : st.endpoints 0 = some EndpointRef.control) :
    (USB.irq (st.interrupt istr) requestBuffer adjacentRx adjacentTx
        ).controlEndpoint.pendingDescriptor = st.controlEndpoint.pendingDescriptor
    ∧ (USB.irq (st.interrupt istr) requestBuffer adjacentRx adjacentTx
        ).controlEndpoint.pendingDescriptorDataIndex
          = st.controlEndpoint.pendingDescriptorDataIndex
    ∧ (USB.irq (st.interrupt istr) requestBuffer adjacentRx adjacentTx
        ).controlEndpoint.dataStage = st.controlEndpoint.dataStage
    ∧ (USB.irq (st.interrupt istr) requestBuffer adjacentRx adjacentTx
        ).controlEndpoint.dataStageLength = st.controlEndpoint.dataStageLength
    ∧ (USB.irq (st.interrupt istr) requestBuffer adjacentRx adjacentTx).sram = st.sram
    ∧ st.controlEndpoint.transmissionStatus
        (USB.irq (st.interrupt istr) requestBuffer adjacentRx adjacentTx)
          = Status.NAK.toNat
    ∧ st.controlEndpoint.receptionStatus
        (USB.irq (st.interrupt istr) requestBuffer adjacentRx adjacentTx)
          = Status.VALID.toNat := by
  rw [irq_of_reset st istr _ _ _ hlt hreset]
  obtain ⟨-, -, f3, f4, -, -⟩ := onReset_facts ((st.interrupt istr).writeISTR 0)
  have key := control_fields_after_reset ((st.interrupt istr).writeISTR 0) h0
  have f3b : (USB.onReset ((st.interrupt istr).writeISTR 0)).controlEndpoint
      = st.controlEndpoint := f3
  rw [f3b]
  exact ⟨rfl, rfl, rfl, rfl, f4, key.2.1, key.2.2⟩

/-- C20 witness: the reset in the middle of the example transfer. -/
theorem C20_reset_keeps_the_pending_transfer_witness :
    ((0x400 : Nat) < 4294967296 ∧ bitValue 0x400 ISTR.RESET = 1
      ∧ USB.examplePendingTransferState.endpoints 0 = some EndpointRef.control)
    ∧ (USB.irq (USB.examplePendingTransferState.interrupt 0x400) (fun _ => 0) (fun _ => 0)
        (fun _ => 0)).controlEndpoint.pendingDescriptorDataIndex
      = USB.examplePendingTransferState.controlEndpoint.pendingDescriptorDataIndex
    ∧ USB.examplePendingTransferState.controlEndpoint.transmissionStatus
        (USB.irq (USB.examplePendingTransferState.interrupt 0x400) (fun _ => 0) (fun _ => 0)
          (fun _ => 0)) = Status.NAK.toNat :=
  ⟨⟨by decide, by decide, rfl⟩,
    (C20_reset_keeps_the_pending_transfer USB.examplePendingTransferState 0x400 (fun _ => 0)
      (fun _ => 0) (fun _ => 0) (by decide) (by decide) rfl).2.1,
    (C20_reset_keeps_the_pending_transfer USB.examplePendingTransferState 0x400 (fun _ => 0)
      (fun _ => 0) (fun _ => 0) (by decide) (by decide) rfl).2.2.2.2.2.1⟩

end Claims2

/-! ## Properties kept by the handlers -/

section StableLemmas
open USB_SRAM USB_Registers USB_Endpoint USB_ControlEndpoint

theorem holds_ite {P : State → Prop} (c : Prop) [Decidable c] {a b : State}
    (ha : c → P a) (hb : ¬ c → P b) : P (if c then a else b) := by
  split_ifs with h
  · exact ha h
  · exact hb h

namespace State.Stable

variable {P : State → Prop}

theorem stable_transmit (hP : State.Stable P) (ep : USB_Endpoint) (d : Buf) (n : Int)
    {x : State} (h : P x) : P (ep.transmit x d n) :=
  hP.2.2.2.2.2.2.2 _ _ _ (hP.2.2.1 _ _ (hP.2.2.1 _ _ h))

theorem stable_setReceptionStatus (hP : State.Stable P) (ep : USB_Endpoint) (t : Status)
    {x : State} (h : P x) : P (ep.setReceptionStatus x t) :=
  hP.2.2.2.2.2.2.2 _ _ _ h

theorem stable_clearTxRxFlags (hP : State.Stable P) (ep : USB_Endpoint)
    {x : State} (h : P x) : P (ep.clearTxRxFlags x) :=
  hP.2.2.2.2.2.2.2 _ _ _ h

theorem stable_sendDescriptor (hP : State.Stable P) (request : Request) (d : USB_Descriptor)
    (adj : Buf) {x : State} (h : P x) : P (onSetupStage.sendDescriptor x request d adj) := by
  rw [sendDescriptor_eq]
  have h1 := stable_transmit hP x.controlEndpoint.toUSB_Endpoint
    (descriptorBuffer d 0
      (min (min request.wLength d.onGetLength) x.controlEndpoint.txBufferSize : Nat) adj)
    (min (min request.wLength d.onGetLength) x.controlEndpoint.txBufferSize : Nat)
    (hP.2.1 _ (getDataEvents 0
      (min (min request.wLength d.onGetLength) x.controlEndpoint.txBufferSize))
      (hP.1 _ Event.descriptorOnGetLength (hP.1 _ Event.descriptorOnInit h)))
  exact holds_ite _ (fun _ => hP.2.2.2.2.2.2.1 _ _ (hP.2.2.2.2.2.1 _ _ h1))
    (fun _ => hP.1 _ _ h1)

theorem stable_sendPending (hP : State.Stable P) (d : USB_Descriptor)
    (adj : Buf) {x : State} (h : P x) : P (onDataStageIN.sendPending x d adj) := by
  rw [sendPending_eq]
  have h1 := hP.2.2.2.2.2.2.1 _
    (x.controlEndpoint.pendingDescriptorDataIndex
      + min (x.controlEndpoint.txBufferSize : Int)
          ((d.onGetLength : Int) - x.controlEndpoint.pendingDescriptorDataIndex))
    (stable_transmit hP x.controlEndpoint.toUSB_Endpoint
      (descriptorBuffer d x.controlEndpoint.pendingDescriptorDataIndex
        (min (x.controlEndpoint.txBufferSize : Int)
          ((d.onGetLength : Int) - x.controlEndpoint.pendingDescriptorDataIndex)) adj)
      (min (x.controlEndpoint.txBufferSize : Int)
        ((d.onGetLength : Int) - x.controlEndpoint.pendingDescriptorDataIndex))
      (hP.2.1 _ (getDataEvents x.controlEndpoint.pendingDescriptorDataIndex
        (min (x.controlEndpoint.txBufferSize : Int)
          ((d.onGetLength : Int) - x.controlEndpoint.pendingDescriptorDataIndex)).toNat)
        (hP.1 _ Event.descriptorOnGetLength h)))
  exact holds_ite _
    (fun _ => hP.2.2.2.2.2.2.1 _ _ (hP.2.2.2.2.2.1 _ _ (hP.1 _ _ h1)))
    (fun _ => h1)

theorem stable_onDataStageIN (hP : State.Stable P) (adj : Buf) {x : State} (h : P x) :
    P (onDataStageIN x adj) := by
  have h0 : P (if x.controlEndpoint.getReceivedLength x = 0
      then x.setDataStage DataStage.NONE 0 else x) :=
    holds_ite _ (fun _ => hP.2.2.2.2.1 _ _ _ h) (fun _ => h)
  unfold USB_ControlEndpoint.onDataStageIN
  dsimp only
  generalize (if x.controlEndpoint.getReceivedLength x = 0
      then x.setDataStage DataStage.NONE 0 else x) = y at h0
  cases y.controlEndpoint.pendingDescriptor with
  | none => exact h0
  | some d => exact stable_sendPending hP _ _ h0

theorem stable_handleRequest (hP : State.Stable P) (request : Request) (adj : Buf)
    (hA : request.bRequest = 0x05 → request.bmRequestType = 0x00 →
      ∀ y, P y → P (y.setAddressTemp (request.wValue &&& 0x7F)))
    {x : State} (h : P x) : P (onSetupStage.handleRequest x request adj) := by
  have h0 : P (if request.wLength > 0 then
      x.setDataStage
        (if request.bmRequestType &&& 0x80 ≠ 0 then DataStage.IN else DataStage.OUT)
        request.wLength
    else
      x.setDataStage DataStage.NONE 0) :=
    holds_ite _ (fun _ => hP.2.2.2.2.1 _ _ _ h) (fun _ => hP.2.2.2.2.1 _ _ _ h)
  unfold onSetupStage.handleRequest
  generalize (if request.wLength > 0 then
      x.setDataStage
        (if request.bmRequestType &&& 0x80 ≠ 0 then DataStage.IN else DataStage.OUT)
        request.wLength
    else
      x.setDataStage DataStage.NONE 0) = y at h0
  dsimp only
  refine holds_ite _ (fun _ => stable_transmit hP _ _ _ h0) (fun _ =>
    holds_ite _ (fun _ => stable_transmit hP _ _ _ h0) (fun _ =>
    holds_ite _ (fun _ => stable_transmit hP _ _ _ h0) (fun _ =>
    holds_ite _ (fun c => stable_transmit hP _ _ _ (hA c.1 c.2 _ h0)) (fun _ =>
    holds_ite _ (fun _ => ?_) (fun _ =>
    holds_ite _ (fun _ => stable_transmit hP _ _ _ h0) (fun _ =>
    holds_ite _ (fun _ => stable_transmit hP _ _ _ h0) (fun _ =>
    holds_ite _ (fun _ => stable_transmit hP _ _ _ (hP.2.2.2.1 _ _ h0))
      (fun _ => h0))))))))
  cases y.controlEndpoint.descriptorCallbackFunc with
  | none => exact h0
  | some f =>
    dsimp only
    cases f (request.wValue >>> 8) (request.wValue &&& 0xFF) with
    | none => exact hP.1 _ _ h0
    | some d => exact stable_sendDescriptor hP _ _ _ (hP.1 _ _ h0)

theorem stable_onSetupReceptionComplete (hP : State.Stable P) (rb adj : Buf) {x : State}
    (hA : (receivedRequest x rb).bRequest = 0x05 → (receivedRequest x rb).bmRequestType = 0x00 →
      ∀ y, P y → P (y.setAddressTemp ((receivedRequest x rb).wValue &&& 0x7F)))
    (h : P x) : P (onSetupReceptionComplete x rb adj) := by
  rw [onSetupReceptionComplete_eq]
  exact stable_setReceptionStatus hP _ _
    (stable_handleRequest hP _ _ hA
      (stable_setReceptionStatus hP _ _ (hP.2.2.2.2.1 _ _ _ h)))

theorem stable_onTransmissionComplete (hP : State.Stable P) (adj : Buf)
    (hS : ∀ y, P y → P (onStatusStage y)) {x : State} (h : P x) :
    P (onTransmissionComplete x adj) := by
  have h0 : P (if x.controlEndpoint.dataStage = DataStage.IN
      then USB_ControlEndpoint.onDataStageIN x adj else x) :=
    holds_ite _ (fun _ => stable_onDataStageIN hP _ h) (fun _ => h)
  unfold USB_ControlEndpoint.onTransmissionComplete
  generalize (if x.controlEndpoint.dataStage = DataStage.IN
      then USB_ControlEndpoint.onDataStageIN x adj else x) = y at h0
  exact holds_ite _ (fun _ => hS _ h0) (fun _ => h0)

theorem stable_onReceptionComplete (hP : State.Stable P) (adj : Buf)
    (hS : ∀ y, P y → P (onStatusStage y)) {x : State} (h : P x) :
    P (onReceptionComplete x adj) := by
  have h0 : P (if x.controlEndpoint.dataStage = DataStage.IN
      then USB_ControlEndpoint.onDataStageIN x adj
      else if x.controlEndpoint.dataStage = DataStage.OUT then onDataStageOUT x else x) :=
    holds_ite _ (fun _ => stable_onDataStageIN hP _ h)
      (fun _ => holds_ite _ (fun _ => h) (fun _ => h))
  unfold USB_ControlEndpoint.onReceptionComplete
  generalize (if x.controlEndpoint.dataStage = DataStage.IN
      then USB_ControlEndpoint.onDataStageIN x adj
      else if x.controlEndpoint.dataStage = DataStage.OUT then onDataStageOUT x else x) = y at h0
  dsimp only
  have h1 : P (if y.controlEndpoint.dataStage = DataStage.NONE
      then USB_ControlEndpoint.onStatusStage y else y) :=
    holds_ite _ (fun _ => hS _ h0) (fun _ => h0)
  generalize (if y.controlEndpoint.dataStage = DataStage.NONE
      then USB_ControlEndpoint.onStatusStage y else y) = z at h1
  exact stable_setReceptionStatus hP _ _ h1

end State.Stable

end StableLemmas

/-! ## Properties kept by `irq()` -/

section IrqClosure
open USB_SRAM USB_Registers USB_Endpoint USB_ControlEndpoint

variable {P : State → Prop}

theorem holds_suspend (hCNTR : ∀ x v, P x → P (x.writeCNTR v))
    (hPre : ∀ x v, P x → P (x.setPreSuspendStatus v))
    (hStatus : ∀ x v, P x → P (x.setStatus v))
    (hlog : ∀ x e, P x → P (x.log e)) (istr : Nat) {x : State} (h : P x) :
    P (USB.irq.suspend x istr) := by
  have h0 := hStatus _ USB.Status.SUSPENDED
    (hPre _ x.status (hCNTR _ (bitSet (x.CNTR % 4294967296) CNTR.FSUSP) h))
  unfold USB.irq.suspend
  exact holds_ite _ (fun _ => holds_ite _ (fun _ => hlog _ _ h0) (fun _ => h0)) (fun _ => h)

theorem holds_wakeup (hCNTR : ∀ x v, P x → P (x.writeCNTR v))
    (hStatus : ∀ x v, P x → P (x.setStatus v))
    (hlog : ∀ x e, P x → P (x.log e)) (istr : Nat) {x : State} (h : P x) :
    P (USB.irq.wakeup x istr) := by
  have h0 := hCNTR _ (bitReset (x.CNTR % 4294967296) CNTR.FSUSP) h
  have h1 := hStatus _ (x.writeCNTR (bitReset (x.CNTR % 4294967296) CNTR.FSUSP)).preSuspendStatus
    h0
  unfold USB.irq.wakeup
  exact holds_ite _
    (fun _ => holds_ite _
      (fun _ => holds_ite _ (fun _ => hlog _ _ h1) (fun _ => h1)) (fun _ => h0))
    (fun _ => h)

theorem holds_correctTransfer (rb a1 a2 : Buf)
    (hlog : ∀ x e, P x → P (x.log e))
    (hEP : ∀ x n v, P x → P (x.writeEPnR n v))
    (hR : ∀ x, P x → P (onReceptionComplete x a1))
    (hT : ∀ x, P x → P (onTransmissionComplete x a2))
    (istr : Nat) (e : EndpointRef) {x : State}
    (hS : e = EndpointRef.control → bitValue istr ISTR.DIR ≠ 0 →
      bitValue (x.readEPnR x.controlEndpoint.number) EPnR.CTR_RX ≠ 0 →
      bitValue (x.readEPnR x.controlEndpoint.number) EPnR.SETUP ≠ 0 →
      ∀ y, P y → y.sram = x.sram → y.controlEndpoint = x.controlEndpoint →
        P (onSetupReceptionComplete y rb a1))
    (h : P x) :
    P (USB.irq.correctTransfer x istr e rb a1 a2) := by
  have h0 : P ((e.base x).clearTxRxFlags x) := hEP _ _ _ h
  have h1 : P (if bitValue istr ISTR.DIR ≠ 0
        ∧ bitValue (x.readEPnR (e.base x).number) EPnR.CTR_RX ≠ 0 then
        if bitValue (x.readEPnR (e.base x).number) EPnR.SETUP ≠ 0 then
          e.onSetupReceptionComplete ((e.base x).clearTxRxFlags x) rb a1
        else e.onReceptionComplete ((e.base x).clearTxRxFlags x) a1
      else (e.base x).clearTxRxFlags x) := by
    refine holds_ite _ (fun hc => holds_ite _ (fun hs => ?_) (fun _ => ?_)) (fun _ => h0)
    · cases e with
      | control => exact hS rfl hc.1 hc.2 hs _ (hlog _ _ h0) rfl rfl
      | generic ep => exact hlog _ _ h0
    · cases e with
      | control => exact hR _ (hlog _ _ h0)
      | generic ep => exact hlog _ _ h0
  unfold USB.irq.correctTransfer
  dsimp only
  generalize (if bitValue istr ISTR.DIR ≠ 0
        ∧ bitValue (x.readEPnR (e.base x).number) EPnR.CTR_RX ≠ 0 then
        if bitValue (x.readEPnR (e.base x).number) EPnR.SETUP ≠ 0 then
          e.onSetupReceptionComplete ((e.base x).clearTxRxFlags x) rb a1
        else e.onReceptionComplete ((e.base x).clearTxRxFlags x) a1
      else (e.base x).clearTxRxFlags x) = y at h1
  refine holds_ite _ (fun _ => ?_) (fun _ => h1)
  cases e with
  | control => exact hT _ (hlog _ _ h1)
  | generic ep => exact hlog _ _ h1

/-- A property that the stores and assignments of `irq()`, `onReset()` and the
three hooks of the control endpoint keep holds after `irq()` when it holds
before. The setup hook is met under the conditions `irq.setupReceived`, with the
packet memory and the control endpoint as they are on entry. -/
theorem irq_holds (st : State) (rb a1 a2 : Buf)
    (hISTR : ∀ x v, P x → P (x.writeISTR v))
    (hCNTR : ∀ x v, P x → P (x.writeCNTR v))
    (hPre : ∀ x v, P x → P (x.setPreSuspendStatus v))
    (hStatus : ∀ x v, P x → P (x.setStatus v))
    (hlog : ∀ x e, P x → P (x.log e))
    (hEP : ∀ x n v, P x → P (x.writeEPnR n v))
    (hreset : ∀ x, P x → P (USB.onReset x))
    (hS : USB.irq.setupReceived st → ∀ x, P x → x.sram = st.sram →
      x.controlEndpoint = st.controlEndpoint → P (onSetupReceptionComplete x rb a1))
    (hR : ∀ x, P x → P (onReceptionComplete x a1))
    (hT : ∀ x, P x → P (onTransmissionComplete x a2))
    (h : P st) : P (USB.irq st rb a1 a2) := by
  have h0 : P (st.writeISTR 0) := hISTR _ _ h
  unfold USB.irq
  dsimp only
  refine holds_ite _ (fun _ => hreset _ h0) (fun hr => ?_)
  refine holds_wakeup hCNTR hStatus hlog _ (holds_suspend hCNTR hPre hStatus hlog _ ?_)
  unfold USB.irq.transfer
  refine holds_ite _ (fun hc => ?_) (fun _ => h0)
  dsimp only
  cases he : (st.writeISTR 0).endpoints (bitsValue (st.ISTR % 4294967296) 4 ISTR.EP_ID_0) with
  | none => exact h0
  | some e =>
    refine holds_correctTransfer rb a1 a2 hlog hEP hR hT _ e ?_ h0
    intro hctl hd hrx hsu
    refine hS ⟨?_, hc, ?_, hd, hrx, hsu⟩
    · exact not_not.mp hr
    · rw [← hctl]
      exact he

end IrqClosure

section IrqClosure2
open USB_SRAM USB_Registers USB_Endpoint USB_ControlEndpoint

theorem onReset_endpoints (s : State) : (USB.onReset s).endpoints = s.endpoints := by
  rw [onReset_eq, State.endpoints_setStatus, (resetEndpoints_frame _ _).2.1]
  cases s.resetCallback <;> rfl

theorem init_endpoints (st s2 : State) (R : Nat → Bool) (fuel : Nat) (u : Nat → Nat)
    (adj : Nat → Buf) (h : USB.init st R fuel u adj = some s2) :
    s2.endpoints = st.endpoints := by
  unfold USB.init at h
  cases hw : USB.enableClock.wait R fuel 0 with
  | none =>
    rw [hw] at h
    cases h
  | some r =>
    rw [hw] at h
    have h2 := Option.some.inj h
    rw [← h2, (initEndpoints_frame _ _ _ _).2.1]
    rfl

theorem stable_of_projection {α : Type} (f : State → α) (a : α)
    (h1 : ∀ x e, f (x.log e) = f x) (h2 : ∀ x es, f (x.logAll es) = f x)
    (h3 : ∀ x m, f (x.setSram m) = f x) (h4 : ∀ x v, f (x.setStatus v) = f x)
    (h5 : ∀ x d n, f (x.setDataStage d n) = f x)
    (h6 : ∀ x d, f (x.setPendingDescriptor d) = f x)
    (h7 : ∀ x n, f (x.setPendingDescriptorDataIndex n) = f x)
    (h8 : ∀ x n v, f (x.writeEPnR n v) = f x) :
    State.Stable (fun x => f x = a) :=
  ⟨fun x e h => (h1 x e).trans h, fun x es h => (h2 x es).trans h,
    fun x m h => (h3 x m).trans h, fun x v h => (h4 x v).trans h,
    fun x d n h => (h5 x d n).trans h, fun x d h => (h6 x d).trans h,
    fun x n h => (h7 x n).trans h, fun x n v h => (h8 x n v).trans h⟩

theorem irq_endpoints (st : State) (rb a1 a2 : Buf) :
    (USB.irq st rb a1 a2).endpoints = st.endpoints := by
  have hP : State.Stable (fun x => x.endpoints = st.endpoints) :=
    stable_of_projection (fun x => x.endpoints) st.endpoints (fun _ _ => rfl) (fun _ _ => rfl)
      (fun _ _ => rfl) (fun _ _ => rfl) (fun _ _ _ => rfl) (fun _ _ => rfl) (fun _ _ => rfl)
      (fun _ _ _ => rfl)
  have hS : ∀ y : State, y.endpoints = st.endpoints →
      (onStatusStage y).endpoints = st.endpoints := by
    intro y hy
    unfold USB_ControlEndpoint.onStatusStage
    exact holds_ite (P := fun x => x.endpoints = st.endpoints) _ (fun _ => hy) (fun _ => hy)
  refine irq_holds (P := fun x => x.endpoints = st.endpoints) st rb a1 a2 ?_ ?_ ?_ hP.2.2.2.1
    hP.1 hP.2.2.2.2.2.2.2 (fun x h => (onReset_endpoints x).trans h)
    (fun _ x h _ _ => State.Stable.stable_onSetupReceptionComplete hP rb a1
      (fun _ _ y hy => hy) h)
    (fun x h => State.Stable.stable_onReceptionComplete hP a1 hS h)
    (fun x h => State.Stable.stable_onTransmissionComplete hP a2 hS h) rfl
  · exact fun _ _ hx => hx
  · exact fun _ _ hx => hx
  · exact fun _ _ hx => hx

end IrqClosure2

/-! ## Control-transfer stage -/

section StageLemmas
open USB_SRAM USB_Registers USB_Endpoint USB_ControlEndpoint

theorem dataStage_onDataStageIN (s : State) (adj : Buf) :
    (onDataStageIN s adj).controlEndpoint.dataStage
      = if s.controlEndpoint.getReceivedLength s = 0 then DataStage.NONE
        else s.controlEndpoint.dataStage := by
  have h0 : (if s.controlEndpoint.getReceivedLength s = 0
        then s.setDataStage DataStage.NONE 0 else s).controlEndpoint.dataStage
      = if s.controlEndpoint.getReceivedLength s = 0 then DataStage.NONE
        else s.controlEndpoint.dataStage := by
    split_ifs <;> rfl
  unfold USB_ControlEndpoint.onDataStageIN
  dsimp only
  generalize (if s.controlEndpoint.getReceivedLength s = 0
      then s.setDataStage DataStage.NONE 0 else s) = y at h0
  cases hp : y.controlEndpoint.pendingDescriptor with
  | none => exact h0
  | some d =>
    show (onDataStageIN.sendPending y d adj).controlEndpoint.dataStage = _
    rw [dataStage_sendPending]
    exact h0

theorem dataStage_onStatusStage (s : State) :
    (onStatusStage s).controlEndpoint.dataStage = s.controlEndpoint.dataStage := by
  unfold USB_ControlEndpoint.onStatusStage
  split_ifs <;> rfl

end StageLemmas

/-! ## Indices passed to `onGetData` -/

section IndexLemmas
open USB_SRAM USB_Registers USB_Endpoint USB_ControlEndpoint

theorem events_append (Q : Event → Prop) {s x y : State} (l2 : List Event)
    (hy : y.trace = x.trace ++ l2) (h2 : ∀ e ∈ l2, Q e)
    (h : ∃ l, x.trace = s.trace ++ l ∧ ∀ e ∈ l, Q e) :
    ∃ l, y.trace = s.trace ++ l ∧ ∀ e ∈ l, Q e :=
  events_trans Q h ⟨l2, hy, h2⟩

theorem getDataEvents_in_range (L : Nat) (o : Int) (n : Nat) (ho : 0 ≤ o)
    (hn : o + (n : Int) ≤ (L : Int)) :
    ∀ e ∈ getDataEvents o n, ∀ i, e = Event.descriptorOnGetData i → 0 ≤ i ∧ i < (L : Int) := by
  intro e he i hi
  unfold getDataEvents at he
  rw [List.mem_map] at he
  obtain ⟨j, hj, rfl⟩ := he
  simp only [List.bind_eq_flatMap, List.pure_def, List.mem_flatMap, List.mem_range,
    List.mem_singleton] at hj
  obtain ⟨a, ha, rfl⟩ := hj
  injection hi with hi
  omega

/-- A send of the pending descriptor reads inside the descriptor and leaves a
cursor inside the descriptor, when it starts from one. -/
theorem sendPending_in_range (x : State) (d : USB_Descriptor) (adj : Buf)
    (h1 : 0 ≤ x.controlEndpoint.pendingDescriptorDataIndex)
    (h2 : x.controlEndpoint.pendingDescriptorDataIndex < (d.onGetLength : Int))
    (hp : x.controlEndpoint.pendingDescriptor = some d) :
    ((onDataStageIN.sendPending x d adj).controlEndpoint.pendingDescriptor = none
      ∨ ((onDataStageIN.sendPending x d adj).controlEndpoint.pendingDescriptor = some d
        ∧ 0 ≤ (onDataStageIN.sendPending x d adj).controlEndpoint.pendingDescriptorDataIndex
        ∧ (onDataStageIN.sendPending x d adj).controlEndpoint.pendingDescriptorDataIndex
            < (d.onGetLength : Int)))
    ∧ ∃ l, (onDataStageIN.sendPending x d adj).trace = x.trace ++ l
      ∧ ∀ e ∈ l, ∀ i, e = Event.descriptorOnGetData i → 0 ≤ i ∧ i < (d.onGetLength : Int) := by
  have hq : ∀ e : Event, (∀ i, e = Event.descriptorOnGetData i → False) →
      ∀ i, e = Event.descriptorOnGetData i → 0 ≤ i ∧ i < (d.onGetLength : Int) :=
    fun e he i hi => (he i hi).elim
  have hev : ∃ l, (x.controlEndpoint.transmit
      ((x.log Event.descriptorOnGetLength).logAll
        (getDataEvents x.controlEndpoint.pendingDescriptorDataIndex
          (min (x.controlEndpoint.txBufferSize : Int)
            ((d.onGetLength : Int) - x.controlEndpoint.pendingDescriptorDataIndex)).toNat))
      (descriptorBuffer d x.controlEndpoint.pendingDescriptorDataIndex
        (min (x.controlEndpoint.txBufferSize : Int)
          ((d.onGetLength : Int) - x.controlEndpoint.pendingDescriptorDataIndex)) adj)
      (min (x.controlEndpoint.txBufferSize : Int)
        ((d.onGetLength : Int) - x.controlEndpoint.pendingDescriptorDataIndex))).trace
        = x.trace ++ l
      ∧ ∀ e ∈ l, ∀ i, e = Event.descriptorOnGetData i → 0 ≤ i ∧ i < (d.onGetLength : Int) := by
    refine events_snoc _ _ (trace_transmit _ _ _ _) (hq _ (fun i hi => by cases hi)) ?_
    refine events_append _ _ rfl (getDataEvents_in_range d.onGetLength _ _ h1 (by omega)) ?_
    exact events_snoc _ _ rfl (hq _ (fun i hi => by cases hi)) (events_refl _ x)
  rw [sendPending_eq]
  split_ifs with hc
  · refine ⟨Or.inl rfl, ?_⟩
    exact events_snoc _ Event.descriptorOnDeinit rfl (hq _ (fun i hi => by cases hi)) hev
  · refine ⟨Or.inr ⟨?_, ?_, ?_⟩, hev⟩
    · exact hp
    · show 0 ≤ x.controlEndpoint.pendingDescriptorDataIndex
        + min (x.controlEndpoint.txBufferSize : Int)
            ((d.onGetLength : Int) - x.controlEndpoint.pendingDescriptorDataIndex)
      omega
    · show x.controlEndpoint.pendingDescriptorDataIndex
        + min (x.controlEndpoint.txBufferSize : Int)
            ((d.onGetLength : Int) - x.controlEndpoint.pendingDescriptorDataIndex)
          < (d.onGetLength : Int)
      omega

end IndexLemmas

section IndexLemmas2
open USB_SRAM USB_Registers USB_Endpoint USB_ControlEndpoint

theorem onStatusStage_reads_nothing (L : Nat) (y : State) :
    (onStatusStage y).controlEndpoint.pendingDescriptor = y.controlEndpoint.pendingDescriptor
    ∧ (onStatusStage y).controlEndpoint.pendingDescriptorDataIndex
        = y.controlEndpoint.pendingDescriptorDataIndex
    ∧ ∃ l, (onStatusStage y).trace = y.trace ++ l
      ∧ ∀ e ∈ l, ∀ i, e = Event.descriptorOnGetData i → 0 ≤ i ∧ i < (L : Int) := by
  unfold USB_ControlEndpoint.onStatusStage
  split_ifs
  · exact ⟨rfl, rfl, events_snoc _ (Event.writeDADDR _) rfl (fun i hi => by cases hi)
      (events_refl _ y)⟩
  · exact ⟨rfl, rfl, events_refl _ y⟩

/-- One transmission-complete event keeps the cursor inside the pending
descriptor and reads inside it. -/
theorem onTransmissionComplete_in_range (x : State) (d : USB_Descriptor) (adj : Buf)
    (hx : x.controlEndpoint.pendingDescriptor = none
      ∨ (x.controlEndpoint.pendingDescriptor = some d
        ∧ 0 ≤ x.controlEndpoint.pendingDescriptorDataIndex
        ∧ x.controlEndpoint.pendingDescriptorDataIndex < (d.onGetLength : Int))) :
    ((onTransmissionComplete x adj).controlEndpoint.pendingDescriptor = none
      ∨ ((onTransmissionComplete x adj).controlEndpoint.pendingDescriptor = some d
        ∧ 0 ≤ (onTransmissionComplete x adj).controlEndpoint.pendingDescriptorDataIndex
        ∧ (onTransmissionComplete x adj).controlEndpoint.pendingDescriptorDataIndex
            < (d.onGetLength : Int)))
    ∧ ∃ l, (onTransmissionComplete x adj).trace = x.trace ++ l
      ∧ ∀ e ∈ l, ∀ i, e = Event.descriptorOnGetData i → 0 ≤ i ∧ i < (d.onGetLength : Int) := by
  have hIN : ((onDataStageIN x adj).controlEndpoint.pendingDescriptor = none
      ∨ ((onDataStageIN x adj).controlEndpoint.pendingDescriptor = some d
        ∧ 0 ≤ (onDataStageIN x adj).controlEndpoint.pendingDescriptorDataIndex
        ∧ (onDataStageIN x adj).controlEndpoint.pendingDescriptorDataIndex
            < (d.onGetLength : Int)))
      ∧ ∃ l, (onDataStageIN x adj).trace = x.trace ++ l
        ∧ ∀ e ∈ l, ∀ i, e = Event.descriptorOnGetData i →
          0 ≤ i ∧ i < (d.onGetLength : Int) := by
    have h0 : ((if x.controlEndpoint.getReceivedLength x = 0
          then x.setDataStage DataStage.NONE 0 else x).controlEndpoint.pendingDescriptor
          = x.controlEndpoint.pendingDescriptor)
        ∧ ((if x.controlEndpoint.getReceivedLength x = 0
          then x.setDataStage DataStage.NONE 0 else x).controlEndpoint.pendingDescriptorDataIndex
          = x.controlEndpoint.pendingDescriptorDataIndex)
        ∧ ((if x.controlEndpoint.getReceivedLength x = 0
          then x.setDataStage DataStage.NONE 0 else x).trace = x.trace) := by
      split_ifs <;> exact ⟨rfl, rfl, rfl⟩
    unfold USB_ControlEndpoint.onDataStageIN
    dsimp only
    generalize (if x.controlEndpoint.getReceivedLength x = 0
        then x.setDataStage DataStage.NONE 0 else x) = y at h0
    obtain ⟨a1, a2, a3⟩ := h0
    cases hp : y.controlEndpoint.pendingDescriptor with
    | none => exact ⟨Or.inl hp, [], by simp [a3], by simp⟩
    | some p =>
      rw [a1] at hp
      rcases hx with hx | ⟨hx1, hx2, hx3⟩
      · rw [hx] at hp
        cases hp
      · rw [hx1] at hp
        have hpd : p = d := (Option.some.inj hp).symm
        subst hpd
        have := sendPending_in_range y p adj (by rw [a2]; exact hx2) (by rw [a2]; exact hx3)
          (by rw [a1]; exact hx1)
        rw [a3] at this
        exact this
  have hmid : ((if x.controlEndpoint.dataStage = DataStage.IN
        then USB_ControlEndpoint.onDataStageIN x adj else x).controlEndpoint.pendingDescriptor
          = none
      ∨ ((if x.controlEndpoint.dataStage = DataStage.IN
          then USB_ControlEndpoint.onDataStageIN x adj else x).controlEndpoint.pendingDescriptor
            = some d
        ∧ 0 ≤ (if x.controlEndpoint.dataStage = DataStage.IN
          then USB_ControlEndpoint.onDataStageIN x adj
          else x).controlEndpoint.pendingDescriptorDataIndex
        ∧ (if x.controlEndpoint.dataStage = DataStage.IN
          then USB_ControlEndpoint.onDataStageIN x adj
          else x).controlEndpoint.pendingDescriptorDataIndex < (d.onGetLength : Int)))
      ∧ ∃ l, (if x.controlEndpoint.dataStage = DataStage.IN
          then USB_ControlEndpoint.onDataStageIN x adj else x).trace = x.trace ++ l
        ∧ ∀ e ∈ l, ∀ i, e = Event.descriptorOnGetData i →
          0 ≤ i ∧ i < (d.onGetLength : Int) := by
    split_ifs
    · exact hIN
    · exact ⟨hx, events_refl _ x⟩
  unfold USB_ControlEndpoint.onTransmissionComplete
  dsimp only
  generalize (if x.controlEndpoint.dataStage = DataStage.IN
      then USB_ControlEndpoint.onDataStageIN x adj else x) = y at hmid
  obtain ⟨m1, m2⟩ := hmid
  split_ifs
  · obtain ⟨s1, s2, s3⟩ := onStatusStage_reads_nothing d.onGetLength y
    rw [s1, s2]
    exact ⟨m1, events_trans _ m2 s3⟩
  · exact ⟨m1, m2⟩

/-- The GET_DESCRIPTOR branch reads inside the descriptor and leaves no
descriptor pending or a cursor inside it. -/
theorem sendDescriptor_in_range (s : State) (request : Request) (d : USB_Descriptor)
    (adj : Buf) (hpend : s.controlEndpoint.pendingDescriptor = none) :
    ((onSetupStage.sendDescriptor s request d adj).controlEndpoint.pendingDescriptor = none
      ∨ ((onSetupStage.sendDescriptor s request d adj).controlEndpoint.pendingDescriptor
          = some d
        ∧ 0 ≤ (onSetupStage.sendDescriptor s request d
            adj).controlEndpoint.pendingDescriptorDataIndex
        ∧ (onSetupStage.sendDescriptor s request d
            adj).controlEndpoint.pendingDescriptorDataIndex < (d.onGetLength : Int)))
    ∧ ∃ l, (onSetupStage.sendDescriptor s request d adj).trace = s.trace ++ l
      ∧ ∀ e ∈ l, ∀ i, e = Event.descriptorOnGetData i →
        0 ≤ i ∧ i < (d.onGetLength : Int) := by
  have hq : ∀ e : Event, (∀ i, e = Event.descriptorOnGetData i → False) →
      ∀ i, e = Event.descriptorOnGetData i → 0 ≤ i ∧ i < (d.onGetLength : Int) :=
    fun e he i hi => (he i hi).elim
  rw [sendDescriptor_eq]
  generalize hts : min (min request.wLength d.onGetLength) s.controlEndpoint.txBufferSize = ts
  have hev : ∃ l, (s.controlEndpoint.transmit
      (((s.log Event.descriptorOnInit).log Event.descriptorOnGetLength).logAll
        (getDataEvents 0 ts))
      (descriptorBuffer d 0 (ts : Nat) adj) (ts : Nat)).trace = s.trace ++ l
      ∧ ∀ e ∈ l, ∀ i, e = Event.descriptorOnGetData i →
        0 ≤ i ∧ i < (d.onGetLength : Int) := by
    refine events_snoc _ _ (trace_transmit _ _ _ _) (hq _ (fun i hi => by cases hi)) ?_
    refine events_append _ _ rfl
      (getDataEvents_in_range d.onGetLength 0 ts (le_refl _) (by omega)) ?_
    refine events_snoc _ _ rfl (hq _ (fun i hi => by cases hi)) ?_
    exact events_snoc _ Event.descriptorOnInit rfl (hq _ (fun i hi => by cases hi))
      (events_refl _ s)
  split_ifs with hc
  · refine ⟨Or.inr ⟨rfl, ?_, ?_⟩, hev⟩
    · show (0 : Int) ≤ (ts : Nat)
      omega
    · show ((ts : Nat) : Int) < (d.onGetLength : Int)
      omega
  · exact ⟨Or.inl hpend,
      events_snoc _ Event.descriptorOnDeinit rfl (hq _ (fun i hi => by cases hi)) hev⟩

/-- The setup handler of a GET_DESCRIPTOR request reads inside the descriptor and
leaves no descriptor pending or a cursor inside it. -/
theorem setup_in_range (st : State) (requestBuffer adjacent : Buf)
    (wValue wIndex wLength : Nat) (f : Nat → Nat → Option USB_Descriptor) (d : USB_Descriptor)
    (hreq : receivedRequest st requestBuffer =
      { bmRequestType := 0x80, bRequest := 0x06, wValue := wValue, wIndex := wIndex,
        wLength := wLength })
    (hf : st.controlEndpoint.descriptorCallbackFunc = some f)
    (hd : f (wValue >>> 8) (wValue &&& 0xFF) = some d)
    (hpend : st.controlEndpoint.pendingDescriptor = none) :
    ((onSetupReceptionComplete st requestBuffer adjacent).controlEndpoint.pendingDescriptor
        = none
      ∨ ((onSetupReceptionComplete st requestBuffer adjacent).controlEndpoint.pendingDescriptor
          = some d
        ∧ 0 ≤ (onSetupReceptionComplete st requestBuffer
            adjacent).controlEndpoint.pendingDescriptorDataIndex
        ∧ (onSetupReceptionComplete st requestBuffer
            adjacent).controlEndpoint.pendingDescriptorDataIndex < (d.onGetLength : Int)))
    ∧ ∃ l, (onSetupReceptionComplete st requestBuffer adjacent).trace = st.trace ++ l
      ∧ ∀ e ∈ l, ∀ i, e = Event.descriptorOnGetData i →
        0 ≤ i ∧ i < (d.onGetLength : Int) := by
  have hq : ∀ e : Event, (∀ i, e = Event.descriptorOnGetData i → False) →
      ∀ i, e = Event.descriptorOnGetData i → 0 ≤ i ∧ i < (d.onGetLength : Int) :=
    fun e he i hi => (he i hi).elim
  rw [onSetupReceptionComplete_eq, hreq,
    handleRequest_getDescriptor _ _ _ _ _ f d (by simpa using hf) hd]
  obtain ⟨a1, a2⟩ := sendDescriptor_in_range
    (((st.controlEndpoint.setReceptionStatus (st.setDataStage DataStage.NONE 0)
        Status.VALID).setDataStage (if wLength > 0 then DataStage.IN else DataStage.NONE)
        (if wLength > 0 then (wLength : Int) else 0)).log
      (Event.descriptorCallback (wValue >>> 8) (wValue &&& 0xFF)))
    { bmRequestType := 0x80, bRequest := 0x06, wValue := wValue, wIndex := wIndex,
      wLength := wLength } d adjacent hpend
  refine ⟨a1, ?_⟩
  refine events_snoc _ (Event.writeEPnR _ _) rfl (hq _ (fun i hi => by cases hi)) ?_
  refine events_trans _ ?_ a2
  refine events_snoc _ (Event.descriptorCallback _ _) rfl (hq _ (fun i hi => by cases hi)) ?_
  exact events_snoc _ (Event.writeEPnR _ _) rfl (hq _ (fun i hi => by cases hi))
    (events_refl _ st)

end IndexLemmas2

/-! ## Receive count of large buffers -/

section BufferDescriptorLemmas2
open USB_SRAM USB_Registers USB_Endpoint USB_ControlEndpoint

theorem bitsReplace_zero_block (v : Nat) :
    bitsReplace 0 v 5 Registers.COUNTn_RX.NUM_BLOCK_0 = v % 32 * 1024 := by
  apply Nat.eq_of_testBit_eq
  intro i
  rw [testBit_bitsReplace, show v % 32 * 1024 = (v % 2 ^ 5) <<< 10 by
    rw [Nat.shiftLeft_eq]; rfl, Nat.testBit_shiftLeft, Nat.testBit_mod_two_pow,
    Nat.zero_testBit]
  simp only [Registers.COUNTn_RX.NUM_BLOCK_0]
  by_cases h1 : 10 ≤ i
  · by_cases h2 : i - 10 < 5
    · have h3 : i < 32 := by omega
      simp [h1, h2, h3]
    · simp [h1, h2]
  · simp [h1]

theorem countRxWord_large_any (rx u : Nat) (h1 : 64 ≤ rx) :
    countRxWord rx u = 32768 + (rx / 32 - 1) % 32 * 1024 := by
  unfold countRxWord
  rw [if_neg (by omega), if_pos (by omega), bitsReplace_zero_block]
  have h := (countRx_large_fields ((rx / 32 - 1) % 32) (Nat.mod_lt _ (by decide))).1
  rw [bitsReplace_zero_block, Nat.mod_mod] at h
  exact h

end BufferDescriptorLemmas2

/-! ## Device address -/

section AddressLemmas
open USB_SRAM USB_Registers USB_Endpoint USB_ControlEndpoint

theorem unaddressed_stable : State.Stable State.Unaddressed :=
  ⟨fun _ _ h => h, fun _ _ h => h, fun _ _ h => h, fun _ _ h => h, fun _ _ _ h => h,
    fun _ _ h => h, fun _ _ h => h, fun _ _ _ h => h⟩

theorem receivedRequest_congr (x st : State) (rb : Buf) (h1 : x.sram = st.sram)
    (h2 : x.controlEndpoint = st.controlEndpoint) :
    receivedRequest x rb = receivedRequest st rb := by
  unfold receivedRequest USB_Endpoint.receive USB_Endpoint.getReceivedLength
  simp only [h1, h2]

theorem onReset_address (s : State) :
    bitsValue (USB.onReset s).DADDR 7 DADDR.ADD_0 = 0
    ∧ bitValue (USB.onReset s).DADDR DADDR.EF = 1
    ∧ (USB.onReset s).controlEndpoint = s.controlEndpoint := by
  obtain ⟨h1, -, h3, -⟩ := onReset_facts s
  rw [h1]
  exact ⟨address_after_reset _, bitValue_bitSet_same _ _ (by decide), h3⟩

theorem unaddressed_onStatusStage (y : State) (h : y.Unaddressed) :
    (onStatusStage y).Unaddressed := by
  rw [onStatusStage_idle y h.2.2]
  exact h

/-- An interrupt that brings no SET_ADDRESS request for a non-zero address keeps
the device unaddressed. -/
theorem unaddressed_irq (st : State) (rb a1 a2 : Buf) (h : st.Unaddressed)
    (hreq : USB.irq.setupReceived st →
      ¬ ((receivedRequest st rb).bRequest = 0x05 ∧ (receivedRequest st rb).bmRequestType = 0x00
        ∧ (receivedRequest st rb).wValue &&& 0x7F ≠ 0)) :
    (USB.irq st rb a1 a2).Unaddressed := by
  refine irq_holds (P := State.Unaddressed) st rb a1 a2 ?_ ?_ ?_ unaddressed_stable.2.2.2.1
    unaddressed_stable.1 unaddressed_stable.2.2.2.2.2.2.2 ?_ ?_
    (fun x h => State.Stable.stable_onReceptionComplete unaddressed_stable a1
      unaddressed_onStatusStage h)
    (fun x h => State.Stable.stable_onTransmissionComplete unaddressed_stable a2
      unaddressed_onStatusStage h) h
  · exact fun _ _ hx => hx
  · exact fun _ _ hx => hx
  · exact fun _ _ hx => hx
  · intro x hx
    obtain ⟨r1, r2, r3⟩ := onReset_address x
    exact ⟨r1, r2, by rw [r3]; exact hx.2.2⟩
  · intro hd x hx e1 e2
    refine State.Stable.stable_onSetupReceptionComplete unaddressed_stable rb a1 ?_ hx
    rw [receivedRequest_congr x st rb e1 e2]
    intro b1 b2 y hy
    have hz : (receivedRequest st rb).wValue &&& 0x7F = 0 := by
      by_contra hne
      exact hreq hd ⟨b1, b2, hne⟩
    rw [hz]
    exact ⟨hy.1, hy.2.1, rfl⟩

theorem unaddressed_run (l : List USB.Interrupt) :
    ∀ s : State, s.Unaddressed → USB.noAddressRequest s l → (USB.run s l).Unaddressed := by
  induction l with
  | nil => exact fun s h _ => h
  | cons i rest ih =>
    intro s h hl
    exact ih _ (unaddressed_irq _ _ _ _ h hl.1) hl.2

end AddressLemmas

/-! ## Claims C21 to C30 -/

section Claims3
open USB_SRAM USB_Registers USB_Endpoint USB_ControlEndpoint

/-- C21 (what the code does instead): a setup packet leaves a pending descriptor
in place; `onSetupReceptionComplete()` assigns `dataStage` and `dataStageLength`
only. In `exampleEnumerationState` the GET_DESCRIPTOR setup packet sends bytes
1..8 of the 18-byte descriptor and leaves it pending with cursor 8; the
GET_STATUS setup packet that arrives next is answered with `[0, 0]` and the
descriptor is still pending with cursor 8; the transmission-complete event that
follows transmits bytes 9..16 of the earlier descriptor. -/
theorem C21_pending_descriptor_survives_a_setup_packet :
    (onSetupReceptionComplete exampleEnumerationState (fun _ => 0)
        (fun _ => 0)).controlEndpoint.pendingDescriptorDataIndex = 8
    ∧ receivedRequest
        ((onSetupReceptionComplete exampleEnumerationState (fun _ => 0) (fun _ => 0)).setSram
          (USB.getStatusPacketArrives
            (onSetupReceptionComplete exampleEnumerationState (fun _ => 0) (fun _ => 0)).sram))
        (fun _ => 0)
      = { bmRequestType := 0x80, bRequest := 0x00, wValue := 0, wIndex := 0, wLength := 2 }
    ∧ (onSetupReceptionComplete
        ((onSetupReceptionComplete exampleEnumerationState (fun _ => 0) (fun _ => 0)).setSram
          (USB.getStatusPacketArrives
            (onSetupReceptionComplete exampleEnumerationState (fun _ => 0) (fun _ => 0)).sram))
        (fun _ => 0) (fun _ => 0)).controlEndpoint.pendingDescriptor.isSome = true
    ∧ (onSetupReceptionComplete
        ((onSetupReceptionComplete exampleEnumerationState (fun _ => 0) (fun _ => 0)).setSram
          (USB.getStatusPacketArrives
            (onSetupReceptionComplete exampleEnumerationState (fun _ => 0) (fun _ => 0)).sram))
        (fun _ => 0) (fun _ => 0)).controlEndpoint.pendingDescriptorDataIndex = 8
    ∧ exampleEnumerationState.controlEndpoint.txPacket
        (onSetupReceptionComplete
          ((onSetupReceptionComplete exampleEnumerationState (fun _ => 0) (fun _ => 0)).setSram
            (USB.getStatusPacketArrives
              (onSetupReceptionComplete exampleEnumerationState (fun _ => 0)
                (fun _ => 0)).sram))
          (fun _ => 0) (fun _ => 0)) = [0, 0]
    ∧ exampleEnumerationState.controlEndpoint.txPacket
        (onTransmissionComplete
          (onSetupReceptionComplete
            ((onSetupReceptionComplete exampleEnumerationState (fun _ => 0)
              (fun _ => 0)).setSram
              (USB.getStatusPacketArrives
                (onSetupReceptionComplete exampleEnumerationState (fun _ => 0)
                  (fun _ => 0)).sram))
            (fun _ => 0) (fun _ => 0))
          (fun _ => 0)) = [9, 10, 11, 12, 13, 14, 15, 16] := by
  refine ⟨rfl, rfl, rfl, rfl, ?_, ?_⟩ <;> decide

/-- C22 (what the code does instead): only the first packet takes account of
`wLength`. With `wLength = 10`, `L = 18` and an 8-byte TX buffer the setup
handler sends 8 bytes and leaves the descriptor pending; the two
transmission-complete events that follow send 8 and 2 more bytes, 18 bytes in
all, and only then is the descriptor released. -/
theorem C22_fragmented_transfer_ignores_wLength :
    (receivedRequest USB.exampleShortRequestState (fun _ => 0)).wLength = 10
    ∧ exampleDescriptor.onGetLength = 18
    ∧ USB.exampleShortRequestState.controlEndpoint.txPacket
        (setupThenTransmissions USB.exampleShortRequestState (fun _ => 0) (fun _ _ => 0) 0)
      = [1, 2, 3, 4, 5, 6, 7, 8]
    ∧ USB.exampleShortRequestState.controlEndpoint.txPacket
        (setupThenTransmissions USB.exampleShortRequestState (fun _ => 0) (fun _ _ => 0) 1)
      = [9, 10, 11, 12, 13, 14, 15, 16]
    ∧ USB.exampleShortRequestState.controlEndpoint.txPacket
        (setupThenTransmissions USB.exampleShortRequestState (fun _ => 0) (fun _ _ => 0) 2)
      = [17, 18]
    ∧ (setupThenTransmissions USB.exampleShortRequestState (fun _ => 0) (fun _ _ => 0)
        1).controlEndpoint.pendingDescriptor.isSome = true
    ∧ (setupThenTransmissions USB.exampleShortRequestState (fun _ => 0) (fun _ _ => 0)
        2).controlEndpoint.pendingDescriptor.isSome = false := by
  refine ⟨rfl, rfl, ?_, ?_, ?_, rfl, rfl⟩ <;> decide

/-- C23 counterexample: after the three packets of the 18-byte descriptor have
been armed (no descriptor is pending any more) the stage is still In, and a
further transmission-complete event leaves it In: the BDT receive count still
reads 8, the size of the setup packet. -/
theorem C23_stage_stays_In_after_the_last_packet :
    (setupThenTransmissions exampleEnumerationState (fun _ => 0) (fun _ _ => 0)
        2).controlEndpoint.pendingDescriptor.isSome = false
    ∧ (setupThenTransmissions exampleEnumerationState (fun _ => 0) (fun _ _ => 0)
        2).controlEndpoint.dataStage = DataStage.IN
    ∧ (onTransmissionComplete
        (setupThenTransmissions exampleEnumerationState (fun _ => 0) (fun _ _ => 0) 2)
        (fun _ => 0)).controlEndpoint.dataStage = DataStage.IN := by
  refine ⟨rfl, rfl, rfl⟩

/-- C23 (amended): the stage collapses on a zero receive count. For every state
in stage In, `onTransmissionComplete()` runs `onDataStageIN()`; when the BDT
receive count of endpoint 0 reads 0 the stage becomes None and the status-stage
action runs in the same call; when the count is not 0 the call is
`onDataStageIN()` alone and the stage stays In. -/
theorem C23_stage_collapses_on_zero_length_reception (st : State) (adjacent : Buf)
    (hstage : st.controlEndpoint.dataStage = DataStage.IN) :
    (st.controlEndpoint.getReceivedLength st = 0 →
      onTransmissionComplete st adjacent = onStatusStage (onDataStageIN st adjacent)
      ∧ (onTransmissionComplete st adjacent).controlEndpoint.dataStage = DataStage.NONE)
    ∧ (st.controlEndpoint.getReceivedLength st ≠ 0 →
      onTransmissionComplete st adjacent = onDataStageIN st adjacent
      ∧ (onTransmissionComplete st adjacent).controlEndpoint.dataStage = DataStage.IN) := by
  have h1 : onTransmissionComplete st adjacent =
      if (onDataStageIN st adjacent).controlEndpoint.dataStage = DataStage.NONE
      then onStatusStage (onDataStageIN st adjacent) else onDataStageIN st adjacent := by
    unfold USB_ControlEndpoint.onTransmissionComplete
    rw [if_pos hstage]
  have h2 := dataStage_onDataStageIN st adjacent
  refine ⟨fun h0 => ?_, fun h0 => ?_⟩
  · rw [if_pos h0] at h2
    rw [h1, if_pos h2, dataStage_onStatusStage]
    exact ⟨rfl, h2⟩
  · rw [if_neg h0, hstage] at h2
    rw [h1, if_neg (by rw [h2]; decide)]
    exact ⟨rfl, h2⟩

/-- C23 witness: after the last packet of the 18-byte descriptor the stage stays
In while the receive count reads 8, and becomes None once the count reads 0. -/
theorem C23_stage_collapses_on_zero_length_reception_witness :
    (setupThenTransmissions exampleEnumerationState (fun _ => 0) (fun _ _ => 0)
        2).controlEndpoint.dataStage = DataStage.IN
    ∧ ((setupThenTransmissions exampleEnumerationState (fun _ => 0) (fun _ _ => 0)
          2).controlEndpoint.getReceivedLength
        (setupThenTransmissions exampleEnumerationState (fun _ => 0) (fun _ _ => 0) 2) ≠ 0 →
      onTransmissionComplete
          (setupThenTransmissions exampleEnumerationState (fun _ => 0) (fun _ _ => 0) 2)
          (fun _ => 0)
        = onDataStageIN
          (setupThenTransmissions exampleEnumerationState (fun _ => 0) (fun _ _ => 0) 2)
          (fun _ => 0)
      ∧ (onTransmissionComplete
          (setupThenTransmissions exampleEnumerationState (fun _ => 0) (fun _ _ => 0) 2)
          (fun _ => 0)).controlEndpoint.dataStage = DataStage.IN)
    ∧ (onTransmissionComplete
        ((setupThenTransmissions exampleEnumerationState (fun _ => 0) (fun _ _ => 0) 2).setSram
          (fun j => if j = 3 then 0x8400 else 0))
        (fun _ => 0)).controlEndpoint.dataStage = DataStage.NONE :=
  ⟨rfl,
    (C23_stage_collapses_on_zero_length_reception
      (setupThenTransmissions exampleEnumerationState (fun _ => 0) (fun _ _ => 0) 2)
      (fun _ => 0) rfl).2,
    ((C23_stage_collapses_on_zero_length_reception
      ((setupThenTransmissions exampleEnumerationState (fun _ => 0) (fun _ _ => 0) 2).setSram
        (fun j => if j = 3 then 0x8400 else 0))
      (fun _ => 0) rfl).1 (by decide)).2⟩

/-- C24 counterexample: `setEndpoint(0, nullptr)` and `setEndpoint(0, e)` rebind
slot 0 of a freshly constructed controller. -/
theorem C24_setEndpoint_rebinds_slot_0 :
    USB.construct.endpoints 0 = some EndpointRef.control
    ∧ (USB.setEndpoint USB.construct 0 none).endpoints 0 = none
    ∧ (USB.setEndpoint USB.construct 0
        (some (EndpointRef.generic { number := 0 }))).endpoints 0
      = some (EndpointRef.generic { number := 0 }) :=
  ⟨rfl, rfl, rfl⟩

/-- C24 (amended): slot 0 is bound to the control endpoint after construction,
and from a state in which it is, it still is after `init()`, `init(config)`,
`deinit()`, `connect()`, `disconnect()`, `setEndpoint(number, endpoint)` for a
number in 1..7 and any endpoint argument, each callback setter, and `irq()`. -/
theorem C24_slot_0_stays_bound (st : State) (h : st.endpoints 0 = some EndpointRef.control) :
    USB.construct.endpoints 0 = some EndpointRef.control
    ∧ (∀ HSI48RDY fuel uninitialised adjacent s2,
        USB.init st HSI48RDY fuel uninitialised adjacent = some s2 →
        s2.endpoints 0 = some EndpointRef.control)
    ∧ (∀ HSI48RDY fuel uninitialised adjacent r s w d s2,
        USB.initConfig st HSI48RDY fuel uninitialised adjacent r s w d = some s2 →
        s2.endpoints 0 = some EndpointRef.control)
    ∧ (USB.deinit st).endpoints 0 = some EndpointRef.control
    ∧ (USB.connect st).endpoints 0 = some EndpointRef.control
    ∧ (USB.disconnect st).endpoints 0 = some EndpointRef.control
    ∧ (∀ number endpoint, number ≠ 0 → number < USB.NUM_ENDPOINTS →
        (USB.setEndpoint st number endpoint).endpoints 0 = some EndpointRef.control)
    ∧ (∀ func, (USB.setResetCallback st func).endpoints 0 = some EndpointRef.control)
    ∧ (∀ func, (USB.setSuspendCallback st func).endpoints 0 = some EndpointRef.control)
    ∧ (∀ func, (USB.setResumeCallback st func).endpoints 0 = some EndpointRef.control)
    ∧ (∀ func, (USB.setDescriptorCallback st func).endpoints 0 = some EndpointRef.control)
    ∧ (∀ requestBuffer adjacentRx adjacentTx,
        (USB.irq st requestBuffer adjacentRx adjacentTx).endpoints 0
          = some EndpointRef.control) := by
  refine ⟨rfl, ?_, ?_, ?_, ?_, ?_, ?_, fun _ => h, fun _ => h, fun _ => h, fun _ => h, ?_⟩
  · intro R fuel u adj s2 hs
    rw [init_endpoints st s2 R fuel u adj hs]
    exact h
  · intro R fuel u adj r s w d s2 hs
    unfold USB.initConfig at hs
    cases hi : USB.init st R fuel u adj with
    | none =>
      rw [hi] at hs
      cases hs
    | some s1 =>
      rw [hi] at hs
      have h2 := Option.some.inj hs
      rw [← h2]
      show s1.endpoints 0 = _
      rw [init_endpoints st s1 R fuel u adj hi]
      exact h
  · have e : (USB.deinit st).endpoints = st.endpoints := by
      unfold USB.deinit USB.disconnect USB.setPullup
      rfl
    rw [e]
    exact h
  · have e : (USB.connect st).endpoints = st.endpoints := by
      unfold USB.connect USB.setPullup
      rfl
    rw [e]
    exact h
  · have e : (USB.disconnect st).endpoints = st.endpoints := by
      unfold USB.disconnect USB.setPullup
      rfl
    rw [e]
    exact h
  · intro number endpoint hne _
    show (if 0 = number then endpoint else st.endpoints 0) = _
    rw [if_neg (fun hc => hne hc.symm)]
    exact h
  · intro rb a1 a2
    rw [irq_endpoints]
    exact h

/-- C24 witness: the constructed controller, after `connect()` and an interrupt,
and after `setEndpoint(1, e)`. -/
theorem C24_slot_0_stays_bound_witness :
    USB.construct.endpoints 0 = some EndpointRef.control
    ∧ (USB.irq (USB.connect USB.construct) (fun _ => 0) (fun _ => 0) (fun _ => 0)).endpoints 0
        = some EndpointRef.control
    ∧ (USB.setEndpoint USB.construct 1
        (some (EndpointRef.generic { number := 1 }))).endpoints 0
      = some EndpointRef.control :=
  ⟨rfl,
    (C24_slot_0_stays_bound (USB.connect USB.construct) rfl).2.2.2.2.2.2.2.2.2.2.2 _ _ _,
    (C24_slot_0_stays_bound USB.construct rfl).2.2.2.2.2.2.1 1 _ (by decide) (by decide)⟩

/-- C25: descriptor reads stay in range. Let the setup packet be GET_DESCRIPTOR
(any `wValue`, `wIndex`, `wLength`) with a provider that returns a descriptor of
constant length `L`, no descriptor being pending from before, for any
`txBufferSize`. Then every index `i` of a call `onGetData(i)` made by the setup
handler and by any number `k` of following transmission-complete events
satisfies `0 <= i < L`. -/
theorem C25_descriptor_reads_in_range (st : State) (requestBuffer : Buf)
    (adjacent : Nat → Buf) (wValue wIndex wLength : Nat)
    (f : Nat → Nat → Option USB_Descriptor) (d : USB_Descriptor)
    (hreq : receivedRequest st requestBuffer =
      { bmRequestType := 0x80, bRequest := 0x06, wValue := wValue, wIndex := wIndex,
        wLength := wLength })
    (hf : st.controlEndpoint.descriptorCallbackFunc = some f)
    (hd : f (wValue >>> 8) (wValue &&& 0xFF) = some d)
    (hpend : st.controlEndpoint.pendingDescriptor = none) (k : Nat) (i : Int)
    (hi : Event.descriptorOnGetData i
      ∈ State.newEvents st (setupThenTransmissions st requestBuffer adjacent k)) :
    0 ≤ i ∧ i < (d.onGetLength : Int) := by
  have key : ∀ k,
      ((setupThenTransmissions st requestBuffer adjacent k).controlEndpoint.pendingDescriptor
          = none
        ∨ ((setupThenTransmissions st requestBuffer adjacent k).controlEndpoint.pendingDescriptor
            = some d
          ∧ 0 ≤ (setupThenTransmissions st requestBuffer adjacent
              k).controlEndpoint.pendingDescriptorDataIndex
          ∧ (setupThenTransmissions st requestBuffer adjacent
              k).controlEndpoint.pendingDescriptorDataIndex < (d.onGetLength : Int)))
      ∧ ∃ l, (setupThenTransmissions st requestBuffer adjacent k).trace = st.trace ++ l
        ∧ ∀ e ∈ l, ∀ i, e = Event.descriptorOnGetData i →
          0 ≤ i ∧ i < (d.onGetLength : Int) := by
    intro k
    induction k with
    | zero =>
      exact setup_in_range st requestBuffer (adjacent 0) wValue wIndex wLength f d hreq hf hd
        hpend
    | succ k ih =>
      obtain ⟨a1, a2⟩ := ih
      obtain ⟨b1, b2⟩ := onTransmissionComplete_in_range
        (setupThenTransmissions st requestBuffer adjacent k) d (adjacent (k + 1)) a1
      exact ⟨b1, events_trans _ a2 b2⟩
  obtain ⟨-, l, h1, h2⟩ := key k
  rw [newEvents_of_trace _ _ _ h1] at hi
  exact h2 _ hi i rfl

/-- C25 witness: `wLength = 10`, `L = 18`, an 8-byte TX buffer; the calls made by
the setup handler and two transmission-complete events read indices 0..17. -/
theorem C25_descriptor_reads_in_range_witness :
    (receivedRequest USB.exampleShortRequestState (fun _ => 0) =
        { bmRequestType := 0x80, bRequest := 0x06, wValue := 0x0100, wIndex := 0,
          wLength := 10 }
      ∧ State.newEvents USB.exampleShortRequestState
          (setupThenTransmissions USB.exampleShortRequestState (fun _ => 0) (fun _ _ => 0) 2)
        = [Event.writeEPnR 0 0xB080, Event.descriptorCallback 1 0, Event.descriptorOnInit,
            Event.descriptorOnGetLength] ++ getDataEvents 0 8
          ++ [Event.writeEPnR 0 0x80B0, Event.writeEPnR 0 0x8080, Event.descriptorOnGetLength]
          ++ getDataEvents 8 8
          ++ [Event.writeEPnR 0 0x8080, Event.descriptorOnGetLength]
          ++ getDataEvents 16 2
          ++ [Event.writeEPnR 0 0x8080, Event.descriptorOnDeinit])
    ∧ (0 ≤ (17 : Int) ∧ (17 : Int) < (exampleDescriptor.onGetLength : Int)) := by
  have h : State.newEvents USB.exampleShortRequestState
      (setupThenTransmissions USB.exampleShortRequestState (fun _ => 0) (fun _ _ => 0) 2)
      = [Event.writeEPnR 0 0xB080, Event.descriptorCallback 1 0, Event.descriptorOnInit,
          Event.descriptorOnGetLength] ++ getDataEvents 0 8
        ++ [Event.writeEPnR 0 0x80B0, Event.writeEPnR 0 0x8080, Event.descriptorOnGetLength]
        ++ getDataEvents 8 8
        ++ [Event.writeEPnR 0 0x8080, Event.descriptorOnGetLength]
        ++ getDataEvents 16 2
        ++ [Event.writeEPnR 0 0x8080, Event.descriptorOnDeinit] := by
    rfl
  exact ⟨⟨rfl, h⟩,
    C25_descriptor_reads_in_range USB.exampleShortRequestState (fun _ => 0) (fun _ _ => 0)
      0x0100 0 10 (fun _ _ => some exampleDescriptor) exampleDescriptor rfl rfl rfl rfl 2 17
      (by rw [h]; simp [getDataEvents, List.range_succ])⟩

/-- C26: bit-field replace and extract. For every 32-bit `v`, every `r`, and
width `n` and offset `o` with `n + o <= 31`:
`bitsValue(bitsReplace(v, r, n, o), n, o) = r mod 2^n`, and every bit of
`bitsReplace(v, r, n, o)` outside positions `o .. o+n-1` is the bit of `v`. -/
theorem C26_bit_field_round_trip (v r n o : Nat) (hv : v < 4294967296)
    (hno : n + o ≤ 31) :
    bitsValue (bitsReplace v r n o) n o = r % 2 ^ n
    ∧ ∀ i, i < o ∨ o + n ≤ i → (bitsReplace v r n o).testBit i = v.testBit i := by
  refine ⟨bitsValue_bitsReplace_same v r n o (by omega), ?_⟩
  intro i hi
  rw [testBit_bitsReplace, if_neg (by omega)]
  by_cases h32 : i < 32
  · simp [h32]
  · have : v.testBit i = false :=
      Nat.testBit_lt_two_pow (Nat.lt_of_lt_of_le hv
        (Nat.pow_le_pow_right (show 0 < 2 by decide) (show 32 ≤ i by omega)))
    simp [h32, this]

/-- C26 witness: the examples of the header documentation. -/
theorem C26_bit_field_round_trip_witness :
    ((0b10010100 : Nat) < 4294967296 ∧ 3 + 3 ≤ 31)
    ∧ bitsValue (bitsReplace 0b10010100 0b1110 3 3) 3 3 = 0b1110 % 2 ^ 3
    ∧ bitsReplace 0b10010100 0b1110 3 3 = 0b10110100
    ∧ bitsValue 0b11010100 4 3 = 0b1010
    ∧ bitMask 4 2 = 0b111100 :=
  ⟨⟨by decide, by decide⟩,
    (C26_bit_field_round_trip 0b10010100 0b1110 3 3 (by decide) (by decide)).1,
    by decide, by decide, by decide⟩

/-- C27 (what the code does instead): default buffer geometry. For every
endpoint number `n` in 0..7 the default BDT entry `[8n, 8n+8)` and the default
transmit buffer `[64+128n, 64+128n+64)` lie inside the 1024-byte packet memory;
the default receive buffer `[128+128n, 128+128n+64)` does so exactly when
`n <= 6`: for endpoint 7 it is `[1024, 1088)`. -/
theorem C27_default_buffer_geometry (n : Nat) (hn : n ≤ 7) :
    (({ number := n } : USB_Endpoint).bufferDescriptorAddress = 8 * n
      ∧ 8 * n + 8 ≤ USB_SRAM.SIZE)
    ∧ (({ number := n } : USB_Endpoint).txBufferAddress = 64 + 128 * n
      ∧ ({ number := n } : USB_Endpoint).txBufferSize = 64
      ∧ 64 + 128 * n + 64 ≤ USB_SRAM.SIZE)
    ∧ (({ number := n } : USB_Endpoint).rxBufferAddress = 128 + 128 * n
      ∧ ({ number := n } : USB_Endpoint).rxBufferSize = 64
      ∧ (128 + 128 * n + 64 ≤ USB_SRAM.SIZE ↔ n ≤ 6)) := by
  refine ⟨⟨?_, ?_⟩, ⟨?_, rfl, ?_⟩, ⟨?_, rfl, ?_⟩⟩
  · show n * 8 % 256 = 8 * n
    omega
  · show 8 * n + 8 ≤ 1024
    omega
  · show 64 + n * 128 = 64 + 128 * n
    omega
  · show 64 + 128 * n + 64 ≤ 1024
    omega
  · show 128 + n * 128 = 128 + 128 * n
    omega
  · show 128 + 128 * n + 64 ≤ 1024 ↔ n ≤ 6
    omega

/-- C27 witness: the default receive buffer of endpoint 7 starts at 1024, the
size of the packet memory. -/
theorem C27_default_buffer_geometry_witness :
    (7 : Nat) ≤ 7
    ∧ ({ number := 7 } : USB_Endpoint).rxBufferAddress = 1024
    ∧ USB_SRAM.SIZE = 1024
    ∧ ¬ (128 + 128 * 7 + 64 ≤ USB_SRAM.SIZE) :=
  ⟨by decide, by decide, by decide,
    fun h => absurd ((C27_default_buffer_geometry 7 (by decide)).2.2.2.2.1 h) (by decide)⟩

/-- C28 (what the code does instead): a bus reset clears the address in force
but not the deferred one. For every state, after `irq()` handles a word with
RESET set, the address field of DADDR is 0 and the enable bit is set, and
`addressTemp` is what it was. When it was 0, the address field stays 0 and the
enable bit set through every list of following interrupts that brings no
SET_ADDRESS request for a non-zero address to the setup hook. When it was not 0
and the stage is None, the `onTransmissionComplete()` that follows the reset
stores the stale `addressTemp | 0x80` in DADDR. -/
theorem C28_reset_keeps_the_deferred_address (st : State)
    (requestBuffer adjacentRx adjacentTx : Buf)
    (hreset : (st.ISTR % 4294967296) &&& (1 <<< ISTR.RESET) ≠ 0) :
    bitsValue (USB.irq st requestBuffer adjacentRx adjacentTx).DADDR 7 DADDR.ADD_0 = 0
    ∧ bitValue (USB.irq st requestBuffer adjacentRx adjacentTx).DADDR DADDR.EF = 1
    ∧ (USB.irq st requestBuffer adjacentRx adjacentTx).controlEndpoint.addressTemp
        = st.controlEndpoint.addressTemp
    ∧ (st.controlEndpoint.addressTemp = 0 → ∀ l : List USB.Interrupt,
        USB.noAddressRequest (USB.irq st requestBuffer adjacentRx adjacentTx) l →
        bitsValue (USB.run (USB.irq st requestBuffer adjacentRx adjacentTx) l).DADDR 7
            DADDR.ADD_0 = 0
          ∧ bitValue (USB.run (USB.irq st requestBuffer adjacentRx adjacentTx) l).DADDR
            DADDR.EF = 1)
    ∧ (st.controlEndpoint.addressTemp ≠ 0 → st.controlEndpoint.dataStage = DataStage.NONE →
        ∀ adjacent,
          (onTransmissionComplete (USB.irq st requestBuffer adjacentRx adjacentTx)
            adjacent).DADDR
            = (st.controlEndpoint.addressTemp ||| (1 <<< DADDR.EF)) % 4294967296) := by
  have e : USB.irq st requestBuffer adjacentRx adjacentTx = USB.onReset (st.writeISTR 0) := by
    unfold USB.irq
    simp only [hreset, ne_eq, not_false_eq_true, if_true]
  obtain ⟨r1, r2, r3⟩ := onReset_address (st.writeISTR 0)
  rw [e]
  refine ⟨r1, r2, by rw [r3]; rfl, fun h0 l hl => ?_, fun hne hst adj => ?_⟩
  · have hu : (USB.onReset (st.writeISTR 0)).Unaddressed :=
      ⟨r1, r2, by rw [r3]; exact h0⟩
    have := unaddressed_run l _ hu hl
    exact ⟨this.1, this.2.1⟩
  · have h1 : (USB.onReset (st.writeISTR 0)).controlEndpoint.dataStage = DataStage.NONE := by
      rw [r3]
      exact hst
    have h2 : (USB.onReset (st.writeISTR 0)).controlEndpoint.addressTemp ≠ 0 := by
      rw [r3]
      exact hne
    rw [onTransmissionComplete_status_stage _ _ h1, onStatusStage_pending _ h2, r3]
    rfl

/-- C28 witness: after `init()` and a reset, SET_ADDRESS(5) leaves
`addressTemp = 5` and DADDR `0x80`; a second reset keeps `addressTemp = 5`, and
the next `onTransmissionComplete()` stores `0x85`. As a run of interrupts: reset,
SET_ADDRESS(5), reset, CLEAR_FEATURE, transmission complete ends with DADDR
`0x85`, address 5, with no SET_ADDRESS received after the second reset. With no
address deferred, a suspend, a CLEAR_FEATURE request and its status stage leave
the address 0. -/
theorem C28_reset_keeps_the_deferred_address_witness :
    (((USB.run USB.exampleInitialisedState
          [USB.resetInterrupt, USB.setAddressInterrupt]).peripheral 0x0400 id id).ISTR
          % 4294967296 &&& (1 <<< ISTR.RESET) ≠ 0
      ∧ (USB.run USB.exampleInitialisedState
          [USB.resetInterrupt, USB.setAddressInterrupt]).controlEndpoint.addressTemp = 5
      ∧ (USB.run USB.exampleInitialisedState
          [USB.resetInterrupt, USB.setAddressInterrupt]).controlEndpoint.dataStage
        = DataStage.NONE)
    ∧ (USB.run USB.exampleInitialisedState
        [USB.resetInterrupt, USB.setAddressInterrupt,
          USB.resetInterrupt]).controlEndpoint.addressTemp = 5
    ∧ (onTransmissionComplete
        (USB.run USB.exampleInitialisedState
          [USB.resetInterrupt, USB.setAddressInterrupt, USB.resetInterrupt])
        (fun _ => 0)).DADDR = 0x85
    ∧ (bitsValue (USB.run USB.exampleInitialisedState
          [USB.resetInterrupt, USB.suspendInterrupt, USB.clearFeatureInterrupt,
            USB.transmissionInterrupt]).DADDR 7 DADDR.ADD_0 = 0
      ∧ bitValue (USB.run USB.exampleInitialisedState
          [USB.resetInterrupt, USB.suspendInterrupt, USB.clearFeatureInterrupt,
            USB.transmissionInterrupt]).DADDR DADDR.EF = 1)
    ∧ ((USB.run USB.exampleInitialisedState
          [USB.resetInterrupt, USB.setAddressInterrupt]).DADDR = 0x80
      ∧ (USB.run USB.exampleInitialisedState
          [USB.resetInterrupt, USB.setAddressInterrupt, USB.resetInterrupt]).DADDR = 0x80
      ∧ receivedRequest
          ((USB.run USB.exampleInitialisedState
            [USB.resetInterrupt, USB.setAddressInterrupt, USB.resetInterrupt]).peripheral
            USB.clearFeatureInterrupt.istr USB.clearFeatureInterrupt.registers
            USB.clearFeatureInterrupt.memory) (fun _ => 0)
        = { bmRequestType := 0x00, bRequest := 0x01, wValue := 0, wIndex := 0, wLength := 0 }
      ∧ (USB.run USB.exampleInitialisedState
          [USB.resetInterrupt, USB.setAddressInterrupt, USB.resetInterrupt,
            USB.clearFeatureInterrupt]).DADDR = 0x80
      ∧ (USB.run USB.exampleInitialisedState
          [USB.resetInterrupt, USB.setAddressInterrupt, USB.resetInterrupt,
            USB.clearFeatureInterrupt, USB.transmissionInterrupt]).DADDR = 0x85
      ∧ bitsValue (USB.run USB.exampleInitialisedState
          [USB.resetInterrupt, USB.setAddressInterrupt, USB.resetInterrupt,
            USB.clearFeatureInterrupt, USB.transmissionInterrupt]).DADDR 7 DADDR.ADD_0
        = 5) :=
  ⟨⟨by decide, by decide, by decide⟩,
    (C28_reset_keeps_the_deferred_address
      ((USB.run USB.exampleInitialisedState
        [USB.resetInterrupt, USB.setAddressInterrupt]).peripheral 0x0400 id id)
      (fun _ => 0) (fun _ => 0) (fun _ => 0) (by decide)).2.2.1,
    (C28_reset_keeps_the_deferred_address
      ((USB.run USB.exampleInitialisedState
        [USB.resetInterrupt, USB.setAddressInterrupt]).peripheral 0x0400 id id)
      (fun _ => 0) (fun _ => 0) (fun _ => 0) (by decide)).2.2.2.2 (by decide) (by decide)
      (fun _ => 0),
    (C28_reset_keeps_the_deferred_address
      (USB.exampleInitialisedState.peripheral 0x0400 id id)
      (fun _ => 0) (fun _ => 0) (fun _ => 0) (by decide)).2.2.2.1 (by decide)
      [USB.suspendInterrupt, USB.clearFeatureInterrupt, USB.transmissionInterrupt]
      ⟨fun h => absurd h.2.1 (by decide),
        fun _ => by decide,
        fun h => absurd h.2.2.2.1 (by decide), trivial⟩,
    ⟨by decide, by decide, by decide, by decide, by decide, by decide⟩⟩

/-- C29 (what the code does instead): wake-up restores the saved status, which
may be Suspended. For every state and every status word with WKUP set and RESET
clear, with `t` the state left by the transfer block: when SUSP is set too, the
status after `irq()` is Suspended exactly when it is in `t`; when SUSP is clear,
exactly when both the status and `preSuspendStatus` are Suspended in `t`. With
CTR clear, `t` is the state on entry with ISTR cleared. -/
theorem C29_wakeup_restores_the_saved_status (st : State)
    (requestBuffer adjacentRx adjacentTx : Buf)
    (hwkup : (st.ISTR % 4294967296) &&& (1 <<< ISTR.WKUP) ≠ 0)
    (hreset : (st.ISTR % 4294967296) &&& (1 <<< ISTR.RESET) = 0) :
    ((st.ISTR % 4294967296) &&& (1 <<< ISTR.SUSP) ≠ 0 →
      ((USB.irq st requestBuffer adjacentRx adjacentTx).status = USB.Status.SUSPENDED
        ↔ (USB.irq.transfer (st.writeISTR 0) (st.ISTR % 4294967296) requestBuffer adjacentRx
            adjacentTx).status = USB.Status.SUSPENDED))
    ∧ ((st.ISTR % 4294967296) &&& (1 <<< ISTR.SUSP) = 0 →
      ((USB.irq st requestBuffer adjacentRx adjacentTx).status = USB.Status.SUSPENDED
        ↔ (USB.irq.transfer (st.writeISTR 0) (st.ISTR % 4294967296) requestBuffer adjacentRx
            adjacentTx).status = USB.Status.SUSPENDED
          ∧ (USB.irq.transfer (st.writeISTR 0) (st.ISTR % 4294967296) requestBuffer adjacentRx
            adjacentTx).preSuspendStatus = USB.Status.SUSPENDED))
    ∧ ((st.ISTR % 4294967296) &&& (1 <<< ISTR.CTR) = 0 →
      USB.irq.transfer (st.writeISTR 0) (st.ISTR % 4294967296) requestBuffer adjacentRx
        adjacentTx = st.writeISTR 0) := by
  have e : USB.irq st requestBuffer adjacentRx adjacentTx
      = USB.irq.wakeup (USB.irq.suspend
          (USB.irq.transfer (st.writeISTR 0) (st.ISTR % 4294967296) requestBuffer adjacentRx
            adjacentTx) (st.ISTR % 4294967296)) (st.ISTR % 4294967296) := by
    unfold USB.irq
    simp only [hreset, ne_eq, not_true_eq_false, if_false]
  have key : ∀ t : State,
      ((st.ISTR % 4294967296) &&& (1 <<< ISTR.SUSP) ≠ 0 →
        ((USB.irq.wakeup (USB.irq.suspend t (st.ISTR % 4294967296))
            (st.ISTR % 4294967296)).status = USB.Status.SUSPENDED
          ↔ t.status = USB.Status.SUSPENDED))
      ∧ ((st.ISTR % 4294967296) &&& (1 <<< ISTR.SUSP) = 0 →
        ((USB.irq.wakeup (USB.irq.suspend t (st.ISTR % 4294967296))
            (st.ISTR % 4294967296)).status = USB.Status.SUSPENDED
          ↔ t.status = USB.Status.SUSPENDED ∧ t.preSuspendStatus = USB.Status.SUSPENDED)) := by
    intro t
    refine ⟨fun hs => ?_, fun hs => ?_⟩
    · unfold USB.irq.wakeup USB.irq.suspend
      rw [if_pos hwkup, if_pos hs]
      by_cases hcb : t.suspendCallback = true <;> by_cases hrc : t.resumeCallback = true <;>
        simp [hcb, hrc]
    · unfold USB.irq.wakeup USB.irq.suspend
      rw [if_pos hwkup, if_neg (not_not.mpr hs)]
      by_cases h1 : t.status = USB.Status.SUSPENDED <;>
        by_cases hrc : t.resumeCallback = true <;> simp [h1, hrc]
  rw [e]
  refine ⟨(key _).1, (key _).2, fun hc => ?_⟩
  unfold USB.irq.transfer
  rw [if_neg (not_not.mpr hc)]

/-- C29 witness: after `init()`, a reset and two SUSP interrupts in a row
`preSuspendStatus` is Suspended, and the WKUP interrupt that follows leaves the
status Suspended. -/
theorem C29_wakeup_restores_the_saved_status_witness :
    (USB.init USB.construct (fun _ => true) 1 (fun _ => 0) (fun _ _ => 0)
        = some USB.exampleInitialisedState
      ∧ (USB.run USB.exampleInitialisedState [USB.resetInterrupt]).status = USB.Status.DEFAULT
      ∧ (USB.run USB.exampleInitialisedState
          [USB.resetInterrupt, USB.suspendInterrupt]).status = USB.Status.SUSPENDED
      ∧ (USB.run USB.exampleInitialisedState
          [USB.resetInterrupt, USB.suspendInterrupt]).preSuspendStatus = USB.Status.DEFAULT
      ∧ (USB.run USB.exampleInitialisedState
          [USB.resetInterrupt, USB.suspendInterrupt, USB.suspendInterrupt]).preSuspendStatus
        = USB.Status.SUSPENDED)
    ∧ (USB.run USB.exampleInitialisedState
        [USB.resetInterrupt, USB.suspendInterrupt, USB.suspendInterrupt,
          USB.wakeupInterrupt]).status = USB.Status.SUSPENDED :=
  ⟨⟨rfl, rfl, rfl, rfl, rfl⟩,
    ((C29_wakeup_restores_the_saved_status
      ((USB.run USB.exampleInitialisedState
        [USB.resetInterrupt, USB.suspendInterrupt, USB.suspendInterrupt]).peripheral
        0x1000 id id) (fun _ => 0) (fun _ => 0) (fun _ => 0) (by decide) (by decide)).2.1
      (by decide)).2 ⟨rfl, rfl⟩⟩

/-- C30: the receive capacity written by `initBufferDescriptor()` fits the
buffer. For every `rxBufferSize` in 2..62 or from 64 on, the capacity decoded
from the COUNT_RX half-word (`2 * NUM_BLOCK` with BL_SIZE 0,
`32 * (NUM_BLOCK + 1)` with BL_SIZE 1) is at most `rxBufferSize`, and the ten
count bits are 0. -/
theorem C30_receive_capacity_within_buffer (ep : USB_Endpoint) (st : State)
    (uninitialised : Nat) (adjacent : Buf)
    (hrx : (2 ≤ ep.rxBufferSize ∧ ep.rxBufferSize ≤ 62) ∨ 64 ≤ ep.rxBufferSize) :
    rxCapacity (readHalfword (ep.initBufferDescriptor st uninitialised adjacent).sram
        (ep.bufferDescriptorAddress + 6)) ≤ ep.rxBufferSize
    ∧ bitsValue (readHalfword (ep.initBufferDescriptor st uninitialised adjacent).sram
        (ep.bufferDescriptorAddress + 6)) 10 0 = 0 := by
  have hw : readHalfword (ep.initBufferDescriptor st uninitialised adjacent).sram
      (ep.bufferDescriptorAddress + 6) = countRxWord ep.rxBufferSize uninitialised := by
    unfold readHalfword
    rw [sram_initBufferDescriptor, Nat.shiftRight_eq_div_pow, if_pos (by omega)]
    have e : (ep.bufferDescriptorAddress + 6) / 2 ^ 1 - ep.bufferDescriptorAddress / 2 = 3 := by
      omega
    rw [e]
    have := bufferDescriptorWords_getD ep uninitialised 3 (by decide)
    have e2 : (ep.bufferDescriptorWords uninitialised).getD 3 0
        = countRxWord ep.rxBufferSize uninitialised := rfl
    omega
  rw [hw]
  rcases hrx with ⟨h1, h2⟩ | h1
  · rw [countRxWord_small _ _ h1 h2]
    obtain ⟨_, a, b, c⟩ := countRx_small_fields (ep.rxBufferSize / 2) (by omega)
    refine ⟨?_, c⟩
    rw [rxCapacity, if_pos a, b]
    omega
  · rw [countRxWord_large_any _ _ h1]
    obtain ⟨_, a, b, c⟩ := countRx_large_fields ((ep.rxBufferSize / 32 - 1) % 32)
      (Nat.mod_lt _ (by decide))
    refine ⟨?_, c⟩
    rw [rxCapacity, if_neg (by omega), b]
    have := Nat.mod_le (ep.rxBufferSize / 32 - 1) 32
    omega

/-- C30 witness: `rxBufferSize = 1100` gives the block number 33, of which the
5-bit field keeps 1; the half-word written decodes to 64 bytes. -/
theorem C30_receive_capacity_within_buffer_witness :
    ((2 ≤ ({ number := 0, rxBufferSize := 1100 } : USB_Endpoint).rxBufferSize
        ∧ ({ number := 0, rxBufferSize := 1100 } : USB_Endpoint).rxBufferSize ≤ 62)
      ∨ 64 ≤ ({ number := 0, rxBufferSize := 1100 } : USB_Endpoint).rxBufferSize)
    ∧ rxCapacity (readHalfword
        (({ number := 0, rxBufferSize := 1100 } : USB_Endpoint).initBufferDescriptor {} 0
          (fun _ => 0)).sram
        (({ number := 0, rxBufferSize := 1100 } : USB_Endpoint).bufferDescriptorAddress + 6))
      = 64
    ∧ rxCapacity (readHalfword
        (({ number := 0, rxBufferSize := 1100 } : USB_Endpoint).initBufferDescriptor {} 0
          (fun _ => 0)).sram
        (({ number := 0, rxBufferSize := 1100 } : USB_Endpoint).bufferDescriptorAddress + 6))
      ≤ ({ number := 0, rxBufferSize := 1100 } : USB_Endpoint).rxBufferSize :=
  ⟨Or.inr (by decide), by decide,
    (C30_receive_capacity_within_buffer { number := 0, rxBufferSize := 1100 } {} 0 (fun _ => 0)
      (Or.inr (by decide))).1⟩

end Claims3

end mcu
